import Mathlib

/-! # CHIP-8 interpreter (`main.c`): a shallow embedding and its verified properties

The machine state `chip_8` of `main.c` is a record of total functions over `Nat`
(arrays) and `Nat` scalars.  Machine integers are natural numbers; every store
into a `uint8_t` or `uint16_t` location is truncated explicitly (`u8`, `u16`).
`int` temporaries that can become negative (`sub_reg`, `sub_reg_switch`) are
`Int`.  An array access outside the bounds of `memory`, `keys`, `stack` or
`registers` is undefined in C; the embedding reports it as
`Fault.out_of_bounds`.  `not_implemented` (which calls `exit(1)`) is
`Fault.not_implemented`.  Diagnostics written to `stderr` are not modelled.
The value returned by `rand()` is a parameter of `step`.
-/

namespace Chip8

/-! ## Constants (`#define`s) -/

@[simp] def VIRTUAL_SCREEN_WIDTH : Nat := 64
@[simp] def VIRTUAL_SCREEN_HEIGHT : Nat := 32
@[simp] def MEMORY_SIZE : Nat := 0x1000
@[simp] def STACK_SIZE : Nat := 16
@[simp] def SCREEN_COLOR : Nat := 0xff05c714
@[simp] def FONTSET_SIZE : Nat := 80
@[simp] def FONTSET_MEMORY_OFFSET : Nat := 0x50
@[simp] def VF : Nat := 0xF
@[simp] def INSTRUCTION_SIZE : Nat := 2
@[simp] def LOAD_ADDRESS : Nat := 0x200

/-- The font glyph table `fontset`. -/
def fontset : List Nat :=
  [0xF0, 0x90, 0x90, 0x90, 0xF0,
   0x20, 0x60, 0x20, 0x20, 0x70,
   0xF0, 0x10, 0xF0, 0x80, 0xF0,
   0xF0, 0x10, 0xF0, 0x10, 0xF0,
   0x90, 0x90, 0xF0, 0x10, 0x10,
   0xF0, 0x80, 0xF0, 0x10, 0xF0,
   0xF0, 0x80, 0xF0, 0x90, 0xF0,
   0xF0, 0x10, 0x20, 0x40, 0x40,
   0xF0, 0x90, 0xF0, 0x90, 0xF0,
   0xF0, 0x90, 0xF0, 0x10, 0xF0,
   0xF0, 0x90, 0xF0, 0x90, 0x90,
   0xE0, 0x90, 0xE0, 0x90, 0xE0,
   0xF0, 0x80, 0x80, 0x80, 0xF0,
   0xE0, 0x90, 0x90, 0x90, 0xE0,
   0xF0, 0x80, 0xF0, 0x80, 0xF0,
   0xF0, 0x80, 0xF0, 0x80, 0x80]

/-! ## Machine integers and arrays -/

/-- Conversion to `uint8_t`. -/
def u8 (n : Nat) : Nat := n % 256

/-- Conversion to `uint16_t`. -/
def u16 (n : Nat) : Nat := n % 65536

/-- Conversion of a (possibly negative) `int` to `uint16_t`. -/
def u16_of_int (i : Int) : Nat := (i % 65536).toNat

/-- Conversion of a (possibly negative) `int` to `uint8_t`. -/
def u8_of_int (i : Int) : Nat := (i % 256).toNat

/-- Array store `f[i] = v`. -/
def upd (f : Nat → Nat) (i v : Nat) : Nat → Nat :=
  fun j => if j = i then v else f j

/-- Store into a two-dimensional array, `f[r][c] = v`. -/
def upd2 (f : Nat → Nat → Nat) (r c v : Nat) : Nat → Nat → Nat :=
  fun i j => if i = r ∧ j = c then v else f i j

/-- The ways a step can fail to produce a next state. -/
inductive Fault where
  /-- The function `not_implemented` was called with this instruction word. -/
  | not_implemented (instruction : Nat)
  /-- An array was indexed outside its bounds. -/
  | out_of_bounds
  deriving DecidableEq, Repr

/-! ## Machine state (`struct chip_8`) -/

/-- The record `chip_8`. -/
structure chip_8 where
  memory : Nat → Nat
  pixels : Nat → Nat → Nat
  stack : Nat → Nat
  registers : Nat → Nat
  address_register : Nat
  program_counter : Nat
  keys : Nat → Nat
  stack_pos : Nat
  delay_timer : Nat
  sound_timer : Nat
  waiting_for_key : Bool
  key_target_reg : Nat

/-- The function `init_chip_8`: zeroed state with the font at `0x50` and the
program counter at the load address. -/
def init_chip_8 : chip_8 where
  memory := fun a =>
    if FONTSET_MEMORY_OFFSET ≤ a ∧ a < FONTSET_MEMORY_OFFSET + FONTSET_SIZE then
      fontset.getD (a - FONTSET_MEMORY_OFFSET) 0
    else 0
  pixels := fun _ _ => 0
  stack := fun _ => 0
  registers := fun _ => 0
  keys := fun _ => 0
  address_register := 0
  program_counter := LOAD_ADDRESS
  stack_pos := 0
  delay_timer := 0
  sound_timer := 0
  waiting_for_key := false
  key_target_reg := 0

/-- The function `load_program`, given the bytes of the file: they are copied to
`memory + LOAD_ADDRESS`; a file larger than `MEMORY_SIZE - LOAD_ADDRESS` is refused. -/
def load_program (c : chip_8) (bytes : List Nat) : Option chip_8 :=
  if bytes.length > MEMORY_SIZE - LOAD_ADDRESS then none
  else
    some { c with
      memory := fun a =>
        if LOAD_ADDRESS ≤ a ∧ a < LOAD_ADDRESS + bytes.length
        then bytes.getD (a - LOAD_ADDRESS) 0
        else c.memory a }

/-- Read `c->memory[addr]`. -/
def mem_read (c : chip_8) (addr : Nat) : Except Fault Nat :=
  if addr < MEMORY_SIZE then .ok (c.memory addr) else .error .out_of_bounds

/-- Write `c->memory[addr] = v`, for a value `v` of type `uint8_t`. -/
def mem_write (c : chip_8) (addr v : Nat) : Except Fault chip_8 :=
  if addr < MEMORY_SIZE then .ok { c with memory := upd c.memory addr v }
  else .error .out_of_bounds

/-- The statement `c->program_counter += k`. -/
def advance (c : chip_8) (k : Nat) : chip_8 :=
  { c with program_counter := u16 (c.program_counter + k) }

/-! ## Stack -/

/-- The function `push`. -/
def push (c : chip_8) (value : Nat) : chip_8 :=
  if c.stack_pos + 1 ≥ STACK_SIZE - 1 then c
  else
    let c1 := { c with stack_pos := u8 (c.stack_pos + 1) }
    { c1 with stack := upd c1.stack c1.stack_pos value }

/-- The function `pop`: the popped value and the state after it. -/
def pop (c : chip_8) : Except Fault (Nat × chip_8) :=
  if c.stack_pos = 0 then .ok (u16_of_int (-1), c)
  else if c.stack_pos < STACK_SIZE then
    .ok (c.stack c.stack_pos, { c with stack_pos := c.stack_pos - 1 })
  else .error .out_of_bounds

/-! ## Instruction handlers -/

/-- The function `clear_screen`. -/
def clear_screen (c : chip_8) : chip_8 :=
  advance { c with pixels := fun _ _ => 0 } INSTRUCTION_SIZE

/-- The function `return_from_subroutine`. -/
def return_from_subroutine (c : chip_8) : Except Fault chip_8 :=
  match pop c with
  | .ok (r, c1) => .ok { c1 with program_counter := r }
  | .error e => .error e

/-- The function `goto_address`. -/
def goto_address (c : chip_8) (address : Nat) : chip_8 :=
  { c with program_counter := address }

/-- The function `call_subroutine`. -/
def call_subroutine (c : chip_8) (address : Nat) : chip_8 :=
  goto_address (push c (u16 (c.program_counter + INSTRUCTION_SIZE))) address

/-- The function `skip_equal`. -/
def skip_equal (c : chip_8) (reg val : Nat) : chip_8 :=
  if c.registers reg = val then advance c (2 * INSTRUCTION_SIZE)
  else advance c INSTRUCTION_SIZE

/-- The function `skip_not_equal`. -/
def skip_not_equal (c : chip_8) (reg val : Nat) : chip_8 :=
  if c.registers reg ≠ val then advance c (2 * INSTRUCTION_SIZE)
  else advance c INSTRUCTION_SIZE

/-- The function `skip_equal_reg`. -/
def skip_equal_reg (c : chip_8) (reg1 reg2 : Nat) : chip_8 :=
  if c.registers reg1 = c.registers reg2 then advance c (2 * INSTRUCTION_SIZE)
  else advance c INSTRUCTION_SIZE

/-- The function `load_imm`. -/
def load_imm (c : chip_8) (reg val : Nat) : chip_8 :=
  advance { c with registers := upd c.registers reg val } INSTRUCTION_SIZE

/-- The function `add_imm`. -/
def add_imm (c : chip_8) (reg val : Nat) : chip_8 :=
  advance { c with registers := upd c.registers reg (u8 (c.registers reg + val)) }
    INSTRUCTION_SIZE

/-- The function `mov`. -/
def mov (c : chip_8) (reg1 reg2 : Nat) : chip_8 :=
  advance { c with registers := upd c.registers reg1 (c.registers reg2) } INSTRUCTION_SIZE

/-- The function `bit_or`. -/
def bit_or (c : chip_8) (reg1 reg2 : Nat) : chip_8 :=
  advance { c with registers := upd c.registers reg1 (c.registers reg1 ||| c.registers reg2) }
    INSTRUCTION_SIZE

/-- The function `bit_and`. -/
def bit_and (c : chip_8) (reg1 reg2 : Nat) : chip_8 :=
  advance { c with registers := upd c.registers reg1 (c.registers reg1 &&& c.registers reg2) }
    INSTRUCTION_SIZE

/-- The function `bit_xor`. -/
def bit_xor (c : chip_8) (reg1 reg2 : Nat) : chip_8 :=
  advance { c with registers := upd c.registers reg1 (c.registers reg1 ^^^ c.registers reg2) }
    INSTRUCTION_SIZE

/-- The function `add_reg`: the flag is stored first, the sum second. -/
def add_reg (c : chip_8) (reg1 reg2 : Nat) : chip_8 :=
  let a := c.registers reg1
  let b := c.registers reg2
  let res := a + b
  let c1 := { c with registers := upd c.registers VF (if res > 0xff then 1 else 0) }
  let c2 := { c1 with registers := upd c1.registers reg1 (u8 (res &&& 0xff)) }
  advance c2 INSTRUCTION_SIZE

/-- The function `sub_reg`: `res = a - b` is a signed `int`. -/
def sub_reg (c : chip_8) (reg1 reg2 : Nat) : chip_8 :=
  let a : Int := c.registers reg1
  let b : Int := c.registers reg2
  let res := a - b
  let c1 := { c with registers := upd c.registers VF (if res ≥ 0 then 1 else 0) }
  let c2 := { c1 with registers := upd c1.registers reg1 (u8_of_int (Int.land res 0xff)) }
  advance c2 INSTRUCTION_SIZE

/-- The function `shift_right`: the register is read again after the flag store. -/
def shift_right (c : chip_8) (reg : Nat) : chip_8 :=
  let c1 := { c with registers := upd c.registers VF (u8 (c.registers reg &&& 1)) }
  let c2 := { c1 with registers := upd c1.registers reg (u8 (c1.registers reg >>> 1)) }
  advance c2 INSTRUCTION_SIZE

/-- The function `sub_reg_switch`: `res = b - a` is a signed `int`. -/
def sub_reg_switch (c : chip_8) (reg1 reg2 : Nat) : chip_8 :=
  let a : Int := c.registers reg1
  let b : Int := c.registers reg2
  let res := b - a
  let c1 := { c with registers := upd c.registers VF (if res ≥ 0 then 1 else 0) }
  let c2 := { c1 with registers := upd c1.registers reg1 (u8_of_int (Int.land res 0xff)) }
  advance c2 INSTRUCTION_SIZE

/-- The function `shift_left`: the register is read again after the flag store. -/
def shift_left (c : chip_8) (reg : Nat) : chip_8 :=
  let c1 := { c with registers := upd c.registers VF (u8 ((c.registers reg >>> 7) &&& 1)) }
  let c2 := { c1 with registers := upd c1.registers reg (u8 (c1.registers reg <<< 1)) }
  advance c2 INSTRUCTION_SIZE

/-- The function `skip_not_equal_reg`. -/
def skip_not_equal_reg (c : chip_8) (reg1 reg2 : Nat) : chip_8 :=
  if c.registers reg1 ≠ c.registers reg2 then advance c (2 * INSTRUCTION_SIZE)
  else advance c INSTRUCTION_SIZE

/-- The function `set_address_reg`. -/
def set_address_reg (c : chip_8) (val : Nat) : chip_8 :=
  advance { c with address_register := val } INSTRUCTION_SIZE

/-- The function `goto_address_plus_V0`. -/
def goto_address_plus_V0 (c : chip_8) (address : Nat) : chip_8 :=
  { c with program_counter := u16 (address + c.registers 0) }

/-- The function `rand_mod`; `rnd` is the value returned by `rand()`. -/
def rand_mod (c : chip_8) (rnd reg m : Nat) : chip_8 :=
  advance { c with registers := upd c.registers reg (u8 (rnd &&& m)) } INSTRUCTION_SIZE

/-- The body of the inner loop of `draw_sprite`, for sprite row `y` and column `x`. -/
def draw_pixel (x_start y_start y x : Nat) (c : chip_8) : Except Fault chip_8 :=
  let y_pos := (y_start + y) % VIRTUAL_SCREEN_HEIGHT
  let x_pos := (x_start + x) % VIRTUAL_SCREEN_WIDTH
  let old_color := c.pixels y_pos x_pos
  match mem_read c (c.address_register + y) with
  | .error e => .error e
  | .ok byte =>
    let bit_value := (byte >>> (7 - x)) &&& 1
    let draw_color := if bit_value ≠ 0 then SCREEN_COLOR else 0
    let new_color := old_color ^^^ draw_color
    let c1 := if old_color ≠ 0 ∧ draw_color ≠ 0
      then { c with registers := upd c.registers VF 1 } else c
    .ok { c1 with pixels := upd2 c1.pixels y_pos x_pos new_color }

/-- The inner loop of `draw_sprite` (`x = 0, ..., 7`) for sprite row `y`. -/
def draw_row (x_start y_start : Nat) (c : chip_8) (y : Nat) : Except Fault chip_8 :=
  (List.range 8).foldlM (fun c x => draw_pixel x_start y_start y x c) c

/-- The function `draw_sprite`: both coordinates are read before `VF` is cleared. -/
def draw_sprite (c : chip_8) (reg1 reg2 n : Nat) : Except Fault chip_8 :=
  let x_start := c.registers reg1
  let y_start := c.registers reg2
  let c0 := { c with registers := upd c.registers VF 0 }
  match (List.range n).foldlM (draw_row x_start y_start) c0 with
  | .error e => .error e
  | .ok c1 => .ok (advance c1 INSTRUCTION_SIZE)

/-- The function `skip_if_key_pressed`. -/
def skip_if_key_pressed (c : chip_8) (reg : Nat) : Except Fault chip_8 :=
  if c.registers reg < 16 then
    if c.keys (c.registers reg) = 1 then .ok (advance c (2 * INSTRUCTION_SIZE))
    else .ok (advance c INSTRUCTION_SIZE)
  else .error .out_of_bounds

/-- The function `skip_if_key_not_pressed`. -/
def skip_if_key_not_pressed (c : chip_8) (reg : Nat) : Except Fault chip_8 :=
  if c.registers reg < 16 then
    if c.keys (c.registers reg) = 0 then .ok (advance c (2 * INSTRUCTION_SIZE))
    else .ok (advance c INSTRUCTION_SIZE)
  else .error .out_of_bounds

/-- The function `get_delay`. -/
def get_delay (c : chip_8) (reg : Nat) : chip_8 :=
  advance { c with registers := upd c.registers reg c.delay_timer } INSTRUCTION_SIZE

/-- The function `wait_for_key`. -/
def wait_for_key (c : chip_8) (reg : Nat) : chip_8 :=
  advance { c with waiting_for_key := true, key_target_reg := reg } INSTRUCTION_SIZE

/-- The function `key_event`. -/
def key_event (c : chip_8) (key : Nat) : Except Fault chip_8 :=
  if c.key_target_reg < 16 then
    .ok { c with registers := upd c.registers c.key_target_reg key, waiting_for_key := false }
  else .error .out_of_bounds

/-- The function `set_delay`. -/
def set_delay (c : chip_8) (reg : Nat) : chip_8 :=
  advance { c with delay_timer := c.registers reg } INSTRUCTION_SIZE

/-- The function `set_sound`. -/
def set_sound (c : chip_8) (reg : Nat) : chip_8 :=
  advance { c with sound_timer := c.registers reg } INSTRUCTION_SIZE

/-- The function `add_address_reg`. -/
def add_address_reg (c : chip_8) (reg : Nat) : chip_8 :=
  advance { c with address_register := u16 (c.address_register + c.registers reg) }
    INSTRUCTION_SIZE

/-- The function `set_font_char`. -/
def set_font_char (c : chip_8) (reg : Nat) : chip_8 :=
  advance { c with address_register := u16 (FONTSET_MEMORY_OFFSET + c.registers reg * 5) }
    INSTRUCTION_SIZE

/-- The function `set_bcd`. -/
def set_bcd (c : chip_8) (reg : Nat) : Except Fault chip_8 :=
  let num := c.registers reg
  let ones := num % 10
  let tens := (num / 10) % 10
  let huns := (num / 100) % 10
  match mem_write c (c.address_register + 0) (u8 (huns &&& 0xff)) with
  | .error e => .error e
  | .ok c1 =>
    match mem_write c1 (c1.address_register + 1) (u8 (tens &&& 0xff)) with
    | .error e => .error e
    | .ok c2 =>
      match mem_write c2 (c2.address_register + 2) (u8 (ones &&& 0xff)) with
      | .error e => .error e
      | .ok c3 => .ok (advance c3 INSTRUCTION_SIZE)

/-- The body of the loop of `reg_dump`. -/
def reg_dump_body (c : chip_8) (i : Nat) : Except Fault chip_8 :=
  mem_write c (c.address_register + i) (c.registers i)

/-- The function `reg_dump`: the loop runs for `i = 0, ..., reg` inclusive. -/
def reg_dump (c : chip_8) (reg : Nat) : Except Fault chip_8 :=
  match (List.range (reg + 1)).foldlM reg_dump_body c with
  | .error e => .error e
  | .ok c1 => .ok (advance c1 INSTRUCTION_SIZE)

/-- The body of the loop of `reg_load`. -/
def reg_load_body (c : chip_8) (i : Nat) : Except Fault chip_8 :=
  match mem_read c (c.address_register + i) with
  | .error e => .error e
  | .ok v => .ok { c with registers := upd c.registers i v }

/-- The function `reg_load`: the loop runs for `i = 0, ..., reg` inclusive. -/
def reg_load (c : chip_8) (reg : Nat) : Except Fault chip_8 :=
  match (List.range (reg + 1)).foldlM reg_load_body c with
  | .error e => .error e
  | .ok c1 => .ok (advance c1 INSTRUCTION_SIZE)

/-- The function `not_implemented`: the process exits. -/
def not_implemented {α : Type} (instruction : Nat) : Except Fault α :=
  .error (.not_implemented instruction)

/-! ## The driver -/

/-- The key scan of `step`: the first index `i` in `0, ..., 15` with `keys[i] != 0`. -/
def first_pressed_key (c : chip_8) : Option Nat :=
  (List.range 16).find? (fun i => c.keys i != 0)

/-- The handler returned, `step` leaves the `switch` and reaches `return 0`. -/
def normal (c1 : chip_8) : Except Fault (Nat × chip_8) := .ok (0, c1)

/-- The same as `normal` for a handler that may index an array out of bounds. -/
def normal_of (r : Except Fault chip_8) : Except Fault (Nat × chip_8) :=
  match r with
  | .ok c1 => .ok (0, c1)
  | .error e => .error e

/-- The fetch, decode and execute part of `step` (from the fetch of `hi` on). -/
def execute (c : chip_8) (rnd : Nat) : Except Fault (Nat × chip_8) :=
  match mem_read c c.program_counter, mem_read c (c.program_counter + 1) with
  | .error e, _ => .error e
  | _, .error e => .error e
  | .ok hi, .ok lo =>
    let full := (hi <<< 8) ||| lo
    match hi >>> 4 with
    | 0x0 =>
      if full = 0x00E0 then normal (clear_screen c)
      else if full = 0x00EE then normal_of (return_from_subroutine c)
      else not_implemented full
    | 0x1 => normal (goto_address c (full &&& 0xfff))
    | 0x2 => normal (call_subroutine c (full &&& 0xfff))
    | 0x3 => normal (skip_equal c (hi &&& 0xf) lo)
    | 0x4 => normal (skip_not_equal c (hi &&& 0xf) lo)
    | 0x5 => normal (skip_equal_reg c (hi &&& 0xf) (lo >>> 4))
    | 0x6 => normal (load_imm c (hi &&& 0xf) lo)
    | 0x7 => normal (add_imm c (hi &&& 0xf) lo)
    | 0x8 =>
      if lo &&& 0xf = 0 then normal (mov c (hi &&& 0xf) (lo >>> 4))
      else if lo &&& 0xf = 1 then normal (bit_or c (hi &&& 0xf) (lo >>> 4))
      else if lo &&& 0xf = 2 then normal (bit_and c (hi &&& 0xf) (lo >>> 4))
      else if lo &&& 0xf = 3 then normal (bit_xor c (hi &&& 0xf) (lo >>> 4))
      else if lo &&& 0xf = 4 then normal (add_reg c (hi &&& 0xf) (lo >>> 4))
      else if lo &&& 0xf = 5 then normal (sub_reg c (hi &&& 0xf) (lo >>> 4))
      else if lo &&& 0xf = 6 then normal (shift_right c (hi &&& 0xf))
      else if lo &&& 0xf = 7 then normal (sub_reg_switch c (hi &&& 0xf) (lo >>> 4))
      else if lo &&& 0xf = 0xe then normal (shift_left c (hi &&& 0xf))
      else not_implemented full
    | 0x9 => normal (skip_not_equal_reg c (hi &&& 0xf) (lo >>> 4))
    | 0xa => normal (set_address_reg c (full &&& 0xfff))
    | 0xb => normal (goto_address_plus_V0 c (full &&& 0xfff))
    | 0xc => normal (rand_mod c rnd (hi &&& 0xf) lo)
    | 0xd =>
      match draw_sprite c (hi &&& 0xf) (lo >>> 4) (lo &&& 0xf) with
      | .ok c1 => .ok (2, c1)
      | .error e => .error e
    | 0xe =>
      if lo = 0x9e then normal_of (skip_if_key_pressed c (hi &&& 0xf))
      else if lo = 0xa1 then normal_of (skip_if_key_not_pressed c (hi &&& 0xf))
      else not_implemented full
    | 0xf =>
      if lo = 0x07 then normal (get_delay c (hi &&& 0xf))
      else if lo = 0x0a then normal (wait_for_key c (hi &&& 0xf))
      else if lo = 0x15 then normal (set_delay c (hi &&& 0xf))
      else if lo = 0x18 then normal (set_sound c (hi &&& 0xf))
      else if lo = 0x1e then normal (add_address_reg c (hi &&& 0xf))
      else if lo = 0x29 then normal (set_font_char c (hi &&& 0xf))
      else if lo = 0x33 then normal_of (set_bcd c (hi &&& 0xf))
      else if lo = 0x55 then normal_of (reg_dump c (hi &&& 0xf))
      else if lo = 0x65 then normal_of (reg_load c (hi &&& 0xf))
      else not_implemented full
    | _ => not_implemented full

/-- The function `step`: the returned number is the `int` result of the C function
(`0` normal, `1` idle key wait, `2` redraw due); `rnd` is what `rand()` would return. -/
def step (c : chip_8) (rnd : Nat) : Except Fault (Nat × chip_8) :=
  if c.waiting_for_key then
    match first_pressed_key c with
    | some i =>
      match key_event c i with
      | .ok c1 => execute c1 rnd
      | .error e => .error e
    | none => .ok (1, c)
  else execute c rnd

/-! ## Example states -/

/-- The state `c` with the two bytes `hi`, `lo` stored at its program counter. -/
def with_instruction (c : chip_8) (hi lo : Nat) : chip_8 :=
  { c with memory := upd (upd c.memory c.program_counter hi) (c.program_counter + 1) lo }

/-- The state `c` with register `reg` holding `v`. -/
def with_register (c : chip_8) (reg v : Nat) : chip_8 :=
  { c with registers := upd c.registers reg v }

/-- Initial state, `VF = 5`, `V1 = 3`, instruction `8F14` (add `V1` to `VF`). -/
def example_add_vf : chip_8 :=
  with_instruction (with_register (with_register init_chip_8 0xF 5) 1 3) 0x8F 0x14

/-- Initial state, `VF = 3`, instruction `8F06` (shift `VF` right). -/
def example_shr_vf : chip_8 :=
  with_instruction (with_register init_chip_8 0xF 3) 0x8F 0x06

/-- Initial state, `V0 = 200`, `V1 = 100`, instruction `8014`. -/
def example_add : chip_8 :=
  with_instruction (with_register (with_register init_chip_8 0 200) 1 100) 0x80 0x14

/-- Initial state, `V2 = 7`, `V3 = 7`, instruction `8235`. -/
def example_sub : chip_8 :=
  with_instruction (with_register (with_register init_chip_8 2 7) 3 7) 0x82 0x35

/-- Initial state, `V2 = 7`, `V3 = 7`, instruction `8237`. -/
def example_sub_switch : chip_8 :=
  with_instruction (with_register (with_register init_chip_8 2 7) 3 7) 0x82 0x37

/-- Initial state, `V4 = 0x81`, instruction `8456`. -/
def example_shr : chip_8 :=
  with_instruction (with_register init_chip_8 4 0x81) 0x84 0x56

/-- Initial state, `V4 = 0x81`, instruction `845E`. -/
def example_shl : chip_8 :=
  with_instruction (with_register init_chip_8 4 0x81) 0x84 0x5E

/-- Initial state with the program `F5 0A 60 2A` (wait for a key into `V5`, then load
`0x2A` into `V0`) at the load address. -/
def example_wait : chip_8 :=
  { init_chip_8 with
    memory := upd (upd (upd (upd init_chip_8.memory 0x200 0xF5) 0x201 0x0A) 0x202 0x60)
      0x203 0x2A }

/-- The state `example_wait` after its first instruction, `F50A`; no key is pressed. -/
def example_waiting : chip_8 := wait_for_key example_wait 5

/-- The state `example_waiting` with the keys 3 and 7 pressed. -/
def example_key_pressed : chip_8 :=
  { example_waiting with keys := upd (upd example_waiting.keys 7 1) 3 1 }

/-- The running state that the key capture produces from `example_key_pressed`:
`V5 = 3` and the wait flag cleared. -/
def example_resumed : chip_8 :=
  { example_key_pressed with
    registers := upd example_key_pressed.registers 5 3
    waiting_for_key := false }

/-- Initial state with `V0 = 60`, `V1 = 30` and the address register at the glyph of `0`
(bytes `F0 90 90 90 F0`). -/
def example_draw : chip_8 :=
  { with_register (with_register init_chip_8 0 60) 1 30 with address_register := 0x50 }

/-! ## Closed form of the loops of `draw_sprite` -/

/-- The framebuffer position `(row, column)` written for the sprite cell `p = (y, x)`. -/
def sprite_target (x_start y_start : Nat) (p : Nat × Nat) : Nat × Nat :=
  ((y_start + p.1) % VIRTUAL_SCREEN_HEIGHT, (x_start + p.2) % VIRTUAL_SCREEN_WIDTH)

/-- Whether the sprite bit of the cell `p = (y, x)` is set: bit `7 - x` of `memory[I + y]`. -/
def sprite_lit (c : chip_8) (p : Nat × Nat) : Bool :=
  (c.memory (c.address_register + p.1) >>> (7 - p.2)) &&& 1 != 0

/-- Whether some lit cell of `cells` is drawn at framebuffer position `(r, k)`. -/
def hits (c : chip_8) (x_start y_start : Nat) (cells : List (Nat × Nat)) (r k : Nat) : Bool :=
  cells.any (fun p => decide (sprite_target x_start y_start p = (r, k)) && sprite_lit c p)

/-- Whether some lit cell of `cells` is drawn on a pixel of `c` that is not zero. -/
def collides (c : chip_8) (x_start y_start : Nat) (cells : List (Nat × Nat)) : Bool :=
  cells.any (fun p =>
    c.pixels (sprite_target x_start y_start p).1 (sprite_target x_start y_start p).2 != 0
      && sprite_lit c p)

/-- The framebuffer of `c` with the display colour XOR-ed into every position hit. -/
def toggled (c : chip_8) (x_start y_start : Nat) (cells : List (Nat × Nat)) : Nat → Nat → Nat :=
  fun r k => c.pixels r k ^^^ (if hits c x_start y_start cells r k then SCREEN_COLOR else 0)

/-- The registers of `c` with `VF` set to 1 if a collision occurs. -/
def flagged (c : chip_8) (x_start y_start : Nat) (cells : List (Nat × Nat)) : Nat → Nat :=
  if collides c x_start y_start cells then upd c.registers VF 1 else c.registers

/-- The sprite cells `(y, x)` in the order the two loops of `draw_sprite` visit them. -/
def sprite_cells (n : Nat) : List (Nat × Nat) :=
  List.product (List.range n) (List.range 8)

/-- The state that `draw_sprite` produces, in closed form. -/
def draw_sprite_result (c : chip_8) (reg1 reg2 n : Nat) : chip_8 :=
  let x_start := c.registers reg1
  let y_start := c.registers reg2
  let c0 := { c with registers := upd c.registers VF 0 }
  advance { c0 with
    pixels := toggled c0 x_start y_start (sprite_cells n)
    registers := flagged c0 x_start y_start (sprite_cells n) } INSTRUCTION_SIZE

/-- The state `example_draw` after the glyph of `0` has been drawn once with 4 rows. -/
def example_drawn : chip_8 := draw_sprite_result example_draw 0 1 4

/-! ## Register dump and load -/

/-- The state that `reg_dump` produces, in closed form: the bytes at
`I, ..., I + reg` hold the registers `0, ..., reg`. -/
def reg_dump_result (c : chip_8) (reg : Nat) : chip_8 :=
  advance { c with
    memory := fun a =>
      if c.address_register ≤ a ∧ a ≤ c.address_register + reg
      then c.registers (a - c.address_register) else c.memory a } INSTRUCTION_SIZE

/-- The state that `reg_load` produces, in closed form: the registers `0, ..., reg`
hold the bytes at `I, ..., I + reg`. -/
def reg_load_result (c : chip_8) (reg : Nat) : chip_8 :=
  advance { c with
    registers := fun i =>
      if i ≤ reg then c.memory (c.address_register + i) else c.registers i } INSTRUCTION_SIZE

/-- The operation of the round-trip scenario between the dump and the load: the
registers `0, ..., reg` are set to zero, nothing else changes. -/
def zero_registers (c : chip_8) (reg : Nat) : chip_8 :=
  { c with registers := fun i => if i ≤ reg then 0 else c.registers i }

/-- Initial state with `V0 = 0x11`, `V1 = 0x22`, `V2 = 0x33`, `V3 = 255` and the address
register at `0x300`. -/
def example_registers : chip_8 :=
  { with_register (with_register (with_register (with_register init_chip_8 0 0x11) 1 0x22)
      2 0x33) 3 255 with address_register := 0x300 }

/-- The state that `set_bcd` produces, in closed form. -/
def set_bcd_result (c : chip_8) (reg : Nat) : chip_8 :=
  advance { c with
    memory := upd (upd (upd c.memory c.address_register (c.registers reg / 100 % 10))
      (c.address_register + 1) (c.registers reg / 10 % 10))
      (c.address_register + 2) (c.registers reg % 10) } INSTRUCTION_SIZE

/-- Initial state with `V2 = 7`, `V3 = 7` and the instruction bytes `hi`, `lo` at the
program counter. -/
def example_skip (hi lo : Nat) : chip_8 :=
  with_instruction (with_register (with_register init_chip_8 2 7) 3 7) hi lo

/-- Initial state with the program `2300` at `0x200` (call `0x300`), `2400` at `0x300`
(call `0x400`), `00EE` at `0x400` and `00EE` at `0x302`. -/
def example_calls : chip_8 :=
  { init_chip_8 with
    memory := upd (upd (upd (upd (upd (upd (upd (upd init_chip_8.memory
      0x200 0x23) 0x201 0x00) 0x300 0x24) 0x301 0x00) 0x400 0x00) 0x401 0xEE)
      0x302 0x00) 0x303 0xEE }

/-- The state `example_calls` after its first call, `2300`. -/
def example_called : chip_8 := call_subroutine example_calls 0x300

/-- The state after the nested second call, `2400` at `0x300`. -/
def example_called_twice : chip_8 := call_subroutine example_called 0x400

/-- The state after the first return, `00EE` at `0x400`. -/
def example_returned : chip_8 :=
  { example_called_twice with program_counter := 0x302, stack_pos := 1 }

/-! ## Running several steps -/

/-- The driver loop: `n` successive calls of `step`, with `rand()` returning 0 and the
keypad left as it is; the loop stops at the first fault. -/
def run : Nat → chip_8 → Except Fault chip_8
  | 0, c => .ok c
  | n + 1, c =>
    match step c 0 with
    | .ok (_, c1) => run n c1
    | .error e => .error e

/-- A program of 16 nested calls followed by a return: the call at `0x200 + 2 * i`
(`i = 0, ..., 15`) jumps to the next instruction, `0x200 + 2 * (i + 1)`, so its return
address is its own target; `00EE` is at `0x220`. -/
def nested_calls_program : List Nat :=
  [0x22, 0x02, 0x22, 0x04, 0x22, 0x06, 0x22, 0x08, 0x22, 0x0A, 0x22, 0x0C, 0x22, 0x0E,
   0x22, 0x10, 0x22, 0x12, 0x22, 0x14, 0x22, 0x16, 0x22, 0x18, 0x22, 0x1A, 0x22, 0x1C,
   0x22, 0x1E, 0x22, 0x20, 0x00, 0xEE]

/-- The initial state with `nested_calls_program` loaded. -/
def example_nested_calls : chip_8 :=
  (load_program init_chip_8 nested_calls_program).getD init_chip_8

/-- The state `example_calls` with 14 return addresses on the stack. -/
def example_full_stack : chip_8 := { example_calls with stack_pos := 14 }

/-- Initial state with the instruction `00EE` at the program counter (empty stack). -/
def example_return_empty : chip_8 := with_instruction init_chip_8 0x00 0xEE

/-- Initial state with `V0 = 0x34` and the instruction bytes `hi`, `lo` at the program
counter. -/
def example_jump (hi lo : Nat) : chip_8 :=
  with_instruction (with_register init_chip_8 0 0x34) hi lo

/-- Initial state with `V1 = 0x1A` and the instruction `F129`. -/
def example_font_large : chip_8 :=
  with_instruction (with_register init_chip_8 1 0x1A) 0xF1 0x29

/-- Initial state with `V1 = 0x0A` and the instruction `F129`. -/
def example_font : chip_8 :=
  with_instruction (with_register init_chip_8 1 0x0A) 0xF1 0x29

/-! ## Opcode patterns -/

/-- Whether the hexadecimal digit `d` fits a pattern position: `some k` is the fixed digit
`k`, `none` is a variable digit (`x`, `y`, `k` or `n` in the pattern notation). -/
def digit_matches (p : Option Nat) (d : Nat) : Bool :=
  match p with
  | none => true
  | some k => d == k

/-- Whether the word with the hexadecimal digits `a b c d` fits the four-digit pattern. -/
def pattern_matches (p : Option Nat × Option Nat × Option Nat × Option Nat)
    (a b c d : Nat) : Bool :=
  digit_matches p.1 a && digit_matches p.2.1 b && digit_matches p.2.2.1 c
    && digit_matches p.2.2.2 d

/-- The opcode patterns as listed in the specification: 00E0, 00EE, 1nnn, 2nnn, 3xkk, 4xkk,
5xy0, 6xkk, 7xkk, 8xy0..8xy7, 8xyE, 9xy0, Annn, Bnnn, Cxkk, Dxyn, Ex9E, ExA1, Fx07, Fx0A,
Fx15, Fx18, Fx1E, Fx29, Fx33, Fx55, Fx65. -/
def spec_opcode_patterns : List (Option Nat × Option Nat × Option Nat × Option Nat) :=
  [(some 0x0, some 0x0, some 0xE, some 0x0), (some 0x0, some 0x0, some 0xE, some 0xE),
   (some 0x1, none, none, none), (some 0x2, none, none, none),
   (some 0x3, none, none, none), (some 0x4, none, none, none),
   (some 0x5, none, none, some 0x0),
   (some 0x6, none, none, none), (some 0x7, none, none, none),
   (some 0x8, none, none, some 0x0), (some 0x8, none, none, some 0x1),
   (some 0x8, none, none, some 0x2), (some 0x8, none, none, some 0x3),
   (some 0x8, none, none, some 0x4), (some 0x8, none, none, some 0x5),
   (some 0x8, none, none, some 0x6), (some 0x8, none, none, some 0x7),
   (some 0x8, none, none, some 0xE),
   (some 0x9, none, none, some 0x0),
   (some 0xA, none, none, none), (some 0xB, none, none, none),
   (some 0xC, none, none, none), (some 0xD, none, none, none),
   (some 0xE, none, some 0x9, some 0xE), (some 0xE, none, some 0xA, some 0x1),
   (some 0xF, none, some 0x0, some 0x7), (some 0xF, none, some 0x0, some 0xA),
   (some 0xF, none, some 0x1, some 0x5), (some 0xF, none, some 0x1, some 0x8),
   (some 0xF, none, some 0x1, some 0xE), (some 0xF, none, some 0x2, some 0x9),
   (some 0xF, none, some 0x3, some 0x3), (some 0xF, none, some 0x5, some 0x5),
   (some 0xF, none, some 0x6, some 0x5)]

/-- The opcode patterns that `step` executes: the listed ones, with the families 5 and 9
taken for every low nibble (5xyn and 9xyn). -/
def executed_opcode_patterns : List (Option Nat × Option Nat × Option Nat × Option Nat) :=
  [(some 0x0, some 0x0, some 0xE, some 0x0), (some 0x0, some 0x0, some 0xE, some 0xE),
   (some 0x1, none, none, none), (some 0x2, none, none, none),
   (some 0x3, none, none, none), (some 0x4, none, none, none),
   (some 0x5, none, none, none),
   (some 0x6, none, none, none), (some 0x7, none, none, none),
   (some 0x8, none, none, some 0x0), (some 0x8, none, none, some 0x1),
   (some 0x8, none, none, some 0x2), (some 0x8, none, none, some 0x3),
   (some 0x8, none, none, some 0x4), (some 0x8, none, none, some 0x5),
   (some 0x8, none, none, some 0x6), (some 0x8, none, none, some 0x7),
   (some 0x8, none, none, some 0xE),
   (some 0x9, none, none, none),
   (some 0xA, none, none, none), (some 0xB, none, none, none),
   (some 0xC, none, none, none), (some 0xD, none, none, none),
   (some 0xE, none, some 0x9, some 0xE), (some 0xE, none, some 0xA, some 0x1),
   (some 0xF, none, some 0x0, some 0x7), (some 0xF, none, some 0x0, some 0xA),
   (some 0xF, none, some 0x1, some 0x5), (some 0xF, none, some 0x1, some 0x8),
   (some 0xF, none, some 0x1, some 0xE), (some 0xF, none, some 0x2, some 0x9),
   (some 0xF, none, some 0x3, some 0x3), (some 0xF, none, some 0x5, some 0x5),
   (some 0xF, none, some 0x6, some 0x5)]

/-- Whether the word with the digits `a b c d` fits one of the patterns of the list. -/
def matches_some (l : List (Option Nat × Option Nat × Option Nat × Option Nat))
    (a b c d : Nat) : Bool :=
  l.any (fun p => pattern_matches p a b c d)

/-- The result of a step is the unimplemented-instruction fault (for some word). -/
def unimplemented (r : Except Fault (Nat × chip_8)) : Prop :=
  ∃ w, r = .error (.not_implemented w)

/-- The state `example_drawn` with the instruction `00E0` at the program counter. -/
def example_clear : chip_8 := with_instruction example_drawn 0x00 0xE0

/-! ## Debugger (`struct debugger`) -/

/-- The function `get_current_instruction`. -/
def get_current_instruction (c : chip_8) : Except Fault Nat :=
  match mem_read c c.program_counter, mem_read c (c.program_counter + 1) with
  | .error e, _ => .error e
  | _, .error e => .error e
  | .ok hi, .ok lo => .ok (u16 ((hi <<< 8) ||| lo))

/-- The function `get_next_instruction`. -/
def get_next_instruction (c : chip_8) : Except Fault Nat :=
  match mem_read c (c.program_counter + 2), mem_read c (c.program_counter + 3) with
  | .error e, _ => .error e
  | _, .error e => .error e
  | .ok hi, .ok lo => .ok (u16 ((hi <<< 8) ||| lo))

/-- The record `debugger`; the three trigger arrays have 10 entries each. -/
structure debugger where
  chip : chip_8
  previous_instruction : Nat
  current_instruction : Nat
  next_instruction : Nat
  breakpoints : Nat → Nat
  no_breakpoints : Nat
  break_instructions : Nat → Nat
  no_break_instructions : Nat
  break_address_reg : Nat → Nat
  no_break_addres_regs : Nat

/-- The function `init_debugger`. -/
def init_debugger (c : chip_8) : Except Fault debugger :=
  match get_current_instruction c, get_next_instruction c with
  | .error e, _ => .error e
  | _, .error e => .error e
  | .ok cur, .ok next =>
    .ok { chip := c
          previous_instruction := 0
          current_instruction := cur
          next_instruction := next
          breakpoints := fun _ => 0
          no_breakpoints := 0
          break_instructions := fun _ => 0
          no_break_instructions := 0
          break_address_reg := fun _ => 0
          no_break_addres_regs := 0 }

/-- The function `add_debug_instruction`.  The source stores at index
`no_break_instructions` and increments the count, with no test against the array length;
a store at index 10 or above is outside `break_instructions[10]`. -/
def add_debug_instruction (d : debugger) (instruction : Nat) : Except Fault debugger :=
  if d.no_break_instructions < 10 then
    .ok { d with
      break_instructions := upd d.break_instructions d.no_break_instructions instruction
      no_break_instructions := u16 (d.no_break_instructions + 1) }
  else .error .out_of_bounds

/-- The function `add_break_address_reg`.  The source stores at index
`no_break_addres_regs` and increments the count, with no test against the array length;
a store at index 10 or above is outside `break_address_reg[10]`. -/
def add_break_address_reg (d : debugger) (address : Nat) : Except Fault debugger :=
  if d.no_break_addres_regs < 10 then
    .ok { d with
      break_address_reg := upd d.break_address_reg d.no_break_addres_regs address
      no_break_addres_regs := u16 (d.no_break_addres_regs + 1) }
  else .error .out_of_bounds

/-- The debugger of the initial machine after ten calls of `add_debug_instruction` (with
the masks `0xF000, ..., 0xF009`) and ten calls of `add_break_address_reg` (with the
addresses `0x200, ..., 0x209`). -/
def example_debugger_full : Except Fault debugger :=
  match init_debugger init_chip_8 with
  | .error e => .error e
  | .ok d0 =>
    match (List.range 10).foldlM (fun d i => add_debug_instruction d (0xF000 + i)) d0 with
    | .error e => .error e
    | .ok d1 => (List.range 10).foldlM (fun d i => add_break_address_reg d (0x200 + i)) d1

/-! ## Invariants and reachable states -/

/-- Every one of the 32 x 64 pixels is either off (0) or on (`SCREEN_COLOR`). -/
def on_off (c : chip_8) : Prop :=
  ∀ r, r < VIRTUAL_SCREEN_HEIGHT → ∀ k, k < VIRTUAL_SCREEN_WIDTH →
    c.pixels r k = 0 ∨ c.pixels r k = SCREEN_COLOR

/-- The states the main loop can reach from `c0`: before each call of `step` the host
overwrites the keypad and the two timers (here with arbitrary values), then `step` runs
without a fault, with an arbitrary value returned by `rand()`. -/
inductive reachable (c0 : chip_8) : chip_8 → Prop where
  | start : reachable c0 c0
  | next (c c1 : chip_8) (keys : Nat → Nat) (delay sound rnd r : Nat) :
      reachable c0 c →
      step { c with keys := keys, delay_timer := delay, sound_timer := sound } rnd
        = .ok (r, c1) →
      reachable c0 c1

/-- The state `example_drawn` (the glyph of `0` is on the screen) with the instruction
`2300` (call `0x300`) at the program counter. -/
def example_drawn_call : chip_8 := with_instruction example_drawn 0x23 0x00

/-! # Theorems -/

/-! ## Bit-level facts used by the decoder -/

theorem shiftRight_four (n : Nat) : n >>> 4 = n / 16 :=
  Nat.shiftRight_eq_div_pow n 4

theorem and_0xf (n : Nat) : n &&& 0xf = n % 16 :=
  Nat.and_pow_two_sub_one_eq_mod n 4

theorem and_0xff (n : Nat) : n &&& 0xff = n % 256 :=
  Nat.and_pow_two_sub_one_eq_mod n 8

theorem and_0xfff (n : Nat) : n &&& 0xfff = n % 4096 :=
  Nat.and_pow_two_sub_one_eq_mod n 12

theorem and_one (n : Nat) : n &&& 1 = n % 2 :=
  Nat.and_one_is_mod n

theorem full_word (hi lo : Nat) (h : lo < 256) : (hi <<< 8) ||| lo = hi * 256 + lo := by
  have h2 : lo < 2 ^ 8 := by simpa using h
  rw [Nat.shiftLeft_eq, Nat.mul_comm hi, ← Nat.mul_add_lt_is_or h2]

theorem ldiff_0xff (m : Nat) : Nat.ldiff 0xff m = 255 - m % 256 := by
  apply Nat.eq_of_testBit_eq
  intro i
  have h1 : (255 : Nat) = 2 ^ 8 - 1 := by norm_num
  have h2 : 255 - m % 256 = 2 ^ 8 - (m % 2 ^ 8 + 1) := by norm_num; omega
  rw [Nat.testBit_ldiff, h2, Nat.testBit_two_pow_sub_succ (Nat.mod_lt _ (by norm_num)), h1,
    Nat.testBit_two_pow_sub_one, Nat.testBit_mod_two_pow]
  cases Nat.testBit m i <;> simp

theorem int_land_0xff (i : Int) : Int.land i 0xff = i % 256 := by
  cases i with
  | ofNat m =>
    show ((m &&& 255 : Nat) : Int) = (m : Int) % 256
    rw [and_0xff]; norm_cast
  | negSucc m =>
    show ((Nat.ldiff 255 m : Nat) : Int) = (Int.negSucc m) % 256
    rw [ldiff_0xff]
    have : m % 256 < 256 := Nat.mod_lt _ (by norm_num)
    rw [Int.negSucc_eq]
    omega

theorem u8_of_int_land (i : Int) : ((u8_of_int (Int.land i 0xff) : Nat) : Int) = i % 256 := by
  unfold u8_of_int
  rw [int_land_0xff, Int.emod_emod_of_dvd _ (dvd_refl _), Int.toNat_of_nonneg]
  exact Int.emod_nonneg _ (by norm_num)

/-! ## Decoding family 8 -/

theorem execute_family_8 (c : chip_8) (rnd x y k : Nat)
    (hpc : c.program_counter + 1 < 4096)
    (hhi : c.memory c.program_counter = 0x80 + x) (hx : x < 16)
    (hlo : c.memory (c.program_counter + 1) = 16 * y + k) (hy : y < 16) (hk : k < 16) :
    execute c rnd =
      if k = 0 then .ok (0, mov c x y)
      else if k = 1 then .ok (0, bit_or c x y)
      else if k = 2 then .ok (0, bit_and c x y)
      else if k = 3 then .ok (0, bit_xor c x y)
      else if k = 4 then .ok (0, add_reg c x y)
      else if k = 5 then .ok (0, sub_reg c x y)
      else if k = 6 then .ok (0, shift_right c x)
      else if k = 7 then .ok (0, sub_reg_switch c x y)
      else if k = 0xe then .ok (0, shift_left c x)
      else .error (.not_implemented (0x8000 + 256 * x + 16 * y + k)) := by
  have h1 : c.program_counter < 4096 := by omega
  have e1 : (0x80 + x) >>> 4 = 8 := by rw [shiftRight_four]; omega
  have e2 : (0x80 + x) &&& 0xf = x := by rw [and_0xf]; omega
  have e3 : (16 * y + k) &&& 0xf = k := by rw [and_0xf]; omega
  have e4 : (16 * y + k) >>> 4 = y := by rw [shiftRight_four]; omega
  have e5 : ((0x80 + x) <<< 8) ||| (16 * y + k) = 0x8000 + 256 * x + 16 * y + k := by
    rw [full_word _ _ (by omega)]; omega
  simp only [execute, mem_read, MEMORY_SIZE, h1, hpc, if_true, hhi, hlo, e1, e2, e3, e4, e5,
    not_implemented, normal]

end Chip8

namespace Chip8

theorem upd_same (f : Nat → Nat) (i v : Nat) : upd f i v i = v := by
  simp [upd]

theorem upd_ne (f : Nat → Nat) (i v j : Nat) (h : j ≠ i) : upd f i v j = f j := by
  simp [upd, h]

theorem step_running (c : chip_8) (rnd : Nat) (hw : c.waiting_for_key = false) :
    step c rnd = execute c rnd := by
  simp [step, hw]

/-! ## Arithmetic opcodes of family 8 -/

/-- C1 (failing input). With the instruction `8F14`, `VF = 5` and `V1 = 3`, the step
succeeds and leaves `VF = 8`, the truncated sum, although the sum `5 + 3` has no carry;
with the instruction `8F06` and `VF = 3` the step leaves `VF = 0` although bit 0 of the
operand is 1. -/
theorem arithmetic_flag_lost_when_x_is_VF :
    (step example_add_vf 0 = .ok (0, add_reg example_add_vf 0xF 1)
      ∧ (add_reg example_add_vf 0xF 1).registers VF = 8
      ∧ example_add_vf.registers 0xF + example_add_vf.registers 1 ≤ 0xff)
    ∧ (step example_shr_vf 0 = .ok (0, shift_right example_shr_vf 0xF)
      ∧ (shift_right example_shr_vf 0xF).registers VF = 0
      ∧ example_shr_vf.registers 0xF % 2 = 1) := by
  refine ⟨⟨?_, by decide, by decide⟩, ?_, by decide, by decide⟩
  · rw [step_running _ _ rfl]
    exact execute_family_8 example_add_vf 0 0xF 1 4 (by decide) (by decide) (by decide)
      (by decide) (by decide) (by decide)
  · rw [step_running _ _ rfl]
    exact execute_family_8 example_shr_vf 0 0xF 0 6 (by decide) (by decide) (by decide)
      (by decide) (by decide) (by decide)

/-- C2. Add with carry: a step of a running machine on the instruction `8xy4` with
`x` in 0..14 and `y` in 0..15 succeeds with status 0; the new `Vx` is the old
`(Vx + Vy) mod 256`, `VF` is 1 if the old `Vx + Vy` exceeds 255 and 0 otherwise, all
other registers are unchanged and the program counter has advanced by exactly 2. -/
theorem add_with_carry (s : chip_8) (rnd x y : Nat)
    (hw : s.waiting_for_key = false) (hpc : s.program_counter + 1 < 4096)
    (hx : x < 15) (hy : y < 16)
    (hhi : s.memory s.program_counter = 0x80 + x)
    (hlo : s.memory (s.program_counter + 1) = 16 * y + 4) :
    step s rnd = .ok (0, add_reg s x y)
    ∧ (add_reg s x y).registers x = (s.registers x + s.registers y) % 256
    ∧ (add_reg s x y).registers 0xF = (if s.registers x + s.registers y > 255 then 1 else 0)
    ∧ (∀ i, i ≠ x → i ≠ 0xF → (add_reg s x y).registers i = s.registers i)
    ∧ (add_reg s x y).program_counter = s.program_counter + 2 := by
  have hxF : x ≠ 15 := by omega
  have hFx : ¬ (15 = x) := by omega
  refine ⟨?_, ?_, ?_, ?_, ?_⟩
  · rw [step_running _ _ hw, execute_family_8 s rnd x y 4 hpc hhi (by omega) hlo hy (by omega)]
    simp
  · simp [add_reg, advance, upd, and_0xff, u8]
  · simp [add_reg, advance, upd, hFx]
  · intro i hi hi15
    simp [add_reg, advance, upd, hi, hi15]
  · simp only [add_reg, advance, u16, INSTRUCTION_SIZE]
    omega

/-- C2 (witness): `8014` with `V0 = 200`, `V1 = 100`. -/
theorem add_with_carry_witness :
    step example_add 0 = .ok (0, add_reg example_add 0 1)
    ∧ (add_reg example_add 0 1).registers 0 = (200 + 100) % 256
    ∧ (add_reg example_add 0 1).registers 0xF = 1
    ∧ (∀ i, i ≠ 0 → i ≠ 0xF → (add_reg example_add 0 1).registers i = example_add.registers i)
    ∧ (add_reg example_add 0 1).program_counter = 0x200 + 2 :=
  add_with_carry example_add 0 0 1 rfl (by decide) (by decide) (by decide) (by decide)
    (by decide)

/-- C3. Subtraction with not-borrow: a step of a running machine on `8xy5` (`x` in
0..14, `y` in 0..15) leaves `Vx = (Vx - Vy) mod 256` and `VF = 1` if the old
`Vx >= Vy`, `VF = 0` otherwise; on `8xy7` it leaves `Vx = (Vy - Vx) mod 256` and
`VF = 1` if the old `Vy >= Vx`, `VF = 0` otherwise. -/
theorem sub_with_not_borrow (s : chip_8) (rnd x y : Nat)
    (hw : s.waiting_for_key = false) (hpc : s.program_counter + 1 < 4096)
    (hx : x < 15) (hy : y < 16)
    (hhi : s.memory s.program_counter = 0x80 + x) :
    (s.memory (s.program_counter + 1) = 16 * y + 5 →
      step s rnd = .ok (0, sub_reg s x y)
      ∧ ((sub_reg s x y).registers x : Int) = ((s.registers x : Int) - s.registers y) % 256
      ∧ (sub_reg s x y).registers 0xF = (if s.registers x ≥ s.registers y then 1 else 0))
    ∧ (s.memory (s.program_counter + 1) = 16 * y + 7 →
      step s rnd = .ok (0, sub_reg_switch s x y)
      ∧ ((sub_reg_switch s x y).registers x : Int)
          = ((s.registers y : Int) - s.registers x) % 256
      ∧ (sub_reg_switch s x y).registers 0xF
          = (if s.registers y ≥ s.registers x then 1 else 0)) := by
  have hxF : x ≠ 15 := by omega
  have hFx : ¬ (15 = x) := by omega
  refine ⟨fun hlo => ⟨?_, ?_, ?_⟩, fun hlo => ⟨?_, ?_, ?_⟩⟩
  · rw [step_running _ _ hw, execute_family_8 s rnd x y 5 hpc hhi (by omega) hlo hy (by omega)]
    simp
  · simp only [sub_reg, advance, upd, if_true]
    exact u8_of_int_land _
  · simp [sub_reg, advance, upd, hFx]
  · rw [step_running _ _ hw, execute_family_8 s rnd x y 7 hpc hhi (by omega) hlo hy (by omega)]
    simp
  · simp only [sub_reg_switch, advance, upd, if_true]
    exact u8_of_int_land _
  · simp [sub_reg_switch, advance, upd, hFx]

/-- C3 (witness): `8235` and `8237` with equal operands `V2 = V3 = 7` give `V2 = 0`
and `VF = 1`. -/
theorem sub_with_not_borrow_witness :
    (step example_sub 0 = .ok (0, sub_reg example_sub 2 3)
      ∧ ((sub_reg example_sub 2 3).registers 2 : Int) = ((7 : Int) - 7) % 256
      ∧ (sub_reg example_sub 2 3).registers 0xF = 1)
    ∧ (step example_sub_switch 0 = .ok (0, sub_reg_switch example_sub_switch 2 3)
      ∧ ((sub_reg_switch example_sub_switch 2 3).registers 2 : Int) = ((7 : Int) - 7) % 256
      ∧ (sub_reg_switch example_sub_switch 2 3).registers 0xF = 1) :=
  ⟨(sub_with_not_borrow example_sub 0 2 3 rfl (by decide) (by decide) (by decide)
      (by decide)).1 (by decide),
   (sub_with_not_borrow example_sub_switch 0 2 3 rfl (by decide) (by decide) (by decide)
      (by decide)).2 (by decide)⟩

/-- C4. Shifts: a step of a running machine on `8xy6` (`x` in 0..14, any `y` in 0..15,
`Vx` a byte) leaves `Vx = Vx / 2` (floor) and `VF` = bit 0 of the old `Vx`; on `8xyE` it
leaves `Vx = (2 * Vx) mod 256` and `VF` = bit 7 of the old `Vx`.  In both cases the whole
resulting register file is the old one with these two stores, whatever `y` and `Vy` are. -/
theorem shifts (s : chip_8) (rnd x y : Nat)
    (hw : s.waiting_for_key = false) (hpc : s.program_counter + 1 < 4096)
    (hx : x < 15) (hy : y < 16) (hv : s.registers x < 256)
    (hhi : s.memory s.program_counter = 0x80 + x) :
    (s.memory (s.program_counter + 1) = 16 * y + 6 →
      step s rnd = .ok (0, shift_right s x)
      ∧ (shift_right s x).registers x = s.registers x / 2
      ∧ (shift_right s x).registers 0xF = s.registers x % 2
      ∧ (shift_right s x).registers
          = upd (upd s.registers 0xF (s.registers x % 2)) x (s.registers x / 2))
    ∧ (s.memory (s.program_counter + 1) = 16 * y + 0xE →
      step s rnd = .ok (0, shift_left s x)
      ∧ (shift_left s x).registers x = (2 * s.registers x) % 256
      ∧ (shift_left s x).registers 0xF = (s.registers x / 128) % 2
      ∧ (shift_left s x).registers
          = upd (upd s.registers 0xF (s.registers x / 128 % 2)) x (2 * s.registers x % 256)) := by
  have hxF : x ≠ 15 := by omega
  have hFx : ¬ (15 = x) := by omega
  have r1 : u8 (s.registers x &&& 1) = s.registers x % 2 := by
    rw [and_one]; unfold u8; omega
  have r2 : u8 (s.registers x >>> 1) = s.registers x / 2 := by
    rw [Nat.shiftRight_eq_div_pow]; unfold u8; omega
  have l1 : u8 ((s.registers x >>> 7) &&& 1) = s.registers x / 128 % 2 := by
    rw [and_one, Nat.shiftRight_eq_div_pow]; unfold u8; omega
  have l2 : u8 (s.registers x <<< 1) = 2 * s.registers x % 256 := by
    rw [Nat.shiftLeft_eq]; unfold u8; omega
  have hsr : (shift_right s x).registers
      = upd (upd s.registers 0xF (s.registers x % 2)) x (s.registers x / 2) := by
    simp only [shift_right, advance, VF, upd_ne _ _ _ _ hxF, r1, r2]
  have hsl : (shift_left s x).registers
      = upd (upd s.registers 0xF (s.registers x / 128 % 2)) x (2 * s.registers x % 256) := by
    simp only [shift_left, advance, VF, upd_ne _ _ _ _ hxF, l1, l2]
  refine ⟨fun hlo => ⟨?_, ?_, ?_, hsr⟩, fun hlo => ⟨?_, ?_, ?_, hsl⟩⟩
  · rw [step_running _ _ hw, execute_family_8 s rnd x y 6 hpc hhi (by omega) hlo hy (by omega)]
    simp
  · rw [hsr]; simp [upd]
  · rw [hsr]; simp [upd, hFx]
  · rw [step_running _ _ hw, execute_family_8 s rnd x y 0xE hpc hhi (by omega) hlo hy
      (by omega)]
    simp
  · rw [hsl]; simp [upd]
  · rw [hsl]; simp [upd, hFx]

/-- C4 (witness): `8456` and `845E` with `V4 = 0x81`. -/
theorem shifts_witness :
    (step example_shr 0 = .ok (0, shift_right example_shr 4)
      ∧ (shift_right example_shr 4).registers 4 = 0x81 / 2
      ∧ (shift_right example_shr 4).registers 0xF = 1
      ∧ (shift_right example_shr 4).registers
          = upd (upd example_shr.registers 0xF (example_shr.registers 4 % 2)) 4
              (example_shr.registers 4 / 2))
    ∧ (step example_shl 0 = .ok (0, shift_left example_shl 4)
      ∧ (shift_left example_shl 4).registers 4 = (2 * 0x81) % 256
      ∧ (shift_left example_shl 4).registers 0xF = 1
      ∧ (shift_left example_shl 4).registers
          = upd (upd example_shl.registers 0xF (example_shl.registers 4 / 128 % 2)) 4
              (2 * example_shl.registers 4 % 256)) :=
  ⟨(shifts example_shr 0 4 5 rfl (by decide) (by decide) (by decide) (by decide)
      (by decide)).1 (by decide),
   (shifts example_shl 0 4 5 rfl (by decide) (by decide) (by decide) (by decide)
      (by decide)).2 (by decide)⟩

/-! ## Sprite drawing -/

theorem foldlM_product {σ α β : Type} (f : α → β → σ → Except Fault σ) (l₁ : List α)
    (l₂ : List β) (s : σ) :
    l₁.foldlM (fun s a => l₂.foldlM (fun s b => f a b s) s) s
      = (List.product l₁ l₂).foldlM (fun s p => f p.1 p.2 s) s := by
  induction l₁ generalizing s with
  | nil => simp [List.product]
  | cons a l₁ ih =>
    show _ = ((a :: l₁) ×ˢ l₂).foldlM _ s
    rw [List.product_cons, List.foldlM_append, List.foldlM_cons, List.foldlM_map]
    congr 1
    funext s1
    exact ih s1

theorem toggled_single (xs ys : Nat) (p : Nat × Nat) (c : chip_8) :
    toggled c xs ys [p] = upd2 c.pixels ((ys + p.1) % 32) ((xs + p.2) % 64)
      (c.pixels ((ys + p.1) % 32) ((xs + p.2) % 64) ^^^
        (if sprite_lit c p then SCREEN_COLOR else 0)) := by
  funext r k
  simp only [upd2, toggled, hits, sprite_target, List.any_cons, List.any_nil,
    Bool.or_false, VIRTUAL_SCREEN_HEIGHT, VIRTUAL_SCREEN_WIDTH, Prod.mk.injEq,
    Bool.and_eq_true, decide_eq_true_eq]
  by_cases hrk : r = (ys + p.1) % 32 ∧ k = (xs + p.2) % 64
  · obtain ⟨hr, hk⟩ := hrk
    subst hr hk
    cases sprite_lit c p <;> simp
  · rw [if_neg hrk, if_neg]
    · exact Nat.xor_zero _
    · rintro ⟨⟨h1, h2⟩, _⟩
      exact hrk ⟨h1.symm, h2.symm⟩

theorem flagged_single (xs ys : Nat) (p : Nat × Nat) (c : chip_8) :
    flagged c xs ys [p] =
      if c.pixels ((ys + p.1) % 32) ((xs + p.2) % 64) ≠ 0 ∧ sprite_lit c p = true
      then upd c.registers VF 1 else c.registers := by
  simp only [flagged, collides, sprite_target, List.any_cons, List.any_nil, Bool.or_false,
    VIRTUAL_SCREEN_HEIGHT, VIRTUAL_SCREEN_WIDTH, Bool.and_eq_true, bne_iff_ne, ne_eq]

theorem draw_pixel_ok (xs ys y x : Nat) (c : chip_8) (h : c.address_register + y < 4096) :
    draw_pixel xs ys y x c = .ok { c with
      pixels := toggled c xs ys [(y, x)]
      registers := flagged c xs ys [(y, x)] } := by
  have hl : ((c.memory (c.address_register + y) >>> (7 - x)) &&& 1 ≠ 0)
      ↔ sprite_lit c (y, x) = true := by
    simp only [sprite_lit, bne_iff_ne]
  rw [toggled_single, flagged_single]
  simp only [draw_pixel, mem_read, MEMORY_SIZE, h, if_true, VIRTUAL_SCREEN_HEIGHT,
    VIRTUAL_SCREEN_WIDTH, hl]
  cases hlit : sprite_lit c (y, x)
  · simp
  · by_cases hold : c.pixels ((ys + y) % 32) ((xs + x) % 64) = 0
    · simp [hold]
    · simp [hold]

theorem hits_congr (c c1 : chip_8) (xs ys : Nat) (l : List (Nat × Nat))
    (hm : c1.memory = c.memory) (ha : c1.address_register = c.address_register) :
    hits c1 xs ys l = hits c xs ys l := by
  funext r k
  simp only [hits, sprite_lit, hm, ha]

theorem hits_cons (c : chip_8) (xs ys : Nat) (p : Nat × Nat) (t : List (Nat × Nat))
    (r k : Nat) : hits c xs ys (p :: t) r k = (hits c xs ys [p] r k || hits c xs ys t r k) := by
  simp only [hits, List.any_cons, List.any_nil, Bool.or_false]

theorem hits_target (c : chip_8) (xs ys : Nat) (l : List (Nat × Nat)) (r k : Nat) :
    hits c xs ys l r k = true ↔
      ∃ p ∈ l, sprite_target xs ys p = (r, k) ∧ sprite_lit c p = true := by
  simp only [hits, List.any_eq_true, Bool.and_eq_true, decide_eq_true_eq]

theorem collides_iff (c : chip_8) (xs ys : Nat) (l : List (Nat × Nat)) :
    collides c xs ys l = true ↔
      ∃ p ∈ l, c.pixels (sprite_target xs ys p).1 (sprite_target xs ys p).2 ≠ 0
        ∧ sprite_lit c p = true := by
  simp only [collides, List.any_eq_true, Bool.and_eq_true, bne_iff_ne, ne_eq]

theorem toggled_cons (c c1 : chip_8) (xs ys : Nat) (p : Nat × Nat) (t : List (Nat × Nat))
    (hm : c1.memory = c.memory) (ha : c1.address_register = c.address_register)
    (hp : c1.pixels = toggled c xs ys [p])
    (hd : ∀ q ∈ t, sprite_target xs ys p ≠ sprite_target xs ys q) :
    toggled c1 xs ys t = toggled c xs ys (p :: t) := by
  funext r k
  simp only [toggled, hp, hits_congr c c1 xs ys t hm ha, hits_cons c xs ys p t]
  cases h1 : hits c xs ys [p] r k <;> cases h2 : hits c xs ys t r k
  · simp
  · simp
  · simp
  · exfalso
    obtain ⟨p1, hp1, ht1, _⟩ := (hits_target _ _ _ _ _ _).1 h1
    obtain ⟨q, hq, ht2, _⟩ := (hits_target _ _ _ _ _ _).1 h2
    rw [List.mem_singleton] at hp1
    subst hp1
    exact hd q hq (ht1.trans ht2.symm)

theorem flagged_cons (c c1 : chip_8) (xs ys : Nat) (p : Nat × Nat) (t : List (Nat × Nat))
    (hm : c1.memory = c.memory) (ha : c1.address_register = c.address_register)
    (hp : c1.pixels = toggled c xs ys [p]) (hr : c1.registers = flagged c xs ys [p])
    (hd : ∀ q ∈ t, sprite_target xs ys p ≠ sprite_target xs ys q) :
    flagged c1 xs ys t = flagged c xs ys (p :: t) := by
  have hpix : ∀ q ∈ t, c1.pixels (sprite_target xs ys q).1 (sprite_target xs ys q).2
      = c.pixels (sprite_target xs ys q).1 (sprite_target xs ys q).2 := by
    intro q hq
    have hno : hits c xs ys [p] (sprite_target xs ys q).1 (sprite_target xs ys q).2 = false := by
      rw [Bool.eq_false_iff]
      intro h1
      obtain ⟨p1, hp1, ht1, _⟩ := (hits_target _ _ _ _ _ _).1 h1
      rw [List.mem_singleton] at hp1
      subst hp1
      exact hd q hq ht1
    simp only [hp, toggled, hno]
    simp
  have hlit : sprite_lit c1 = sprite_lit c := by
    funext q
    simp only [sprite_lit, hm, ha]
  have hct : collides c1 xs ys t = collides c xs ys t := by
    rw [Bool.eq_iff_iff, collides_iff, collides_iff, hlit]
    constructor
    · rintro ⟨q, hq, h1, h2⟩
      exact ⟨q, hq, by rw [← hpix q hq]; exact h1, h2⟩
    · rintro ⟨q, hq, h1, h2⟩
      exact ⟨q, hq, by rw [hpix q hq]; exact h1, h2⟩
  have hcc : collides c xs ys (p :: t) = (collides c xs ys [p] || collides c xs ys t) := by
    simp only [collides, List.any_cons, List.any_nil, Bool.or_false]
  simp only [flagged, hr, hct, hcc]
  cases collides c xs ys [p] <;> cases collides c xs ys t <;> simp
  funext j
  by_cases hj : j = 15 <;> simp [upd, hj]

theorem draw_cells_ok (xs ys : Nat) (l : List (Nat × Nat)) :
    ∀ c : chip_8, (∀ p ∈ l, c.address_register + p.1 < 4096) →
      l.Pairwise (fun p q => sprite_target xs ys p ≠ sprite_target xs ys q) →
      l.foldlM (fun c p => draw_pixel xs ys p.1 p.2 c) c
        = .ok { c with pixels := toggled c xs ys l, registers := flagged c xs ys l } := by
  induction l with
  | nil =>
    intro c _ _
    have h1 : toggled c xs ys [] = c.pixels := by
      funext r k
      simp [toggled, hits]
    have h2 : flagged c xs ys [] = c.registers := by
      simp [flagged, collides]
    rw [h1, h2]
    rfl
  | cons p t ih =>
    intro c hb hpw
    rw [List.pairwise_cons] at hpw
    rw [List.foldlM_cons, draw_pixel_ok xs ys p.1 p.2 c (hb p (List.mem_cons_self _ _))]
    show t.foldlM _ _ = _
    refine (ih { c with pixels := toggled c xs ys [p], registers := flagged c xs ys [p] }
      (fun q hq => hb q (List.mem_cons_of_mem _ hq)) hpw.2).trans ?_
    have e1 := toggled_cons c
      { c with pixels := toggled c xs ys [p], registers := flagged c xs ys [p] }
      xs ys p t rfl rfl rfl hpw.1
    have e2 := flagged_cons c
      { c with pixels := toggled c xs ys [p], registers := flagged c xs ys [p] }
      xs ys p t rfl rfl rfl rfl hpw.1
    rw [e1, e2]

theorem mem_sprite_cells (n : Nat) (p : Nat × Nat) :
    p ∈ sprite_cells n ↔ p.1 < n ∧ p.2 < 8 := by
  obtain ⟨a, b⟩ := p
  show (a, b) ∈ (List.range n) ×ˢ (List.range 8) ↔ _
  rw [List.mem_product, List.mem_range, List.mem_range]

theorem sprite_cells_pairwise (xs ys n : Nat) (hn : n ≤ 32) :
    (sprite_cells n).Pairwise (fun p q => sprite_target xs ys p ≠ sprite_target xs ys q) := by
  have hnd : (sprite_cells n).Nodup :=
    List.Nodup.product (List.nodup_range n) (List.nodup_range 8)
  refine List.Pairwise.imp_of_mem ?_ hnd
  intro p q hp hq hne heq
  rw [mem_sprite_cells] at hp hq
  apply hne
  simp only [sprite_target, VIRTUAL_SCREEN_HEIGHT, VIRTUAL_SCREEN_WIDTH, Prod.mk.injEq] at heq
  obtain ⟨h1, h2⟩ := heq
  obtain ⟨a, b⟩ := p
  obtain ⟨a', b'⟩ := q
  simp only at hp hq h1 h2
  have ha : a = a' := by omega
  have hb : b = b' := by omega
  rw [ha, hb]

theorem draw_rows_eq (xs ys n : Nat) (c0 : chip_8) :
    (List.range n).foldlM (draw_row xs ys) c0
      = (sprite_cells n).foldlM (fun s p => draw_pixel xs ys p.1 p.2 s) c0 :=
  foldlM_product (fun a b s => draw_pixel xs ys a b s) (List.range n) (List.range 8) c0

theorem draw_sprite_eq (c : chip_8) (x y n : Nat) (hn : n ≤ 32)
    (hI : c.address_register + n ≤ 4096) :
    draw_sprite c x y n = .ok (draw_sprite_result c x y n) := by
  have hb : ∀ p ∈ sprite_cells n,
      ({ c with registers := upd c.registers VF 0 } : chip_8).address_register + p.1 < 4096 := by
    intro p hp
    rw [mem_sprite_cells] at hp
    show c.address_register + p.1 < 4096
    omega
  unfold draw_sprite draw_sprite_result
  simp only []
  rw [draw_rows_eq, draw_cells_ok _ _ _ _ hb (sprite_cells_pairwise _ _ n hn)]

theorem draw_sprite_result_pixel (s : chip_8) (x y n r c : Nat) :
    (draw_sprite_result s x y n).pixels r c
      = s.pixels r c ^^^
        (if hits s (s.registers x) (s.registers y) (sprite_cells n) r c then SCREEN_COLOR
          else 0) := rfl

theorem draw_sprite_result_VF (s : chip_8) (x y n : Nat) :
    (draw_sprite_result s x y n).registers 0xF
      = if collides s (s.registers x) (s.registers y) (sprite_cells n) then 1 else 0 := by
  show flagged _ _ _ _ 15 = _
  unfold flagged
  have h : collides { s with registers := upd s.registers VF 0 } (s.registers x)
      (s.registers y) (sprite_cells n)
      = collides s (s.registers x) (s.registers y) (sprite_cells n) := rfl
  rw [h]
  cases collides s (s.registers x) (s.registers y) (sprite_cells n) <;> simp [upd]

theorem draw_sprite_result_register (s : chip_8) (x y n i : Nat) (hi : i ≠ 0xF) :
    (draw_sprite_result s x y n).registers i = s.registers i := by
  show flagged _ _ _ _ i = _
  unfold flagged
  split <;> simp [upd, hi]

theorem sprite_lit_iff (s : chip_8) (row col : Nat) :
    sprite_lit s (row, col) = true
      ↔ (s.memory (s.address_register + row) / 2 ^ (7 - col)) % 2 = 1 := by
  simp only [sprite_lit, bne_iff_ne, ne_eq, and_one, Nat.shiftRight_eq_div_pow]
  omega

theorem hits_iff (s : chip_8) (xs ys n r c : Nat) :
    hits s xs ys (sprite_cells n) r c = true ↔
      ∃ row col, row < n ∧ col < 8 ∧ c = (xs + col) % 64 ∧ r = (ys + row) % 32
        ∧ (s.memory (s.address_register + row) / 2 ^ (7 - col)) % 2 = 1 := by
  rw [hits_target]
  constructor
  · rintro ⟨⟨row, col⟩, hp, ht, hl⟩
    rw [mem_sprite_cells] at hp
    simp only [sprite_target, VIRTUAL_SCREEN_HEIGHT, VIRTUAL_SCREEN_WIDTH, Prod.mk.injEq] at ht
    exact ⟨row, col, hp.1, hp.2, ht.2.symm, ht.1.symm, (sprite_lit_iff s row col).1 hl⟩
  · rintro ⟨row, col, h1, h2, h3, h4, h5⟩
    refine ⟨(row, col), (mem_sprite_cells n _).2 ⟨h1, h2⟩, ?_, (sprite_lit_iff s row col).2 h5⟩
    simp only [sprite_target, VIRTUAL_SCREEN_HEIGHT, VIRTUAL_SCREEN_WIDTH, Prod.mk.injEq]
    exact ⟨h4.symm, h3.symm⟩

/-- C5. Sprite drawing with wraparound: for a sprite of `n` rows (`n` at most 32, so every
nibble) with `address_register + n <= 4096`, `draw_sprite` succeeds, and the pixel at row
`r`, column `c` is the old pixel XOR the display colour exactly when some `row < n`,
`col < 8` has `c = (Vx + col) mod 64`, `r = (Vy + row) mod 32` and bit `7 - col` of
`memory[address_register + row]` equal to 1; every other pixel is unchanged.  With
`Vx = 60`, `Vy = 30`, `n = 4` a pixel that changes lies in one of the columns
60, 61, 62, 63, 0, 1, 2, 3 and one of the rows 30, 31, 0, 1. -/
theorem draw_sprite_wraparound (s : chip_8) (x y n : Nat) (hn : n ≤ 32)
    (hI : s.address_register + n ≤ 4096) :
    draw_sprite s x y n = .ok (draw_sprite_result s x y n)
    ∧ (∀ r c,
        ((∃ row col, row < n ∧ col < 8 ∧ c = (s.registers x + col) % 64
            ∧ r = (s.registers y + row) % 32
            ∧ (s.memory (s.address_register + row) / 2 ^ (7 - col)) % 2 = 1) →
          (draw_sprite_result s x y n).pixels r c = s.pixels r c ^^^ SCREEN_COLOR)
        ∧ ((¬ ∃ row col, row < n ∧ col < 8 ∧ c = (s.registers x + col) % 64
            ∧ r = (s.registers y + row) % 32
            ∧ (s.memory (s.address_register + row) / 2 ^ (7 - col)) % 2 = 1) →
          (draw_sprite_result s x y n).pixels r c = s.pixels r c))
    ∧ (s.registers x = 60 → s.registers y = 30 → n = 4 →
        ∀ r c, (draw_sprite_result s x y n).pixels r c ≠ s.pixels r c →
          c ∈ [60, 61, 62, 63, 0, 1, 2, 3] ∧ r ∈ [30, 31, 0, 1]) := by
  refine ⟨draw_sprite_eq s x y n hn hI, ?_, ?_⟩
  · intro r c
    constructor
    · intro h
      rw [draw_sprite_result_pixel, (hits_iff s _ _ n r c).2 h]
      rfl
    · intro h
      rw [draw_sprite_result_pixel]
      rw [← hits_iff s _ _ n r c, Bool.not_eq_true] at h
      rw [h]
      exact Nat.xor_zero _
  · intro h60 h30 h4 r c hne
    have hh : hits s (s.registers x) (s.registers y) (sprite_cells n) r c = true := by
      by_contra hno
      rw [Bool.not_eq_true] at hno
      apply hne
      rw [draw_sprite_result_pixel, hno]
      exact Nat.xor_zero _
    obtain ⟨row, col, h1, h2, h3, h5, _⟩ := (hits_iff s _ _ n r c).1 hh
    rw [h60] at h3
    rw [h30] at h5
    subst h4
    simp only [List.mem_cons, List.mem_singleton, List.mem_nil_iff, or_false]
    omega

/-- C5 (witness): the glyph of `0` drawn at `Vx = 60`, `Vy = 30` with 4 rows; the lit
top-left sprite bit lands on row 30, column 60 and the lit bit of sprite row 2, column 3
wraps to row 0, column 63. -/
theorem draw_sprite_wraparound_witness :
    draw_sprite example_draw 0 1 4 = .ok (draw_sprite_result example_draw 0 1 4)
    ∧ (draw_sprite_result example_draw 0 1 4).pixels 30 60
        = example_draw.pixels 30 60 ^^^ SCREEN_COLOR
    ∧ (draw_sprite_result example_draw 0 1 4).pixels 0 63
        = example_draw.pixels 0 63 ^^^ SCREEN_COLOR
    ∧ (∀ r c, (draw_sprite_result example_draw 0 1 4).pixels r c ≠ example_draw.pixels r c →
          c ∈ [60, 61, 62, 63, 0, 1, 2, 3] ∧ r ∈ [30, 31, 0, 1]) :=
  have h := draw_sprite_wraparound example_draw 0 1 4 (by decide) (by decide)
  ⟨h.1, (h.2.1 30 60).1 ⟨0, 0, by decide, by decide, by decide, by decide, by decide⟩,
    (h.2.1 0 63).1 ⟨2, 3, by decide, by decide, by decide, by decide, by decide⟩,
    h.2.2 rfl rfl rfl⟩

theorem collides_iff_pixel (s : chip_8) (xs ys n : Nat) :
    collides s xs ys (sprite_cells n) = true ↔
      ∃ r c, r < 32 ∧ c < 64 ∧ s.pixels r c ≠ 0
        ∧ hits s xs ys (sprite_cells n) r c = true := by
  rw [collides_iff]
  constructor
  · rintro ⟨p, hp, h1, h2⟩
    refine ⟨(sprite_target xs ys p).1, (sprite_target xs ys p).2, ?_, ?_, h1, ?_⟩
    · exact Nat.mod_lt _ (by decide)
    · exact Nat.mod_lt _ (by decide)
    · exact (hits_target _ _ _ _ _ _).2 ⟨p, hp, rfl, h2⟩
  · rintro ⟨r, c, _, _, h1, h2⟩
    obtain ⟨p, hp, ht, hl⟩ := (hits_target _ _ _ _ _ _).1 h2
    refine ⟨p, hp, ?_, hl⟩
    rw [ht]
    exact h1

theorem screen_color_ne_zero : SCREEN_COLOR ≠ 0 := by decide

theorem screen_color_xor_self : SCREEN_COLOR ^^^ SCREEN_COLOR = 0 := Nat.xor_self _

/-- C6. Collision flag: for a framebuffer holding only on/off values, a sprite of `n`
rows (`n` at most 32) with `address_register + n <= 4096` and any register indices
`x`, `y` (0xF included), `draw_sprite` succeeds and leaves `VF = 1` if some framebuffer
pixel was on before and is off after the draw, and `VF = 0` otherwise; in particular
`VF = 0` when `n = 0` or when all sprite bytes are zero. -/
theorem collision_flag (s : chip_8) (x y n : Nat) (hn : n ≤ 32)
    (hI : s.address_register + n ≤ 4096)
    (hfb : ∀ r c, r < 32 → c < 64 → s.pixels r c = 0 ∨ s.pixels r c = SCREEN_COLOR) :
    draw_sprite s x y n = .ok (draw_sprite_result s x y n)
    ∧ ((∃ r c, r < 32 ∧ c < 64 ∧ s.pixels r c = SCREEN_COLOR
          ∧ (draw_sprite_result s x y n).pixels r c = 0) →
        (draw_sprite_result s x y n).registers 0xF = 1)
    ∧ ((¬ ∃ r c, r < 32 ∧ c < 64 ∧ s.pixels r c = SCREEN_COLOR
          ∧ (draw_sprite_result s x y n).pixels r c = 0) →
        (draw_sprite_result s x y n).registers 0xF = 0)
    ∧ (n = 0 → (draw_sprite_result s x y n).registers 0xF = 0)
    ∧ ((∀ row, row < n → s.memory (s.address_register + row) = 0) →
        (draw_sprite_result s x y n).registers 0xF = 0) := by
  have key : collides s (s.registers x) (s.registers y) (sprite_cells n) = true ↔
      ∃ r c, r < 32 ∧ c < 64 ∧ s.pixels r c = SCREEN_COLOR
        ∧ (draw_sprite_result s x y n).pixels r c = 0 := by
    rw [collides_iff_pixel]
    constructor
    · rintro ⟨r, c, hr, hc, h1, h2⟩
      have hon : s.pixels r c = SCREEN_COLOR := (hfb r c hr hc).resolve_left h1
      refine ⟨r, c, hr, hc, hon, ?_⟩
      rw [draw_sprite_result_pixel, h2, hon]
      exact screen_color_xor_self
    · rintro ⟨r, c, hr, hc, h1, h2⟩
      refine ⟨r, c, hr, hc, by rw [h1]; exact screen_color_ne_zero, ?_⟩
      by_contra hno
      rw [Bool.not_eq_true] at hno
      rw [draw_sprite_result_pixel, hno, h1] at h2
      simp at h2
  have hzero : (∀ row, row < n → s.memory (s.address_register + row) = 0) →
      (draw_sprite_result s x y n).registers 0xF = 0 := by
    intro hz
    rw [draw_sprite_result_VF, if_neg]
    rw [collides_iff_pixel]
    rintro ⟨r, c, _, _, _, h2⟩
    obtain ⟨row, col, h1, _, _, _, h5⟩ := (hits_iff s _ _ n r c).1 h2
    rw [hz row h1] at h5
    simp at h5
  refine ⟨draw_sprite_eq s x y n hn hI, ?_, ?_, ?_, hzero⟩
  · intro h
    rw [draw_sprite_result_VF, if_pos (key.2 h)]
  · intro h
    rw [draw_sprite_result_VF, if_neg (fun hc => h (key.1 hc))]
  · intro h0
    apply hzero
    intro row hrow
    omega

theorem init_pixels_off (r c : Nat) : init_chip_8.pixels r c = 0 := rfl

theorem example_drawn_pixels_on_off (r c : Nat) :
    example_drawn.pixels r c = 0 ∨ example_drawn.pixels r c = SCREEN_COLOR := by
  have h : example_drawn.pixels r c = example_draw.pixels r c ^^^
      (if hits example_draw (example_draw.registers 0) (example_draw.registers 1)
        (sprite_cells 4) r c then SCREEN_COLOR else 0) :=
    draw_sprite_result_pixel example_draw 0 1 4 r c
  have h0 : example_draw.pixels r c = 0 := rfl
  rw [h, h0]
  split
  · right; exact Nat.zero_xor _
  · left; exact Nat.zero_xor _

/-- C6 (witness): drawing the glyph of `0` a second time at the same place turns the
pixel at row 30, column 60 from on to off and sets `VF = 1`. -/
theorem collision_flag_witness :
    draw_sprite example_drawn 0 1 4 = .ok (draw_sprite_result example_drawn 0 1 4)
    ∧ (draw_sprite_result example_drawn 0 1 4).registers 0xF = 1 :=
  have h := collision_flag example_drawn 0 1 4 (by decide) (by decide)
    (fun r c _ _ => example_drawn_pixels_on_off r c)
  ⟨h.1, h.2.1 ⟨30, 60, by decide, by decide,
    (by
      show (draw_sprite_result example_draw 0 1 4).pixels 30 60 = SCREEN_COLOR
      rw [draw_sprite_result_pixel,
        (hits_iff example_draw _ _ 4 30 60).2
          ⟨0, 0, by decide, by decide, by decide, by decide, by decide⟩]
      rfl),
    (by
      rw [draw_sprite_result_pixel,
        (hits_iff example_drawn _ _ 4 30 60).2
          ⟨0, 0, by decide, by decide, by decide, by decide, by decide⟩]
      show (draw_sprite_result example_draw 0 1 4).pixels 30 60 ^^^ SCREEN_COLOR = 0
      rw [draw_sprite_result_pixel,
        (hits_iff example_draw _ _ 4 30 60).2
          ⟨0, 0, by decide, by decide, by decide, by decide, by decide⟩]
      rfl)⟩⟩

theorem hits_after_draw (s : chip_8) (x y n : Nat) (hx : x ≠ 0xF) (hy : y ≠ 0xF) :
    hits (draw_sprite_result s x y n) ((draw_sprite_result s x y n).registers x)
        ((draw_sprite_result s x y n).registers y) (sprite_cells n)
      = hits s (s.registers x) (s.registers y) (sprite_cells n) := by
  rw [draw_sprite_result_register s x y n x hx, draw_sprite_result_register s x y n y hy]
  exact hits_congr s _ _ _ _ rfl rfl

/-! ## Family F and the key wait -/

theorem execute_family_F (c : chip_8) (rnd x lo : Nat)
    (hpc : c.program_counter + 1 < 4096)
    (hhi : c.memory c.program_counter = 0xF0 + x) (hx : x < 16)
    (hlo : c.memory (c.program_counter + 1) = lo) (hlo8 : lo < 256) :
    execute c rnd =
      if lo = 0x07 then normal (get_delay c x)
      else if lo = 0x0a then normal (wait_for_key c x)
      else if lo = 0x15 then normal (set_delay c x)
      else if lo = 0x18 then normal (set_sound c x)
      else if lo = 0x1e then normal (add_address_reg c x)
      else if lo = 0x29 then normal (set_font_char c x)
      else if lo = 0x33 then normal_of (set_bcd c x)
      else if lo = 0x55 then normal_of (reg_dump c x)
      else if lo = 0x65 then normal_of (reg_load c x)
      else .error (.not_implemented (0xF000 + 256 * x + lo)) := by
  have h1 : c.program_counter < 4096 := by omega
  have e1 : (0xF0 + x) >>> 4 = 15 := by rw [shiftRight_four]; omega
  have e2 : (0xF0 + x) &&& 0xf = x := by rw [and_0xf]; omega
  have e5 : ((0xF0 + x) <<< 8) ||| lo = 0xF000 + 256 * x + lo := by
    rw [full_word _ _ hlo8]; omega
  simp only [execute, mem_read, MEMORY_SIZE, h1, hpc, if_true, hhi, hlo, e1, e2, e5,
    not_implemented]

theorem find_range (p : Nat → Bool) (n k : Nat) (hk : k < n) (hp : p k = true)
    (hlt : ∀ i, i < k → p i = false) : (List.range n).find? p = some k := by
  induction n with
  | zero => omega
  | succ n ih =>
    rw [List.range_succ, List.find?_append]
    by_cases h : k < n
    · rw [ih h]; rfl
    · have hkn : k = n := by omega
      subst hkn
      have hnone : (List.range k).find? p = none := by
        rw [List.find?_eq_none]
        intro i hi
        rw [List.mem_range] at hi
        rw [hlt i hi]
        simp
      rw [hnone]
      simp [List.find?, hp]

theorem first_pressed_key_none (c : chip_8) (h : ∀ i, i < 16 → c.keys i = 0) :
    first_pressed_key c = none := by
  unfold first_pressed_key
  rw [List.find?_eq_none]
  intro i hi
  rw [List.mem_range] at hi
  simp [h i hi]

theorem first_pressed_key_some (c : chip_8) (k : Nat) (hk : k < 16) (hp : c.keys k ≠ 0)
    (h : ∀ i, i < k → c.keys i = 0) : first_pressed_key c = some k := by
  unfold first_pressed_key
  apply find_range _ 16 k hk
  · simpa using hp
  · intro i hi
    simp [h i hi]

/-- C8. Key wait.  (1) A step of a running machine on `Fx0A` succeeds with status 0, sets
the wait flag, records the target register `x` and advances the program counter by 2.
(2) A step of a waiting machine with none of the 16 keys pressed returns status 1 and
leaves the whole state unchanged.  (3) A step of a waiting machine with target register
`x` whose lowest-indexed pressed key is `k` is the fetch-and-execute of the state with
`Vx = k` and the wait flag cleared, and equals a step from that running state. -/
theorem key_wait (s t : chip_8) (rnd x k : Nat) (hx : x < 16) :
    (s.waiting_for_key = false → s.program_counter + 1 < 4096 →
      s.memory s.program_counter = 0xF0 + x → s.memory (s.program_counter + 1) = 0x0A →
        step s rnd = .ok (0, wait_for_key s x)
        ∧ (wait_for_key s x).waiting_for_key = true
        ∧ (wait_for_key s x).key_target_reg = x
        ∧ (wait_for_key s x).program_counter = s.program_counter + 2)
    ∧ (t.waiting_for_key = true → (∀ i, i < 16 → t.keys i = 0) → step t rnd = .ok (1, t))
    ∧ (t.waiting_for_key = true → t.key_target_reg = x → k < 16 → t.keys k ≠ 0 →
        (∀ i, i < k → t.keys i = 0) →
        step t rnd
            = execute { t with registers := upd t.registers x k, waiting_for_key := false } rnd
        ∧ step t rnd
            = step { t with registers := upd t.registers x k, waiting_for_key := false } rnd) := by
  refine ⟨?_, ?_, ?_⟩
  · intro hw hpc hhi hlo
    refine ⟨?_, rfl, rfl, ?_⟩
    · rw [step_running _ _ hw, execute_family_F s rnd x 0x0A hpc hhi hx hlo (by decide)]
      rfl
    · simp only [wait_for_key, advance, u16, INSTRUCTION_SIZE]
      omega
  · intro hw hkeys
    simp only [step, hw, if_true, first_pressed_key_none t hkeys]
  · intro hw ht hk hp hlow
    have h1 : step t rnd
        = execute { t with registers := upd t.registers x k, waiting_for_key := false } rnd := by
      simp only [step, hw, if_true, first_pressed_key_some t k hk hp hlow, key_event, ht, hx]
    exact ⟨h1, by rw [h1, step_running _ _ rfl]⟩

/-- C8 (witness): `F50A` captures into register 5.  The program is `F5 0A 60 2A`; the
step on `F50A` starts the wait, a step with no key pressed is idle, and the step with
keys 3 and 7 pressed stores 3 in `V5` and executes `602A` in the same step. -/
theorem key_wait_witness :
    (step example_wait 0 = .ok (0, example_waiting)
      ∧ example_waiting.waiting_for_key = true
      ∧ example_waiting.key_target_reg = 5
      ∧ example_waiting.program_counter = 0x200 + 2)
    ∧ step example_waiting 0 = .ok (1, example_waiting)
    ∧ (step example_key_pressed 0 = execute example_resumed 0
      ∧ step example_key_pressed 0 = step example_resumed 0)
    ∧ (execute example_resumed 0 = .ok (0, load_imm example_resumed 0 0x2A)
      ∧ (load_imm example_resumed 0 0x2A).registers 5 = 3
      ∧ (load_imm example_resumed 0 0x2A).registers 0 = 0x2A
      ∧ (load_imm example_resumed 0 0x2A).waiting_for_key = false
      ∧ (load_imm example_resumed 0 0x2A).program_counter = 0x204) :=
  ⟨(key_wait example_wait example_waiting 0 5 0 (by decide)).1 rfl (by decide) (by decide)
      (by decide),
    (key_wait example_wait example_waiting 0 5 0 (by decide)).2.1 rfl (fun _ _ => rfl),
    (key_wait example_wait example_key_pressed 0 5 3 (by decide)).2.2 rfl rfl (by decide)
      (by decide) (by intro i hi; interval_cases i <;> rfl),
    rfl, by decide, by decide, rfl, by decide⟩

/-! ## Register dump and load -/

theorem reg_dump_fold (n : Nat) (c : chip_8) (h : c.address_register + n ≤ 4096) :
    (List.range n).foldlM reg_dump_body c = .ok { c with
      memory := fun a =>
        if c.address_register ≤ a ∧ a < c.address_register + n
        then c.registers (a - c.address_register) else c.memory a } := by
  induction n with
  | zero =>
    have hm : (fun a => if c.address_register ≤ a ∧ a < c.address_register + 0
        then c.registers (a - c.address_register) else c.memory a) = c.memory := by
      funext a
      rw [if_neg (by omega)]
    rw [hm]
    rfl
  | succ n ih =>
    rw [List.range_succ, List.foldlM_append, ih (by omega)]
    have hlt : c.address_register + n < 4096 := by omega
    simp only [bind, Except.bind, List.foldlM_cons, List.foldlM_nil, reg_dump_body, mem_write,
      MEMORY_SIZE, hlt, if_true, pure, Except.pure]
    congr 2
    funext a
    simp only [upd]
    by_cases ha : a = c.address_register + n
    · subst ha
      simp
    · rw [if_neg ha]
      by_cases hb : c.address_register ≤ a ∧ a < c.address_register + n
      · rw [if_pos hb, if_pos (by omega)]
      · rw [if_neg hb, if_neg (by omega)]

theorem reg_load_fold (n : Nat) (c : chip_8) (h : c.address_register + n ≤ 4096) :
    (List.range n).foldlM reg_load_body c = .ok { c with
      registers := fun i =>
        if i < n then c.memory (c.address_register + i) else c.registers i } := by
  induction n with
  | zero => rfl
  | succ n ih =>
    rw [List.range_succ, List.foldlM_append, ih (by omega)]
    have hlt : c.address_register + n < 4096 := by omega
    simp only [bind, Except.bind, List.foldlM_cons, List.foldlM_nil, reg_load_body, mem_read,
      MEMORY_SIZE, hlt, if_true, pure, Except.pure]
    congr 2
    funext i
    simp only [upd]
    by_cases hi : i = n
    · subst hi
      simp
    · rw [if_neg hi]
      by_cases hb : i < n
      · rw [if_pos hb, if_pos (by omega)]
      · rw [if_neg hb, if_neg (by omega)]

theorem reg_dump_eq (c : chip_8) (x : Nat) (h : c.address_register + x < 4096) :
    reg_dump c x = .ok (reg_dump_result c x) := by
  unfold reg_dump reg_dump_result
  rw [reg_dump_fold (x + 1) c (by omega)]
  simp only [Nat.lt_succ_iff, ← Nat.add_assoc]

theorem reg_load_eq (c : chip_8) (x : Nat) (h : c.address_register + x < 4096) :
    reg_load c x = .ok (reg_load_result c x) := by
  unfold reg_load reg_load_result
  rw [reg_load_fold (x + 1) c (by omega)]
  simp only [Nat.lt_succ_iff]

/-- C9. Register dump/load round trip: for `x` in 0..15 and `address_register + x < 4096`,
`reg_dump(x)` succeeds and changes no memory byte outside
`[address_register, address_register + x]`; after the registers 0..x are then set to
zero, `reg_load(x)` succeeds and restores the registers 0..x (inclusive) to their original
values, and the registers above `x` and the address register are unchanged. -/
theorem reg_dump_load_round_trip (s : chip_8) (x : Nat) (_hx : x < 16)
    (hI : s.address_register + x < 4096) :
    reg_dump s x = .ok (reg_dump_result s x)
    ∧ (∀ a, (a < s.address_register ∨ s.address_register + x < a) →
        (reg_dump_result s x).memory a = s.memory a)
    ∧ reg_load (zero_registers (reg_dump_result s x) x) x
        = .ok (reg_load_result (zero_registers (reg_dump_result s x) x) x)
    ∧ (∀ i, i ≤ x →
        (reg_load_result (zero_registers (reg_dump_result s x) x) x).registers i
          = s.registers i)
    ∧ (∀ i, x < i →
        (reg_load_result (zero_registers (reg_dump_result s x) x) x).registers i
          = s.registers i)
    ∧ (reg_load_result (zero_registers (reg_dump_result s x) x) x).address_register
        = s.address_register := by
  refine ⟨reg_dump_eq s x hI, ?_, reg_load_eq _ x hI, ?_, ?_, rfl⟩
  · intro a ha
    show (if s.address_register ≤ a ∧ a ≤ s.address_register + x
      then s.registers (a - s.address_register) else s.memory a) = s.memory a
    rw [if_neg (by omega)]
  · intro i hi
    show (if i ≤ x then
        (if s.address_register ≤ s.address_register + i
            ∧ s.address_register + i ≤ s.address_register + x
          then s.registers (s.address_register + i - s.address_register)
          else s.memory (s.address_register + i))
      else (if i ≤ x then 0 else s.registers i)) = s.registers i
    rw [if_pos hi, if_pos (by omega), Nat.add_sub_cancel_left]
  · intro i hi
    show (if i ≤ x then
        (if s.address_register ≤ s.address_register + i
            ∧ s.address_register + i ≤ s.address_register + x
          then s.registers (s.address_register + i - s.address_register)
          else s.memory (s.address_register + i))
      else (if i ≤ x then 0 else s.registers i)) = s.registers i
    rw [if_neg (by omega), if_neg (by omega)]

/-- C9 (witness): dump and load of `V0..V2 = 0x11, 0x22, 0x33` at `0x300`; the byte at
`0x302` holds `V2` (inclusive range) and the byte at `0x303` is untouched. -/
theorem reg_dump_load_round_trip_witness :
    reg_dump example_registers 2 = .ok (reg_dump_result example_registers 2)
    ∧ (reg_dump_result example_registers 2).memory 0x302 = 0x33
    ∧ (reg_dump_result example_registers 2).memory 0x303 = example_registers.memory 0x303
    ∧ (zero_registers (reg_dump_result example_registers 2) 2).registers 2 = 0
    ∧ reg_load (zero_registers (reg_dump_result example_registers 2) 2) 2
        = .ok (reg_load_result (zero_registers (reg_dump_result example_registers 2) 2) 2)
    ∧ (reg_load_result (zero_registers (reg_dump_result example_registers 2) 2) 2).registers 2
        = 0x33
    ∧ (reg_load_result (zero_registers (reg_dump_result example_registers 2) 2) 2).registers 3
        = 255 :=
  have h := reg_dump_load_round_trip example_registers 2 (by decide) (by decide)
  ⟨h.1, by decide, h.2.1 0x303 (by decide), by decide, h.2.2.1, h.2.2.2.1 2 (by decide),
    h.2.2.2.2.1 3 (by decide)⟩

/-! ## Binary-coded decimal -/

theorem u8_digit (d : Nat) (h : d < 10) : u8 (d &&& 0xff) = d := by
  rw [and_0xff]
  unfold u8
  omega

theorem set_bcd_eq (c : chip_8) (x : Nat) (h : c.address_register + 2 < 4096) :
    set_bcd c x = .ok (set_bcd_result c x) := by
  have h0 : c.address_register < 4096 := by omega
  have h1 : c.address_register + 1 < 4096 := by omega
  simp only [set_bcd, set_bcd_result, mem_write, MEMORY_SIZE, h0, h1, h, if_true,
    u8_digit _ (Nat.mod_lt _ (by decide : 0 < 10)), Nat.add_zero]

/-- C10. Binary-coded decimal: for a byte value `v` of register `x` and an address
register `A` with `A + 2 < 4096`, `set_bcd(x)` succeeds; afterwards the bytes at `A`,
`A + 1`, `A + 2` are each below 10 and satisfy
`100 * memory[A] + 10 * memory[A+1] + memory[A+2] = v`; every other memory byte and
every register is unchanged. -/
theorem bcd_digits (s : chip_8) (x : Nat) (_hx : x < 16) (hv : s.registers x < 256)
    (hA : s.address_register + 2 < 4096) :
    set_bcd s x = .ok (set_bcd_result s x)
    ∧ (set_bcd_result s x).memory s.address_register < 10
    ∧ (set_bcd_result s x).memory (s.address_register + 1) < 10
    ∧ (set_bcd_result s x).memory (s.address_register + 2) < 10
    ∧ 100 * (set_bcd_result s x).memory s.address_register
        + 10 * (set_bcd_result s x).memory (s.address_register + 1)
        + (set_bcd_result s x).memory (s.address_register + 2) = s.registers x
    ∧ (∀ a, a ≠ s.address_register → a ≠ s.address_register + 1 →
        a ≠ s.address_register + 2 → (set_bcd_result s x).memory a = s.memory a)
    ∧ (set_bcd_result s x).registers = s.registers := by
  have m0 : (set_bcd_result s x).memory s.address_register = s.registers x / 100 % 10 := by
    simp [set_bcd_result, advance, upd]
  have m1 : (set_bcd_result s x).memory (s.address_register + 1)
      = s.registers x / 10 % 10 := by
    simp [set_bcd_result, advance, upd]
  have m2 : (set_bcd_result s x).memory (s.address_register + 2) = s.registers x % 10 := by
    simp [set_bcd_result, advance, upd]
  refine ⟨set_bcd_eq s x hA, ?_, ?_, ?_, ?_, ?_, rfl⟩
  · rw [m0]; omega
  · rw [m1]; omega
  · rw [m2]; omega
  · rw [m0, m1, m2]; omega
  · intro a h0 h1 h2
    simp [set_bcd_result, advance, upd, h0, h1, h2]

/-- C10 (witness): `v = 255` at `A = 0x300` gives the bytes `2, 5, 5`. -/
theorem bcd_digits_witness :
    set_bcd example_registers 3 = .ok (set_bcd_result example_registers 3)
    ∧ (set_bcd_result example_registers 3).memory 0x300 = 2
    ∧ (set_bcd_result example_registers 3).memory 0x301 = 5
    ∧ (set_bcd_result example_registers 3).memory 0x302 = 5
    ∧ 100 * (set_bcd_result example_registers 3).memory 0x300
        + 10 * (set_bcd_result example_registers 3).memory 0x301
        + (set_bcd_result example_registers 3).memory 0x302 = 255
    ∧ (set_bcd_result example_registers 3).registers = example_registers.registers :=
  have h := bcd_digits example_registers 3 (by decide) (by decide) (by decide)
  ⟨h.1, by decide, by decide, by decide, h.2.2.2.2.1, h.2.2.2.2.2.2⟩

/-! ## Skips, jumps, calls and returns -/

theorem execute_family_3 (c : chip_8) (rnd x kk : Nat)
    (hpc : c.program_counter + 1 < 4096)
    (hhi : c.memory c.program_counter = 0x30 + x) (hx : x < 16)
    (hlo : c.memory (c.program_counter + 1) = kk) :
    execute c rnd = .ok (0, skip_equal c x kk) := by
  have h1 : c.program_counter < 4096 := by omega
  have e1 : (0x30 + x) >>> 4 = 3 := by rw [shiftRight_four]; omega
  have e2 : (0x30 + x) &&& 0xf = x := by rw [and_0xf]; omega
  simp only [execute, mem_read, MEMORY_SIZE, h1, hpc, if_true, hhi, hlo, e1, e2, normal]

theorem execute_family_4 (c : chip_8) (rnd x kk : Nat)
    (hpc : c.program_counter + 1 < 4096)
    (hhi : c.memory c.program_counter = 0x40 + x) (hx : x < 16)
    (hlo : c.memory (c.program_counter + 1) = kk) :
    execute c rnd = .ok (0, skip_not_equal c x kk) := by
  have h1 : c.program_counter < 4096 := by omega
  have e1 : (0x40 + x) >>> 4 = 4 := by rw [shiftRight_four]; omega
  have e2 : (0x40 + x) &&& 0xf = x := by rw [and_0xf]; omega
  simp only [execute, mem_read, MEMORY_SIZE, h1, hpc, if_true, hhi, hlo, e1, e2, normal]

theorem execute_family_5 (c : chip_8) (rnd x y n : Nat)
    (hpc : c.program_counter + 1 < 4096)
    (hhi : c.memory c.program_counter = 0x50 + x) (hx : x < 16)
    (hlo : c.memory (c.program_counter + 1) = 16 * y + n) (_hy : y < 16) (hn : n < 16) :
    execute c rnd = .ok (0, skip_equal_reg c x y) := by
  have h1 : c.program_counter < 4096 := by omega
  have e1 : (0x50 + x) >>> 4 = 5 := by rw [shiftRight_four]; omega
  have e2 : (0x50 + x) &&& 0xf = x := by rw [and_0xf]; omega
  have e4 : (16 * y + n) >>> 4 = y := by rw [shiftRight_four]; omega
  simp only [execute, mem_read, MEMORY_SIZE, h1, hpc, if_true, hhi, hlo, e1, e2, e4, normal]

theorem execute_family_9 (c : chip_8) (rnd x y n : Nat)
    (hpc : c.program_counter + 1 < 4096)
    (hhi : c.memory c.program_counter = 0x90 + x) (hx : x < 16)
    (hlo : c.memory (c.program_counter + 1) = 16 * y + n) (_hy : y < 16) (hn : n < 16) :
    execute c rnd = .ok (0, skip_not_equal_reg c x y) := by
  have h1 : c.program_counter < 4096 := by omega
  have e1 : (0x90 + x) >>> 4 = 9 := by rw [shiftRight_four]; omega
  have e2 : (0x90 + x) &&& 0xf = x := by rw [and_0xf]; omega
  have e4 : (16 * y + n) >>> 4 = y := by rw [shiftRight_four]; omega
  simp only [execute, mem_read, MEMORY_SIZE, h1, hpc, if_true, hhi, hlo, e1, e2, e4, normal]

theorem advance_eq (c : chip_8) (k : Nat) (h : c.program_counter + k < 65536) :
    advance c k = { c with program_counter := c.program_counter + k } := by
  simp only [advance, u16, Nat.mod_eq_of_lt h]

/-- C11. Skip rule: a step of a running machine on `3xkk` succeeds with status 0 and
yields the same state with the program counter advanced by 4 if `Vx = kk` and by 2
otherwise; on `4xkk` by 4 if `Vx != kk` and by 2 otherwise; on `5xy0` by 4 if `Vx = Vy`
and by 2 otherwise; on `9xy0` by 4 if `Vx != Vy` and by 2 otherwise.  Nothing but the
program counter changes. -/
theorem skip_rule (s : chip_8) (rnd x y kk : Nat)
    (hw : s.waiting_for_key = false) (hpc : s.program_counter + 1 < 4096)
    (hx : x < 16) (hy : y < 16) :
    (s.memory s.program_counter = 0x30 + x → s.memory (s.program_counter + 1) = kk →
      step s rnd = .ok (0, { s with
        program_counter := s.program_counter + (if s.registers x = kk then 4 else 2) }))
    ∧ (s.memory s.program_counter = 0x40 + x → s.memory (s.program_counter + 1) = kk →
      step s rnd = .ok (0, { s with
        program_counter := s.program_counter + (if s.registers x ≠ kk then 4 else 2) }))
    ∧ (s.memory s.program_counter = 0x50 + x → s.memory (s.program_counter + 1) = 16 * y →
      step s rnd = .ok (0, { s with
        program_counter :=
          s.program_counter + (if s.registers x = s.registers y then 4 else 2) }))
    ∧ (s.memory s.program_counter = 0x90 + x → s.memory (s.program_counter + 1) = 16 * y →
      step s rnd = .ok (0, { s with
        program_counter :=
          s.program_counter + (if s.registers x ≠ s.registers y then 4 else 2) })) := by
  have a2 := advance_eq s INSTRUCTION_SIZE (by simp only [INSTRUCTION_SIZE]; omega)
  have a4 := advance_eq s (2 * INSTRUCTION_SIZE) (by simp only [INSTRUCTION_SIZE]; omega)
  simp only [INSTRUCTION_SIZE] at a2 a4
  refine ⟨fun hhi hlo => ?_, fun hhi hlo => ?_, fun hhi hlo => ?_, fun hhi hlo => ?_⟩
  · rw [step_running _ _ hw, execute_family_3 s rnd x kk hpc hhi hx hlo]
    unfold skip_equal
    simp only [INSTRUCTION_SIZE, a2, a4]
    split <;> rfl
  · rw [step_running _ _ hw, execute_family_4 s rnd x kk hpc hhi hx hlo]
    unfold skip_not_equal
    simp only [INSTRUCTION_SIZE, a2, a4]
    split <;> rfl
  · rw [step_running _ _ hw, execute_family_5 s rnd x y 0 hpc hhi hx hlo hy (by decide)]
    unfold skip_equal_reg
    simp only [INSTRUCTION_SIZE, a2, a4]
    split <;> rfl
  · rw [step_running _ _ hw, execute_family_9 s rnd x y 0 hpc hhi hx hlo hy (by decide)]
    unfold skip_not_equal_reg
    simp only [INSTRUCTION_SIZE, a2, a4]
    split <;> rfl

/-- C11 (witness): with `V2 = V3 = 7`, the instructions `3207` and `5230` skip (program
counter `0x204`), `4207` and `9230` do not (program counter `0x202`). -/
theorem skip_rule_witness :
    step (example_skip 0x32 0x07) 0
      = .ok (0, { example_skip 0x32 0x07 with program_counter := 0x200 + 4 })
    ∧ step (example_skip 0x42 0x07) 0
      = .ok (0, { example_skip 0x42 0x07 with program_counter := 0x200 + 2 })
    ∧ step (example_skip 0x52 0x30) 0
      = .ok (0, { example_skip 0x52 0x30 with program_counter := 0x200 + 4 })
    ∧ step (example_skip 0x92 0x30) 0
      = .ok (0, { example_skip 0x92 0x30 with program_counter := 0x200 + 2 }) :=
  ⟨(skip_rule (example_skip 0x32 0x07) 0 2 3 7 rfl (by decide) (by decide) (by decide)).1
      (by decide) (by decide),
    (skip_rule (example_skip 0x42 0x07) 0 2 3 7 rfl (by decide) (by decide)
      (by decide)).2.1 (by decide) (by decide),
    (skip_rule (example_skip 0x52 0x30) 0 2 3 7 rfl (by decide) (by decide)
      (by decide)).2.2.1 (by decide) (by decide),
    (skip_rule (example_skip 0x92 0x30) 0 2 3 7 rfl (by decide) (by decide)
      (by decide)).2.2.2 (by decide) (by decide)⟩

theorem execute_call (c : chip_8) (rnd nnn : Nat)
    (hpc : c.program_counter + 1 < 4096) (hn : nnn < 4096)
    (hhi : c.memory c.program_counter = 0x20 + nnn / 256)
    (hlo : c.memory (c.program_counter + 1) = nnn % 256) :
    execute c rnd = .ok (0, call_subroutine c nnn) := by
  have h1 : c.program_counter < 4096 := by omega
  have e1 : (0x20 + nnn / 256) >>> 4 = 2 := by rw [shiftRight_four]; omega
  have e5 : (((0x20 + nnn / 256) <<< 8) ||| (nnn % 256)) &&& 0xfff = nnn := by
    rw [full_word _ _ (by omega), and_0xfff]; omega
  simp only [execute, mem_read, MEMORY_SIZE, h1, hpc, if_true, hhi, hlo, e1, e5, normal]

theorem execute_return (c : chip_8) (rnd : Nat)
    (hpc : c.program_counter + 1 < 4096)
    (hhi : c.memory c.program_counter = 0x00)
    (hlo : c.memory (c.program_counter + 1) = 0xEE) :
    execute c rnd = normal_of (return_from_subroutine c) := by
  have h1 : c.program_counter < 4096 := by omega
  have e1 : (0x00 : Nat) >>> 4 = 0 := by decide
  have e5 : (((0x00 : Nat) <<< 8) ||| 0xEE) = 0xEE := by decide
  simp only [execute, mem_read, MEMORY_SIZE, h1, hpc, if_true, hhi, hlo, e1, e5]
  simp only [show ¬ ((0xEE : Nat) = 0x00E0) by decide, if_false, if_true]

theorem call_step (s : chip_8) (rnd nnn : Nat)
    (hw : s.waiting_for_key = false) (hpc : s.program_counter + 1 < 4096) (hn : nnn < 4096)
    (hhi : s.memory s.program_counter = 0x20 + nnn / 256)
    (hlo : s.memory (s.program_counter + 1) = nnn % 256)
    (hpush : s.stack_pos + 1 < 15) :
    step s rnd = .ok (0, call_subroutine s nnn)
    ∧ call_subroutine s nnn = { s with
        program_counter := nnn
        stack_pos := s.stack_pos + 1
        stack := upd s.stack (s.stack_pos + 1) (s.program_counter + 2) } := by
  refine ⟨by rw [step_running _ _ hw, execute_call s rnd nnn hpc hn hhi hlo], ?_⟩
  have h1 : ¬ (s.stack_pos + 1 ≥ 16 - 1) := by omega
  have h2 : u8 (s.stack_pos + 1) = s.stack_pos + 1 := by unfold u8; omega
  have h3 : u16 (s.program_counter + 2) = s.program_counter + 2 := by unfold u16; omega
  simp only [call_subroutine, push, goto_address, STACK_SIZE, INSTRUCTION_SIZE, h1, if_false,
    h2, h3]

theorem return_step (t : chip_8) (rnd : Nat)
    (hw : t.waiting_for_key = false) (hpc : t.program_counter + 1 < 4096)
    (hhi : t.memory t.program_counter = 0x00)
    (hlo : t.memory (t.program_counter + 1) = 0xEE)
    (h0 : t.stack_pos ≠ 0) (h16 : t.stack_pos < 16) :
    step t rnd = .ok (0, { t with
      program_counter := t.stack t.stack_pos
      stack_pos := t.stack_pos - 1 }) := by
  rw [step_running _ _ hw, execute_return t rnd hpc hhi hlo]
  simp only [return_from_subroutine, pop, h0, if_false, STACK_SIZE, h16, if_true, normal_of]

/-- C12. Call/return round trip.  For a running machine whose push is not dropped
(`stack_pos + 1 < 15`), a step on `2nnn` at program counter `p` succeeds, sets the program
counter to `nnn` and stores `p + 2` as the new top of stack at depth `stack_pos + 1`,
changing nothing else.  A step on `00EE` in any running state with that stack sets the
program counter to `p + 2` and restores the stack depth.  Nested calls return in
last-in-first-out order: after a second call `2mmm` at program counter `q` on top of the
first, the first `00EE` returns to `q + 2` and the second `00EE` to `p + 2`. -/
theorem call_return_round_trip (s : chip_8) (rnd nnn : Nat)
    (hw : s.waiting_for_key = false) (hpc : s.program_counter + 1 < 4096) (hn : nnn < 4096)
    (hhi : s.memory s.program_counter = 0x20 + nnn / 256)
    (hlo : s.memory (s.program_counter + 1) = nnn % 256)
    (hpush : s.stack_pos + 1 < 15) :
    step s rnd = .ok (0, call_subroutine s nnn)
    ∧ call_subroutine s nnn = { s with
        program_counter := nnn
        stack_pos := s.stack_pos + 1
        stack := upd s.stack (s.stack_pos + 1) (s.program_counter + 2) }
    ∧ (∀ (t : chip_8) (rnd1 : Nat),
        t.waiting_for_key = false → t.program_counter + 1 < 4096 →
        t.memory t.program_counter = 0x00 → t.memory (t.program_counter + 1) = 0xEE →
        t.stack = (call_subroutine s nnn).stack →
        t.stack_pos = (call_subroutine s nnn).stack_pos →
        step t rnd1 = .ok (0, { t with
          program_counter := s.program_counter + 2
          stack_pos := s.stack_pos }))
    ∧ (∀ (t u v : chip_8) (mmm rnd1 rnd2 rnd3 : Nat),
        t.waiting_for_key = false → t.program_counter + 1 < 4096 → mmm < 4096 →
        t.memory t.program_counter = 0x20 + mmm / 256 →
        t.memory (t.program_counter + 1) = mmm % 256 →
        t.stack = (call_subroutine s nnn).stack →
        t.stack_pos = (call_subroutine s nnn).stack_pos →
        t.stack_pos + 1 < 15 →
        u.waiting_for_key = false → u.program_counter + 1 < 4096 →
        u.memory u.program_counter = 0x00 → u.memory (u.program_counter + 1) = 0xEE →
        u.stack = (call_subroutine t mmm).stack →
        u.stack_pos = (call_subroutine t mmm).stack_pos →
        v.waiting_for_key = false → v.program_counter + 1 < 4096 →
        v.memory v.program_counter = 0x00 → v.memory (v.program_counter + 1) = 0xEE →
        v.stack = u.stack → v.stack_pos = u.stack_pos - 1 →
        step t rnd1 = .ok (0, call_subroutine t mmm)
        ∧ step u rnd2 = .ok (0, { u with
            program_counter := t.program_counter + 2
            stack_pos := s.stack_pos + 1 })
        ∧ step v rnd3 = .ok (0, { v with
            program_counter := s.program_counter + 2
            stack_pos := s.stack_pos })) := by
  obtain ⟨c1, c2⟩ := call_step s rnd nnn hw hpc hn hhi hlo hpush
  refine ⟨c1, c2, ?_, ?_⟩
  · intro t rnd1 tw tpc thi tlo tst tsp
    rw [c2] at tst tsp
    simp only at tst tsp
    rw [return_step t rnd1 tw tpc thi tlo (by omega) (by omega), tst, tsp]
    simp only [upd_same, Nat.add_sub_cancel]
  · intro t u v mmm rnd1 rnd2 rnd3 tw tpc hm thi tlo tst tsp tpush uw upc uhi ulo ust usp
      vw vpc vhi vlo vst vsp
    obtain ⟨d1, d2⟩ := call_step t rnd1 mmm tw tpc hm thi tlo tpush
    rw [c2] at tst tsp
    simp only at tst tsp
    rw [d2] at ust usp
    simp only at ust usp
    refine ⟨d1, ?_, ?_⟩
    · rw [return_step u rnd2 uw upc uhi ulo (by omega) (by omega), ust, usp]
      simp only [upd_same, Nat.add_sub_cancel, tsp]
    · have hv : v.stack_pos = s.stack_pos + 1 := by omega
      rw [return_step v rnd3 vw vpc vhi vlo (by omega) (by omega), vst, ust, hv, tsp, tst]
      simp only [Nat.add_sub_cancel]
      rw [upd_ne _ _ _ _ (by omega), upd_same]

/-- C12 (witness): the program `2300` at `0x200`, `2400` at `0x300`, `00EE` at `0x400`,
`00EE` at `0x302`, run from the initial state: the two calls record `0x202` and `0x302`,
the two returns go to `0x302` and then to `0x202`. -/
theorem call_return_round_trip_witness :
    step example_calls 0 = .ok (0, example_called)
    ∧ example_called.program_counter = 0x300
    ∧ example_called.stack_pos = 1
    ∧ example_called.stack 1 = 0x202
    ∧ step { example_called with program_counter := 0x400 } 0
        = .ok (0, { example_called with program_counter := 0x200 + 2, stack_pos := 0 })
    ∧ step example_called 0 = .ok (0, example_called_twice)
    ∧ step example_called_twice 0 = .ok (0, example_returned)
    ∧ step example_returned 0
        = .ok (0, { example_returned with program_counter := 0x200 + 2, stack_pos := 0 }) :=
  have h := call_return_round_trip example_calls 0 0x300 rfl (by decide) (by decide)
    (by decide) (by decide) (by decide)
  have h4 := h.2.2.2 example_called example_called_twice example_returned 0x400 0 0 0
    rfl (by decide) (by decide) (by decide) (by decide) rfl rfl (by decide)
    rfl (by decide) (by decide) (by decide) rfl rfl
    rfl (by decide) (by decide) (by decide) rfl rfl
  ⟨h.1, by decide, by decide, by decide,
    h.2.2.1 { example_called with program_counter := 0x400 } 0 rfl (by decide) (by decide)
      (by decide) rfl rfl,
    h4.1, h4.2.1, h4.2.2⟩

/-- C13 (failing input). From the initial (empty-stack) state, the program of 16 nested
calls records the return addresses of the first 14 calls only: after 14 calls the stack
depth is 14 with `0x21C` on top; the 15th call (at `0x21C`, return address `0x21E`) and
the 16th call (at `0x21E`, return address `0x220`) still jump but leave the depth at 14
and the stack entries 14 and 15 unchanged; the first return then goes to `0x21C`, the
return address of the 14th call, and not to `0x220`. -/
theorem stack_holds_14_return_addresses :
    ∃ c14 c15 c16 c17,
      (run 14 example_nested_calls = .ok c14
        ∧ c14.stack_pos = 14 ∧ c14.stack 14 = 0x21C ∧ c14.program_counter = 0x21C)
      ∧ (run 15 example_nested_calls = .ok c15
        ∧ c15.stack_pos = 14 ∧ c15.stack 14 = 0x21C ∧ c15.stack 15 = 0
        ∧ c15.program_counter = 0x21E)
      ∧ (run 16 example_nested_calls = .ok c16
        ∧ c16.stack_pos = 14 ∧ c16.stack 14 = 0x21C ∧ c16.stack 15 = 0
        ∧ c16.program_counter = 0x220)
      ∧ (run 17 example_nested_calls = .ok c17
        ∧ c17.stack_pos = 13 ∧ c17.program_counter = 0x21C) :=
  ⟨_, _, _, _, ⟨rfl, rfl, rfl, rfl⟩, ⟨rfl, rfl, rfl, rfl, rfl⟩, ⟨rfl, rfl, rfl, rfl, rfl⟩,
    ⟨rfl, rfl, rfl⟩⟩

/-- C14. Stack overflow is recoverable and atomic: in a running state whose stack is at
the overflow bound (`stack_pos + 1 >= 15`), `push` returns the state unchanged (stack
array and `stack_pos` included), and the step on `2nnn` reports no fault and yields the
same state with the program counter set to `nnn`. -/
theorem stack_overflow_recoverable (s : chip_8) (rnd nnn : Nat)
    (hw : s.waiting_for_key = false) (hpc : s.program_counter + 1 < 4096) (hn : nnn < 4096)
    (hhi : s.memory s.program_counter = 0x20 + nnn / 256)
    (hlo : s.memory (s.program_counter + 1) = nnn % 256)
    (hfull : s.stack_pos + 1 ≥ 15) :
    (∀ v, push s v = s)
    ∧ step s rnd = .ok (0, { s with program_counter := nnn }) := by
  have hp : ∀ v, push s v = s := by
    intro v
    have h1 : s.stack_pos + 1 ≥ 16 - 1 := by omega
    simp only [push, STACK_SIZE, h1, if_true]
  refine ⟨hp, ?_⟩
  rw [step_running _ _ hw, execute_call s rnd nnn hpc hn hhi hlo]
  simp only [call_subroutine, hp, goto_address]

/-- C14 (witness): the call `2300` with 14 return addresses on the stack. -/
theorem stack_overflow_recoverable_witness :
    (∀ v, push example_full_stack v = example_full_stack)
    ∧ step example_full_stack 0
        = .ok (0, { example_full_stack with program_counter := 0x300 }) :=
  stack_overflow_recoverable example_full_stack 0 0x300 rfl (by decide) (by decide)
    (by decide) (by decide) (by decide)

/-- C15. Stack underflow is recoverable: in a running state with an empty stack
(`stack_pos = 0`), `pop` returns the sentinel `0xFFFF` and the state unchanged, and the
step on `00EE` reports no fault and yields the same state (stack array and
`stack_pos = 0` included) with the program counter set to `0xFFFF`, which is not below
`MEMORY_SIZE = 4096`. -/
theorem stack_underflow_recoverable (s : chip_8) (rnd : Nat)
    (hw : s.waiting_for_key = false) (hpc : s.program_counter + 1 < 4096)
    (hhi : s.memory s.program_counter = 0x00)
    (hlo : s.memory (s.program_counter + 1) = 0xEE)
    (h0 : s.stack_pos = 0) :
    pop s = .ok (0xFFFF, s)
    ∧ step s rnd = .ok (0, { s with program_counter := 0xFFFF })
    ∧ ¬ (0xFFFF < MEMORY_SIZE) := by
  have hp : pop s = .ok (0xFFFF, s) := by
    simp only [pop, h0, if_true]
    rfl
  refine ⟨hp, ?_, by decide⟩
  rw [step_running _ _ hw, execute_return s rnd hpc hhi hlo]
  simp only [return_from_subroutine, hp, normal_of]

/-- C15 (witness): `00EE` as the first instruction of the initial state. -/
theorem stack_underflow_recoverable_witness :
    pop example_return_empty = .ok (0xFFFF, example_return_empty)
    ∧ step example_return_empty 0
        = .ok (0, { example_return_empty with program_counter := 0xFFFF })
    ∧ ¬ (0xFFFF < MEMORY_SIZE) :=
  stack_underflow_recoverable example_return_empty 0 rfl (by decide) (by decide) (by decide)
    rfl

theorem execute_jump (c : chip_8) (rnd nnn : Nat)
    (hpc : c.program_counter + 1 < 4096) (hn : nnn < 4096)
    (hhi : c.memory c.program_counter = 0x10 + nnn / 256)
    (hlo : c.memory (c.program_counter + 1) = nnn % 256) :
    execute c rnd = .ok (0, goto_address c nnn) := by
  have h1 : c.program_counter < 4096 := by omega
  have e1 : (0x10 + nnn / 256) >>> 4 = 1 := by rw [shiftRight_four]; omega
  have e5 : (((0x10 + nnn / 256) <<< 8) ||| (nnn % 256)) &&& 0xfff = nnn := by
    rw [full_word _ _ (by omega), and_0xfff]; omega
  simp only [execute, mem_read, MEMORY_SIZE, h1, hpc, if_true, hhi, hlo, e1, e5, normal]

theorem execute_jump_V0 (c : chip_8) (rnd nnn : Nat)
    (hpc : c.program_counter + 1 < 4096) (hn : nnn < 4096)
    (hhi : c.memory c.program_counter = 0xB0 + nnn / 256)
    (hlo : c.memory (c.program_counter + 1) = nnn % 256) :
    execute c rnd = .ok (0, goto_address_plus_V0 c nnn) := by
  have h1 : c.program_counter < 4096 := by omega
  have e1 : (0xB0 + nnn / 256) >>> 4 = 11 := by rw [shiftRight_four]; omega
  have e5 : (((0xB0 + nnn / 256) <<< 8) ||| (nnn % 256)) &&& 0xfff = nnn := by
    rw [full_word _ _ (by omega), and_0xfff]; omega
  simp only [execute, mem_read, MEMORY_SIZE, h1, hpc, if_true, hhi, hlo, e1, e5, normal]

/-- C18. Jumps do not auto-advance: for a running machine and a 12-bit `nnn`, the step on
`1nnn` yields the same state with the program counter set to exactly `nnn`, and the step on
`Bnnn` (with `V0` a byte) yields the same state with the program counter set to exactly
`nnn + V0`; nothing else changes. -/
theorem jumps_do_not_advance (s : chip_8) (rnd nnn : Nat)
    (hw : s.waiting_for_key = false) (hpc : s.program_counter + 1 < 4096) (hn : nnn < 4096)
    (hlo : s.memory (s.program_counter + 1) = nnn % 256) :
    (s.memory s.program_counter = 0x10 + nnn / 256 →
      step s rnd = .ok (0, { s with program_counter := nnn }))
    ∧ (s.memory s.program_counter = 0xB0 + nnn / 256 → s.registers 0 < 256 →
      step s rnd = .ok (0, { s with program_counter := nnn + s.registers 0 })) := by
  refine ⟨fun hhi => ?_, fun hhi hv => ?_⟩
  · rw [step_running _ _ hw, execute_jump s rnd nnn hpc hn hhi hlo]
    rfl
  · rw [step_running _ _ hw, execute_jump_V0 s rnd nnn hpc hn hhi hlo]
    have h : u16 (nnn + s.registers 0) = nnn + s.registers 0 := by unfold u16; omega
    simp only [goto_address_plus_V0, h]

/-- C18 (witness): `1ABC` sets the program counter to `0xABC`; `BABC` with `V0 = 0x34`
sets it to `0xABC + 0x34`. -/
theorem jumps_do_not_advance_witness :
    step (example_jump 0x1A 0xBC) 0
      = .ok (0, { example_jump 0x1A 0xBC with program_counter := 0xABC })
    ∧ step (example_jump 0xBA 0xBC) 0
      = .ok (0, { example_jump 0xBA 0xBC with program_counter := 0xABC + 0x34 }) :=
  ⟨(jumps_do_not_advance (example_jump 0x1A 0xBC) 0 0xABC rfl (by decide) (by decide)
      (by decide)).1 (by decide),
    (jumps_do_not_advance (example_jump 0xBA 0xBC) 0 0xABC rfl (by decide) (by decide)
      (by decide)).2 (by decide) (by decide)⟩

/-! ## Font glyph address -/

/-- C17 (counterexample to the claim as stated). With `V1 = 0x1A` the step on `F129`
succeeds and leaves the address register at `0x50 + 5 * 0x1A = 0xD2`, not at
`0x50 + 5 * (0x1A mod 16) = 0x82`, and `0xD2` is outside the font area
`[0x50, 0x50 + 80)`. -/
theorem font_address_not_masked :
    step example_font_large 0 = .ok (0, set_font_char example_font_large 1)
    ∧ (set_font_char example_font_large 1).address_register = 0xD2
    ∧ 0x50 + 5 * (example_font_large.registers 1 % 16) = 0x82
    ∧ ¬ ((set_font_char example_font_large 1).address_register
          < FONTSET_MEMORY_OFFSET + FONTSET_SIZE) := by
  refine ⟨?_, by decide, by decide, by decide⟩
  rw [step_running _ _ rfl,
    execute_family_F example_font_large 0 1 0x29 (by decide) (by decide) (by decide)
      (by decide) (by decide)]
  rfl

/-- C17 (as amended). Font glyph address: for a byte value of register `x`, the step of a
running machine on `Fx29` yields the same state with the program counter advanced by 2
and the address register equal to `0x50 + 5 * Vx`; when `Vx` is at most 15 this is
`0x50 + 5 * (Vx mod 16)`, the first byte of glyph `Vx`, and the five bytes of the glyph
lie inside `[0x50, 0x50 + 80)`. -/
theorem font_address (s : chip_8) (rnd x : Nat)
    (hw : s.waiting_for_key = false) (hpc : s.program_counter + 1 < 4096) (hx : x < 16)
    (hhi : s.memory s.program_counter = 0xF0 + x)
    (hlo : s.memory (s.program_counter + 1) = 0x29)
    (hv : s.registers x < 256) :
    step s rnd = .ok (0, { s with
      address_register := 0x50 + 5 * s.registers x
      program_counter := s.program_counter + 2 })
    ∧ (s.registers x ≤ 15 →
        0x50 + 5 * s.registers x = 0x50 + 5 * (s.registers x % 16)
        ∧ 0x50 ≤ 0x50 + 5 * s.registers x
        ∧ 0x50 + 5 * s.registers x + 5 ≤ 0x50 + 80) := by
  refine ⟨?_, fun h => ⟨by omega, by omega, by omega⟩⟩
  rw [step_running _ _ hw, execute_family_F s rnd x 0x29 hpc hhi hx hlo (by decide)]
  have h1 : u16 (0x50 + s.registers x * 5) = 0x50 + 5 * s.registers x := by
    unfold u16; omega
  have h2 : u16 (s.program_counter + 2) = s.program_counter + 2 := by unfold u16; omega
  simp only [show ¬ ((0x29 : Nat) = 0x07) by decide, show ¬ ((0x29 : Nat) = 0x0a) by decide,
    show ¬ ((0x29 : Nat) = 0x15) by decide, show ¬ ((0x29 : Nat) = 0x18) by decide,
    show ¬ ((0x29 : Nat) = 0x1e) by decide, if_false, if_true, normal, set_font_char, advance,
    FONTSET_MEMORY_OFFSET, INSTRUCTION_SIZE, h1, h2]

/-- C17 (witness): `F129` with `V1 = 0x0A` points the address register at `0x82`, the
glyph of `A`. -/
theorem font_address_witness :
    step example_font 0 = .ok (0, { example_font with
      address_register := 0x50 + 5 * 0x0A
      program_counter := 0x200 + 2 })
    ∧ 0x50 + 5 * example_font.registers 1 = 0x50 + 5 * (example_font.registers 1 % 16)
    ∧ 0x50 ≤ 0x50 + 5 * example_font.registers 1
    ∧ 0x50 + 5 * example_font.registers 1 + 5 ≤ 0x50 + 80 :=
  have h := font_address example_font 0 1 rfl (by decide) (by decide) (by decide) (by decide)
    (by decide)
  ⟨h.1, h.2 (by decide)⟩

/-! ## The decoder, family by family -/

theorem decode_facts (a b lo : Nat) (hb : b < 16) (hlo8 : lo < 256) :
    (16 * a + b) >>> 4 = a ∧ (16 * a + b) &&& 0xf = b ∧ lo &&& 0xf = lo % 16
    ∧ lo >>> 4 = lo / 16 ∧ ((16 * a + b) <<< 8) ||| lo = 4096 * a + (256 * b + lo)
    ∧ (4096 * a + (256 * b + lo)) &&& 0xfff = 256 * b + lo := by
  refine ⟨?_, ?_, and_0xf lo, shiftRight_four lo, ?_, ?_⟩
  · rw [shiftRight_four]; omega
  · rw [and_0xf]; omega
  · rw [full_word _ _ hlo8]; omega
  · rw [and_0xfff]; omega

theorem execute_hi_0 (c : chip_8) (rnd b lo : Nat)
    (hpc : c.program_counter + 1 < 4096)
    (hhi : c.memory c.program_counter = 16 * 0 + b) (hb : b < 16)
    (hlo : c.memory (c.program_counter + 1) = lo) (hlo8 : lo < 256) :
    execute c rnd =
      if 256 * b + lo = 0x00E0 then normal (clear_screen c)
      else if 256 * b + lo = 0x00EE then normal_of (return_from_subroutine c)
      else not_implemented (256 * b + lo) := by
  have h1 : c.program_counter < 4096 := by omega
  obtain ⟨e1, e2, e3, e4, e5, e6⟩ := decode_facts 0 b lo hb hlo8
  simp only [execute, mem_read, MEMORY_SIZE, h1, hpc, if_true, hhi, hlo, e1, e2, e3, e4, e5,
    e6]
  simp only [Nat.mul_zero, Nat.zero_add]

theorem execute_hi_1 (c : chip_8) (rnd b lo : Nat)
    (hpc : c.program_counter + 1 < 4096)
    (hhi : c.memory c.program_counter = 16 * 1 + b) (hb : b < 16)
    (hlo : c.memory (c.program_counter + 1) = lo) (hlo8 : lo < 256) :
    execute c rnd =
      normal (goto_address c (256 * b + lo)) := by
  have h1 : c.program_counter < 4096 := by omega
  obtain ⟨e1, e2, e3, e4, e5, e6⟩ := decode_facts 1 b lo hb hlo8
  simp only [execute, mem_read, MEMORY_SIZE, h1, hpc, if_true, hhi, hlo, e1, e2, e3, e4, e5,
    e6]

theorem execute_hi_2 (c : chip_8) (rnd b lo : Nat)
    (hpc : c.program_counter + 1 < 4096)
    (hhi : c.memory c.program_counter = 16 * 2 + b) (hb : b < 16)
    (hlo : c.memory (c.program_counter + 1) = lo) (hlo8 : lo < 256) :
    execute c rnd =
      normal (call_subroutine c (256 * b + lo)) := by
  have h1 : c.program_counter < 4096 := by omega
  obtain ⟨e1, e2, e3, e4, e5, e6⟩ := decode_facts 2 b lo hb hlo8
  simp only [execute, mem_read, MEMORY_SIZE, h1, hpc, if_true, hhi, hlo, e1, e2, e3, e4, e5,
    e6]

theorem execute_hi_3 (c : chip_8) (rnd b lo : Nat)
    (hpc : c.program_counter + 1 < 4096)
    (hhi : c.memory c.program_counter = 16 * 3 + b) (hb : b < 16)
    (hlo : c.memory (c.program_counter + 1) = lo) (hlo8 : lo < 256) :
    execute c rnd =
      normal (skip_equal c b lo) := by
  have h1 : c.program_counter < 4096 := by omega
  obtain ⟨e1, e2, e3, e4, e5, e6⟩ := decode_facts 3 b lo hb hlo8
  simp only [execute, mem_read, MEMORY_SIZE, h1, hpc, if_true, hhi, hlo, e1, e2, e3, e4, e5,
    e6]

theorem execute_hi_4 (c : chip_8) (rnd b lo : Nat)
    (hpc : c.program_counter + 1 < 4096)
    (hhi : c.memory c.program_counter = 16 * 4 + b) (hb : b < 16)
    (hlo : c.memory (c.program_counter + 1) = lo) (hlo8 : lo < 256) :
    execute c rnd =
      normal (skip_not_equal c b lo) := by
  have h1 : c.program_counter < 4096 := by omega
  obtain ⟨e1, e2, e3, e4, e5, e6⟩ := decode_facts 4 b lo hb hlo8
  simp only [execute, mem_read, MEMORY_SIZE, h1, hpc, if_true, hhi, hlo, e1, e2, e3, e4, e5,
    e6]

theorem execute_hi_5 (c : chip_8) (rnd b lo : Nat)
    (hpc : c.program_counter + 1 < 4096)
    (hhi : c.memory c.program_counter = 16 * 5 + b) (hb : b < 16)
    (hlo : c.memory (c.program_counter + 1) = lo) (hlo8 : lo < 256) :
    execute c rnd =
      normal (skip_equal_reg c b (lo / 16)) := by
  have h1 : c.program_counter < 4096 := by omega
  obtain ⟨e1, e2, e3, e4, e5, e6⟩ := decode_facts 5 b lo hb hlo8
  simp only [execute, mem_read, MEMORY_SIZE, h1, hpc, if_true, hhi, hlo, e1, e2, e3, e4, e5,
    e6]

theorem execute_hi_6 (c : chip_8) (rnd b lo : Nat)
    (hpc : c.program_counter + 1 < 4096)
    (hhi : c.memory c.program_counter = 16 * 6 + b) (hb : b < 16)
    (hlo : c.memory (c.program_counter + 1) = lo) (hlo8 : lo < 256) :
    execute c rnd =
      normal (load_imm c b lo) := by
  have h1 : c.program_counter < 4096 := by omega
  obtain ⟨e1, e2, e3, e4, e5, e6⟩ := decode_facts 6 b lo hb hlo8
  simp only [execute, mem_read, MEMORY_SIZE, h1, hpc, if_true, hhi, hlo, e1, e2, e3, e4, e5,
    e6]

theorem execute_hi_7 (c : chip_8) (rnd b lo : Nat)
    (hpc : c.program_counter + 1 < 4096)
    (hhi : c.memory c.program_counter = 16 * 7 + b) (hb : b < 16)
    (hlo : c.memory (c.program_counter + 1) = lo) (hlo8 : lo < 256) :
    execute c rnd =
      normal (add_imm c b lo) := by
  have h1 : c.program_counter < 4096 := by omega
  obtain ⟨e1, e2, e3, e4, e5, e6⟩ := decode_facts 7 b lo hb hlo8
  simp only [execute, mem_read, MEMORY_SIZE, h1, hpc, if_true, hhi, hlo, e1, e2, e3, e4, e5,
    e6]

theorem execute_hi_8 (c : chip_8) (rnd b lo : Nat)
    (hpc : c.program_counter + 1 < 4096)
    (hhi : c.memory c.program_counter = 16 * 8 + b) (hb : b < 16)
    (hlo : c.memory (c.program_counter + 1) = lo) (hlo8 : lo < 256) :
    execute c rnd =
      if lo % 16 = 0 then normal (mov c b (lo / 16))
      else if lo % 16 = 1 then normal (bit_or c b (lo / 16))
      else if lo % 16 = 2 then normal (bit_and c b (lo / 16))
      else if lo % 16 = 3 then normal (bit_xor c b (lo / 16))
      else if lo % 16 = 4 then normal (add_reg c b (lo / 16))
      else if lo % 16 = 5 then normal (sub_reg c b (lo / 16))
      else if lo % 16 = 6 then normal (shift_right c b)
      else if lo % 16 = 7 then normal (sub_reg_switch c b (lo / 16))
      else if lo % 16 = 0xe then normal (shift_left c b)
      else not_implemented (0x8000 + (256 * b + lo)) := by
  have h1 : c.program_counter < 4096 := by omega
  obtain ⟨e1, e2, e3, e4, e5, e6⟩ := decode_facts 8 b lo hb hlo8
  simp only [execute, mem_read, MEMORY_SIZE, h1, hpc, if_true, hhi, hlo, e1, e2, e3, e4, e5,
    e6]

theorem execute_hi_9 (c : chip_8) (rnd b lo : Nat)
    (hpc : c.program_counter + 1 < 4096)
    (hhi : c.memory c.program_counter = 16 * 9 + b) (hb : b < 16)
    (hlo : c.memory (c.program_counter + 1) = lo) (hlo8 : lo < 256) :
    execute c rnd =
      normal (skip_not_equal_reg c b (lo / 16)) := by
  have h1 : c.program_counter < 4096 := by omega
  obtain ⟨e1, e2, e3, e4, e5, e6⟩ := decode_facts 9 b lo hb hlo8
  simp only [execute, mem_read, MEMORY_SIZE, h1, hpc, if_true, hhi, hlo, e1, e2, e3, e4, e5,
    e6]

theorem execute_hi_10 (c : chip_8) (rnd b lo : Nat)
    (hpc : c.program_counter + 1 < 4096)
    (hhi : c.memory c.program_counter = 16 * 10 + b) (hb : b < 16)
    (hlo : c.memory (c.program_counter + 1) = lo) (hlo8 : lo < 256) :
    execute c rnd =
      normal (set_address_reg c (256 * b + lo)) := by
  have h1 : c.program_counter < 4096 := by omega
  obtain ⟨e1, e2, e3, e4, e5, e6⟩ := decode_facts 10 b lo hb hlo8
  simp only [execute, mem_read, MEMORY_SIZE, h1, hpc, if_true, hhi, hlo, e1, e2, e3, e4, e5,
    e6]

theorem execute_hi_11 (c : chip_8) (rnd b lo : Nat)
    (hpc : c.program_counter + 1 < 4096)
    (hhi : c.memory c.program_counter = 16 * 11 + b) (hb : b < 16)
    (hlo : c.memory (c.program_counter + 1) = lo) (hlo8 : lo < 256) :
    execute c rnd =
      normal (goto_address_plus_V0 c (256 * b + lo)) := by
  have h1 : c.program_counter < 4096 := by omega
  obtain ⟨e1, e2, e3, e4, e5, e6⟩ := decode_facts 11 b lo hb hlo8
  simp only [execute, mem_read, MEMORY_SIZE, h1, hpc, if_true, hhi, hlo, e1, e2, e3, e4, e5,
    e6]

theorem execute_hi_12 (c : chip_8) (rnd b lo : Nat)
    (hpc : c.program_counter + 1 < 4096)
    (hhi : c.memory c.program_counter = 16 * 12 + b) (hb : b < 16)
    (hlo : c.memory (c.program_counter + 1) = lo) (hlo8 : lo < 256) :
    execute c rnd =
      normal (rand_mod c rnd b lo) := by
  have h1 : c.program_counter < 4096 := by omega
  obtain ⟨e1, e2, e3, e4, e5, e6⟩ := decode_facts 12 b lo hb hlo8
  simp only [execute, mem_read, MEMORY_SIZE, h1, hpc, if_true, hhi, hlo, e1, e2, e3, e4, e5,
    e6]

theorem execute_hi_13 (c : chip_8) (rnd b lo : Nat)
    (hpc : c.program_counter + 1 < 4096)
    (hhi : c.memory c.program_counter = 16 * 13 + b) (hb : b < 16)
    (hlo : c.memory (c.program_counter + 1) = lo) (hlo8 : lo < 256) :
    execute c rnd =
      match draw_sprite c b (lo / 16) (lo % 16) with
      | .ok c1 => .ok (2, c1)
      | .error e => .error e := by
  have h1 : c.program_counter < 4096 := by omega
  obtain ⟨e1, e2, e3, e4, e5, e6⟩ := decode_facts 13 b lo hb hlo8
  simp only [execute, mem_read, MEMORY_SIZE, h1, hpc, if_true, hhi, hlo, e1, e2, e3, e4, e5,
    e6]

theorem execute_hi_14 (c : chip_8) (rnd b lo : Nat)
    (hpc : c.program_counter + 1 < 4096)
    (hhi : c.memory c.program_counter = 16 * 14 + b) (hb : b < 16)
    (hlo : c.memory (c.program_counter + 1) = lo) (hlo8 : lo < 256) :
    execute c rnd =
      if lo = 0x9e then normal_of (skip_if_key_pressed c b)
      else if lo = 0xa1 then normal_of (skip_if_key_not_pressed c b)
      else not_implemented (0xE000 + (256 * b + lo)) := by
  have h1 : c.program_counter < 4096 := by omega
  obtain ⟨e1, e2, e3, e4, e5, e6⟩ := decode_facts 14 b lo hb hlo8
  simp only [execute, mem_read, MEMORY_SIZE, h1, hpc, if_true, hhi, hlo, e1, e2, e3, e4, e5,
    e6]

theorem execute_hi_15 (c : chip_8) (rnd b lo : Nat)
    (hpc : c.program_counter + 1 < 4096)
    (hhi : c.memory c.program_counter = 16 * 15 + b) (hb : b < 16)
    (hlo : c.memory (c.program_counter + 1) = lo) (hlo8 : lo < 256) :
    execute c rnd =
      if lo = 0x07 then normal (get_delay c b)
      else if lo = 0x0a then normal (wait_for_key c b)
      else if lo = 0x15 then normal (set_delay c b)
      else if lo = 0x18 then normal (set_sound c b)
      else if lo = 0x1e then normal (add_address_reg c b)
      else if lo = 0x29 then normal (set_font_char c b)
      else if lo = 0x33 then normal_of (set_bcd c b)
      else if lo = 0x55 then normal_of (reg_dump c b)
      else if lo = 0x65 then normal_of (reg_load c b)
      else not_implemented (0xF000 + (256 * b + lo)) := by
  have h1 : c.program_counter < 4096 := by omega
  obtain ⟨e1, e2, e3, e4, e5, e6⟩ := decode_facts 15 b lo hb hlo8
  simp only [execute, mem_read, MEMORY_SIZE, h1, hpc, if_true, hhi, hlo, e1, e2, e3, e4, e5,
    e6]

/-! ## Step status -/

theorem not_implemented_status (w r : Nat) (s' : chip_8)
    (h : (not_implemented w : Except Fault (Nat × chip_8)) = .ok (r, s')) : False := by
  simp [not_implemented] at h

theorem first_pressed_key_eq_none (c : chip_8) (h : first_pressed_key c = none) :
    ∀ i, i < 16 → c.keys i = 0 := by
  intro i hi
  unfold first_pressed_key at h
  rw [List.find?_eq_none] at h
  have := h i (List.mem_range.2 hi)
  simpa using this

theorem foldlM_oob (f : chip_8 → Nat → Except Fault chip_8)
    (hf : ∀ c a e, f c a = .error e → e = .out_of_bounds) (l : List Nat) :
    ∀ c e, l.foldlM f c = .error e → e = .out_of_bounds := by
  induction l with
  | nil =>
    intro c e h
    simp [List.foldlM, pure, Except.pure] at h
  | cons a t ih =>
    intro c e h
    rw [List.foldlM_cons] at h
    cases hfa : f c a with
    | error e1 =>
      rw [hfa] at h
      simp only [bind, Except.bind, Except.error.injEq] at h
      rw [← h]
      exact hf c a e1 hfa
    | ok c1 =>
      rw [hfa] at h
      exact ih c1 e h

theorem mem_read_oob (c : chip_8) (addr : Nat) (e : Fault)
    (h : mem_read c addr = .error e) : e = .out_of_bounds := by
  unfold mem_read at h
  split_ifs at h
  simp only [Except.error.injEq] at h
  exact h.symm

theorem mem_write_oob (c : chip_8) (addr v : Nat) (e : Fault)
    (h : mem_write c addr v = .error e) : e = .out_of_bounds := by
  unfold mem_write at h
  split_ifs at h
  simp only [Except.error.injEq] at h
  exact h.symm

theorem draw_pixel_oob (xs ys y x : Nat) (c : chip_8) (e : Fault)
    (h : draw_pixel xs ys y x c = .error e) : e = .out_of_bounds := by
  unfold draw_pixel at h
  cases hm : mem_read c (c.address_register + y) with
  | error e1 =>
    rw [hm] at h
    simp only [Except.error.injEq] at h
    rw [← h]
    exact mem_read_oob _ _ _ hm
  | ok v =>
    rw [hm] at h
    simp at h

theorem draw_sprite_oob (c : chip_8) (x y n : Nat) (e : Fault)
    (h : draw_sprite c x y n = .error e) : e = .out_of_bounds := by
  unfold draw_sprite at h
  simp only at h
  split at h
  · rename_i e1 hf
    simp only [Except.error.injEq] at h
    rw [← h]
    refine foldlM_oob _ ?_ _ _ _ hf
    intro c1 a e2 h2
    exact foldlM_oob _ (fun c2 a2 e3 h3 => draw_pixel_oob _ _ _ _ _ _ h3) _ _ _ h2
  · simp at h

theorem reg_dump_oob (c : chip_8) (x : Nat) (e : Fault)
    (h : reg_dump c x = .error e) : e = .out_of_bounds := by
  unfold reg_dump at h
  split at h
  · rename_i e1 hf
    simp only [Except.error.injEq] at h
    rw [← h]
    exact foldlM_oob _ (fun c1 a e2 h2 => mem_write_oob _ _ _ _ h2) _ _ _ hf
  · simp at h

theorem reg_load_body_oob (c : chip_8) (i : Nat) (e : Fault)
    (h : reg_load_body c i = .error e) : e = .out_of_bounds := by
  unfold reg_load_body at h
  cases hm : mem_read c (c.address_register + i) with
  | error e1 =>
    rw [hm] at h
    simp only [Except.error.injEq] at h
    rw [← h]
    exact mem_read_oob _ _ _ hm
  | ok v =>
    rw [hm] at h
    simp at h

theorem reg_load_oob (c : chip_8) (x : Nat) (e : Fault)
    (h : reg_load c x = .error e) : e = .out_of_bounds := by
  unfold reg_load at h
  split at h
  · rename_i e1 hf
    simp only [Except.error.injEq] at h
    rw [← h]
    exact foldlM_oob _ reg_load_body_oob _ _ _ hf
  · simp at h

theorem set_bcd_oob (c : chip_8) (x : Nat) (e : Fault)
    (h : set_bcd c x = .error e) : e = .out_of_bounds := by
  by_cases h2 : c.address_register + 2 < 4096
  · rw [set_bcd_eq c x h2] at h
    simp at h
  · by_cases h0 : c.address_register < 4096
    · by_cases h1 : c.address_register + 1 < 4096
      · simp only [set_bcd, mem_write, MEMORY_SIZE, Nat.add_zero, h0, h1, h2, if_true,
          if_false, Except.error.injEq] at h
        exact h.symm
      · simp only [set_bcd, mem_write, MEMORY_SIZE, Nat.add_zero, h0, h1, if_true,
          if_false, Except.error.injEq] at h
        exact h.symm
    · simp only [set_bcd, mem_write, MEMORY_SIZE, Nat.add_zero, h0, if_false,
        Except.error.injEq] at h
      exact h.symm

theorem skip_if_key_pressed_oob (c : chip_8) (x : Nat) (e : Fault)
    (h : skip_if_key_pressed c x = .error e) : e = .out_of_bounds := by
  unfold skip_if_key_pressed at h
  split_ifs at h
  simp only [Except.error.injEq] at h
  exact h.symm

theorem skip_if_key_not_pressed_oob (c : chip_8) (x : Nat) (e : Fault)
    (h : skip_if_key_not_pressed c x = .error e) : e = .out_of_bounds := by
  unfold skip_if_key_not_pressed at h
  split_ifs at h
  simp only [Except.error.injEq] at h
  exact h.symm

theorem return_from_subroutine_oob (c : chip_8) (e : Fault)
    (h : return_from_subroutine c = .error e) : e = .out_of_bounds := by
  simp only [return_from_subroutine, pop] at h
  split_ifs at h
  simp only [Except.error.injEq] at h
  exact h.symm

theorem unimplemented_normal (c1 : chip_8) : ¬ unimplemented (normal c1) := by
  rintro ⟨w, h⟩
  simp [normal] at h

theorem unimplemented_normal_of (r : Except Fault chip_8)
    (hr : ∀ e, r = .error e → e = .out_of_bounds) : ¬ unimplemented (normal_of r) := by
  rintro ⟨w, h⟩
  cases r with
  | ok c1 => simp [normal_of] at h
  | error e =>
    have := hr e rfl
    subst this
    simp [normal_of] at h

theorem unimplemented_draw (r : Except Fault chip_8) :
    (∀ e, r = .error e → e = .out_of_bounds) →
    ¬ unimplemented (match r with
      | .ok c1 => (.ok (2, c1) : Except Fault (Nat × chip_8))
      | .error e => .error e) := by
  rintro hr ⟨w, h⟩
  cases r with
  | ok c1 => simp at h
  | error e =>
    have := hr e rfl
    subst this
    simp at h

theorem unimplemented_not_implemented (w : Nat) :
    unimplemented (not_implemented w : Except Fault (Nat × chip_8)) :=
  ⟨w, rfl⟩

theorem fault_iff_1 (s : chip_8) (rnd b c d : Nat)
    (hpc : s.program_counter + 1 < 4096)
    (hhi : s.memory s.program_counter = 16 * 1 + b) (hb : b < 16)
    (hlo : s.memory (s.program_counter + 1) = 16 * c + d) (hc : c < 16) (hd : d < 16) :
    (unimplemented (execute s rnd)
        ↔ matches_some executed_opcode_patterns 1 b c d = false)
    ∧ (∀ w, execute s rnd = .error (.not_implemented w) →
        w = 4096 * 1 + 256 * b + 16 * c + d) := by
  rw [execute_hi_1 s rnd b (16 * c + d) hpc hhi hb hlo (by omega)]
  exact ⟨iff_of_false (unimplemented_normal _)
      (by rw [show matches_some executed_opcode_patterns 1 b c d = true from rfl]; decide),
    fun w h => absurd ⟨w, h⟩ (unimplemented_normal _)⟩

theorem fault_iff_2 (s : chip_8) (rnd b c d : Nat)
    (hpc : s.program_counter + 1 < 4096)
    (hhi : s.memory s.program_counter = 16 * 2 + b) (hb : b < 16)
    (hlo : s.memory (s.program_counter + 1) = 16 * c + d) (hc : c < 16) (hd : d < 16) :
    (unimplemented (execute s rnd)
        ↔ matches_some executed_opcode_patterns 2 b c d = false)
    ∧ (∀ w, execute s rnd = .error (.not_implemented w) →
        w = 4096 * 2 + 256 * b + 16 * c + d) := by
  rw [execute_hi_2 s rnd b (16 * c + d) hpc hhi hb hlo (by omega)]
  exact ⟨iff_of_false (unimplemented_normal _)
      (by rw [show matches_some executed_opcode_patterns 2 b c d = true from rfl]; decide),
    fun w h => absurd ⟨w, h⟩ (unimplemented_normal _)⟩

theorem fault_iff_3 (s : chip_8) (rnd b c d : Nat)
    (hpc : s.program_counter + 1 < 4096)
    (hhi : s.memory s.program_counter = 16 * 3 + b) (hb : b < 16)
    (hlo : s.memory (s.program_counter + 1) = 16 * c + d) (hc : c < 16) (hd : d < 16) :
    (unimplemented (execute s rnd)
        ↔ matches_some executed_opcode_patterns 3 b c d = false)
    ∧ (∀ w, execute s rnd = .error (.not_implemented w) →
        w = 4096 * 3 + 256 * b + 16 * c + d) := by
  rw [execute_hi_3 s rnd b (16 * c + d) hpc hhi hb hlo (by omega)]
  exact ⟨iff_of_false (unimplemented_normal _)
      (by rw [show matches_some executed_opcode_patterns 3 b c d = true from rfl]; decide),
    fun w h => absurd ⟨w, h⟩ (unimplemented_normal _)⟩

theorem fault_iff_4 (s : chip_8) (rnd b c d : Nat)
    (hpc : s.program_counter + 1 < 4096)
    (hhi : s.memory s.program_counter = 16 * 4 + b) (hb : b < 16)
    (hlo : s.memory (s.program_counter + 1) = 16 * c + d) (hc : c < 16) (hd : d < 16) :
    (unimplemented (execute s rnd)
        ↔ matches_some executed_opcode_patterns 4 b c d = false)
    ∧ (∀ w, execute s rnd = .error (.not_implemented w) →
        w = 4096 * 4 + 256 * b + 16 * c + d) := by
  rw [execute_hi_4 s rnd b (16 * c + d) hpc hhi hb hlo (by omega)]
  exact ⟨iff_of_false (unimplemented_normal _)
      (by rw [show matches_some executed_opcode_patterns 4 b c d = true from rfl]; decide),
    fun w h => absurd ⟨w, h⟩ (unimplemented_normal _)⟩

theorem fault_iff_5 (s : chip_8) (rnd b c d : Nat)
    (hpc : s.program_counter + 1 < 4096)
    (hhi : s.memory s.program_counter = 16 * 5 + b) (hb : b < 16)
    (hlo : s.memory (s.program_counter + 1) = 16 * c + d) (hc : c < 16) (hd : d < 16) :
    (unimplemented (execute s rnd)
        ↔ matches_some executed_opcode_patterns 5 b c d = false)
    ∧ (∀ w, execute s rnd = .error (.not_implemented w) →
        w = 4096 * 5 + 256 * b + 16 * c + d) := by
  rw [execute_hi_5 s rnd b (16 * c + d) hpc hhi hb hlo (by omega)]
  exact ⟨iff_of_false (unimplemented_normal _)
      (by rw [show matches_some executed_opcode_patterns 5 b c d = true from rfl]; decide),
    fun w h => absurd ⟨w, h⟩ (unimplemented_normal _)⟩

theorem fault_iff_6 (s : chip_8) (rnd b c d : Nat)
    (hpc : s.program_counter + 1 < 4096)
    (hhi : s.memory s.program_counter = 16 * 6 + b) (hb : b < 16)
    (hlo : s.memory (s.program_counter + 1) = 16 * c + d) (hc : c < 16) (hd : d < 16) :
    (unimplemented (execute s rnd)
        ↔ matches_some executed_opcode_patterns 6 b c d = false)
    ∧ (∀ w, execute s rnd = .error (.not_implemented w) →
        w = 4096 * 6 + 256 * b + 16 * c + d) := by
  rw [execute_hi_6 s rnd b (16 * c + d) hpc hhi hb hlo (by omega)]
  exact ⟨iff_of_false (unimplemented_normal _)
      (by rw [show matches_some executed_opcode_patterns 6 b c d = true from rfl]; decide),
    fun w h => absurd ⟨w, h⟩ (unimplemented_normal _)⟩

theorem fault_iff_7 (s : chip_8) (rnd b c d : Nat)
    (hpc : s.program_counter + 1 < 4096)
    (hhi : s.memory s.program_counter = 16 * 7 + b) (hb : b < 16)
    (hlo : s.memory (s.program_counter + 1) = 16 * c + d) (hc : c < 16) (hd : d < 16) :
    (unimplemented (execute s rnd)
        ↔ matches_some executed_opcode_patterns 7 b c d = false)
    ∧ (∀ w, execute s rnd = .error (.not_implemented w) →
        w = 4096 * 7 + 256 * b + 16 * c + d) := by
  rw [execute_hi_7 s rnd b (16 * c + d) hpc hhi hb hlo (by omega)]
  exact ⟨iff_of_false (unimplemented_normal _)
      (by rw [show matches_some executed_opcode_patterns 7 b c d = true from rfl]; decide),
    fun w h => absurd ⟨w, h⟩ (unimplemented_normal _)⟩

theorem fault_iff_9 (s : chip_8) (rnd b c d : Nat)
    (hpc : s.program_counter + 1 < 4096)
    (hhi : s.memory s.program_counter = 16 * 9 + b) (hb : b < 16)
    (hlo : s.memory (s.program_counter + 1) = 16 * c + d) (hc : c < 16) (hd : d < 16) :
    (unimplemented (execute s rnd)
        ↔ matches_some executed_opcode_patterns 9 b c d = false)
    ∧ (∀ w, execute s rnd = .error (.not_implemented w) →
        w = 4096 * 9 + 256 * b + 16 * c + d) := by
  rw [execute_hi_9 s rnd b (16 * c + d) hpc hhi hb hlo (by omega)]
  exact ⟨iff_of_false (unimplemented_normal _)
      (by rw [show matches_some executed_opcode_patterns 9 b c d = true from rfl]; decide),
    fun w h => absurd ⟨w, h⟩ (unimplemented_normal _)⟩

theorem fault_iff_10 (s : chip_8) (rnd b c d : Nat)
    (hpc : s.program_counter + 1 < 4096)
    (hhi : s.memory s.program_counter = 16 * 10 + b) (hb : b < 16)
    (hlo : s.memory (s.program_counter + 1) = 16 * c + d) (hc : c < 16) (hd : d < 16) :
    (unimplemented (execute s rnd)
        ↔ matches_some executed_opcode_patterns 10 b c d = false)
    ∧ (∀ w, execute s rnd = .error (.not_implemented w) →
        w = 4096 * 10 + 256 * b + 16 * c + d) := by
  rw [execute_hi_10 s rnd b (16 * c + d) hpc hhi hb hlo (by omega)]
  exact ⟨iff_of_false (unimplemented_normal _)
      (by rw [show matches_some executed_opcode_patterns 10 b c d = true from rfl]; decide),
    fun w h => absurd ⟨w, h⟩ (unimplemented_normal _)⟩

theorem fault_iff_11 (s : chip_8) (rnd b c d : Nat)
    (hpc : s.program_counter + 1 < 4096)
    (hhi : s.memory s.program_counter = 16 * 11 + b) (hb : b < 16)
    (hlo : s.memory (s.program_counter + 1) = 16 * c + d) (hc : c < 16) (hd : d < 16) :
    (unimplemented (execute s rnd)
        ↔ matches_some executed_opcode_patterns 11 b c d = false)
    ∧ (∀ w, execute s rnd = .error (.not_implemented w) →
        w = 4096 * 11 + 256 * b + 16 * c + d) := by
  rw [execute_hi_11 s rnd b (16 * c + d) hpc hhi hb hlo (by omega)]
  exact ⟨iff_of_false (unimplemented_normal _)
      (by rw [show matches_some executed_opcode_patterns 11 b c d = true from rfl]; decide),
    fun w h => absurd ⟨w, h⟩ (unimplemented_normal _)⟩

theorem fault_iff_12 (s : chip_8) (rnd b c d : Nat)
    (hpc : s.program_counter + 1 < 4096)
    (hhi : s.memory s.program_counter = 16 * 12 + b) (hb : b < 16)
    (hlo : s.memory (s.program_counter + 1) = 16 * c + d) (hc : c < 16) (hd : d < 16) :
    (unimplemented (execute s rnd)
        ↔ matches_some executed_opcode_patterns 12 b c d = false)
    ∧ (∀ w, execute s rnd = .error (.not_implemented w) →
        w = 4096 * 12 + 256 * b + 16 * c + d) := by
  rw [execute_hi_12 s rnd b (16 * c + d) hpc hhi hb hlo (by omega)]
  exact ⟨iff_of_false (unimplemented_normal _)
      (by rw [show matches_some executed_opcode_patterns 12 b c d = true from rfl]; decide),
    fun w h => absurd ⟨w, h⟩ (unimplemented_normal _)⟩

theorem fault_iff_13 (s : chip_8) (rnd b c d : Nat)
    (hpc : s.program_counter + 1 < 4096)
    (hhi : s.memory s.program_counter = 16 * 13 + b) (hb : b < 16)
    (hlo : s.memory (s.program_counter + 1) = 16 * c + d) (hc : c < 16) (hd : d < 16) :
    (unimplemented (execute s rnd)
        ↔ matches_some executed_opcode_patterns 13 b c d = false)
    ∧ (∀ w, execute s rnd = .error (.not_implemented w) →
        w = 4096 * 13 + 256 * b + 16 * c + d) := by
  rw [execute_hi_13 s rnd b (16 * c + d) hpc hhi hb hlo (by omega)]
  have hno := unimplemented_draw (draw_sprite s b ((16 * c + d) / 16) ((16 * c + d) % 16))
    (fun e he => draw_sprite_oob _ _ _ _ e he)
  exact ⟨iff_of_false hno
      (by rw [show matches_some executed_opcode_patterns 13 b c d = true from rfl]; decide),
    fun w h => absurd ⟨w, h⟩ hno⟩

theorem fault_iff_0 (s : chip_8) (rnd b c d : Nat)
    (hpc : s.program_counter + 1 < 4096)
    (hhi : s.memory s.program_counter = 16 * 0 + b) (hb : b < 16)
    (hlo : s.memory (s.program_counter + 1) = 16 * c + d) (hc : c < 16) (hd : d < 16) :
    (unimplemented (execute s rnd)
        ↔ matches_some executed_opcode_patterns 0 b c d = false)
    ∧ (∀ w, execute s rnd = .error (.not_implemented w) →
        w = 4096 * 0 + 256 * b + 16 * c + d) := by
  rw [execute_hi_0 s rnd b (16 * c + d) hpc hhi hb hlo (by omega)]
  by_cases h0 : 256 * b + (16 * c + d) = 0x00E0
  · rw [if_pos h0]
    have eb : b = 0 := by omega
    have ec : c = 14 := by omega
    have ed : d = 0 := by omega
    subst eb ec ed
    exact ⟨iff_of_false (unimplemented_normal _)
        (by rw [show matches_some executed_opcode_patterns 0 0 14 0 = true from rfl]; decide),
      fun w h => absurd ⟨w, h⟩ (unimplemented_normal _)⟩
  rw [if_neg h0]
  by_cases h1 : 256 * b + (16 * c + d) = 0x00EE
  · rw [if_pos h1]
    have eb : b = 0 := by omega
    have ec : c = 14 := by omega
    have ed : d = 14 := by omega
    subst eb ec ed
    exact ⟨iff_of_false (unimplemented_normal_of _ (fun e he => return_from_subroutine_oob _ e he))
        (by rw [show matches_some executed_opcode_patterns 0 0 14 14 = true from rfl]; decide),
      fun w h => absurd ⟨w, h⟩ (unimplemented_normal_of _ (fun e he => return_from_subroutine_oob _ e he))⟩
  rw [if_neg h1]
  refine ⟨iff_of_true (unimplemented_not_implemented _) ?_, fun w h => ?_⟩
  · simp only [matches_some, executed_opcode_patterns, pattern_matches, digit_matches,
      List.any_cons, List.any_nil, Bool.or_false, Bool.and_true, Bool.true_and,
      Bool.false_and, Bool.or_eq_false_iff, Bool.and_eq_false_imp, beq_iff_eq,
      Bool.false_or, Nat.reduceBEq, Bool.and_false, and_true, true_and, beq_eq_false_iff_ne,
      ne_eq, Bool.and_eq_true]
    omega
  · simp only [not_implemented, Except.error.injEq, Fault.not_implemented.injEq] at h
    omega

theorem fault_iff_8 (s : chip_8) (rnd b c d : Nat)
    (hpc : s.program_counter + 1 < 4096)
    (hhi : s.memory s.program_counter = 16 * 8 + b) (hb : b < 16)
    (hlo : s.memory (s.program_counter + 1) = 16 * c + d) (hc : c < 16) (hd : d < 16) :
    (unimplemented (execute s rnd)
        ↔ matches_some executed_opcode_patterns 8 b c d = false)
    ∧ (∀ w, execute s rnd = .error (.not_implemented w) →
        w = 4096 * 8 + 256 * b + 16 * c + d) := by
  rw [execute_hi_8 s rnd b (16 * c + d) hpc hhi hb hlo (by omega)]
  by_cases h0 : (16 * c + d) % 16 = 0
  · rw [if_pos h0]
    have ed : d = 0 := by omega
    subst ed
    exact ⟨iff_of_false (unimplemented_normal _)
        (by rw [show matches_some executed_opcode_patterns 8 b c 0 = true from rfl]; decide),
      fun w h => absurd ⟨w, h⟩ (unimplemented_normal _)⟩
  rw [if_neg h0]
  by_cases h1 : (16 * c + d) % 16 = 1
  · rw [if_pos h1]
    have ed : d = 1 := by omega
    subst ed
    exact ⟨iff_of_false (unimplemented_normal _)
        (by rw [show matches_some executed_opcode_patterns 8 b c 1 = true from rfl]; decide),
      fun w h => absurd ⟨w, h⟩ (unimplemented_normal _)⟩
  rw [if_neg h1]
  by_cases h2 : (16 * c + d) % 16 = 2
  · rw [if_pos h2]
    have ed : d = 2 := by omega
    subst ed
    exact ⟨iff_of_false (unimplemented_normal _)
        (by rw [show matches_some executed_opcode_patterns 8 b c 2 = true from rfl]; decide),
      fun w h => absurd ⟨w, h⟩ (unimplemented_normal _)⟩
  rw [if_neg h2]
  by_cases h3 : (16 * c + d) % 16 = 3
  · rw [if_pos h3]
    have ed : d = 3 := by omega
    subst ed
    exact ⟨iff_of_false (unimplemented_normal _)
        (by rw [show matches_some executed_opcode_patterns 8 b c 3 = true from rfl]; decide),
      fun w h => absurd ⟨w, h⟩ (unimplemented_normal _)⟩
  rw [if_neg h3]
  by_cases h4 : (16 * c + d) % 16 = 4
  · rw [if_pos h4]
    have ed : d = 4 := by omega
    subst ed
    exact ⟨iff_of_false (unimplemented_normal _)
        (by rw [show matches_some executed_opcode_patterns 8 b c 4 = true from rfl]; decide),
      fun w h => absurd ⟨w, h⟩ (unimplemented_normal _)⟩
  rw [if_neg h4]
  by_cases h5 : (16 * c + d) % 16 = 5
  · rw [if_pos h5]
    have ed : d = 5 := by omega
    subst ed
    exact ⟨iff_of_false (unimplemented_normal _)
        (by rw [show matches_some executed_opcode_patterns 8 b c 5 = true from rfl]; decide),
      fun w h => absurd ⟨w, h⟩ (unimplemented_normal _)⟩
  rw [if_neg h5]
  by_cases h6 : (16 * c + d) % 16 = 6
  · rw [if_pos h6]
    have ed : d = 6 := by omega
    subst ed
    exact ⟨iff_of_false (unimplemented_normal _)
        (by rw [show matches_some executed_opcode_patterns 8 b c 6 = true from rfl]; decide),
      fun w h => absurd ⟨w, h⟩ (unimplemented_normal _)⟩
  rw [if_neg h6]
  by_cases h7 : (16 * c + d) % 16 = 7
  · rw [if_pos h7]
    have ed : d = 7 := by omega
    subst ed
    exact ⟨iff_of_false (unimplemented_normal _)
        (by rw [show matches_some executed_opcode_patterns 8 b c 7 = true from rfl]; decide),
      fun w h => absurd ⟨w, h⟩ (unimplemented_normal _)⟩
  rw [if_neg h7]
  by_cases h8 : (16 * c + d) % 16 = 14
  · rw [if_pos h8]
    have ed : d = 14 := by omega
    subst ed
    exact ⟨iff_of_false (unimplemented_normal _)
        (by rw [show matches_some executed_opcode_patterns 8 b c 14 = true from rfl]; decide),
      fun w h => absurd ⟨w, h⟩ (unimplemented_normal _)⟩
  rw [if_neg h8]
  refine ⟨iff_of_true (unimplemented_not_implemented _) ?_, fun w h => ?_⟩
  · simp only [matches_some, executed_opcode_patterns, pattern_matches, digit_matches,
      List.any_cons, List.any_nil, Bool.or_false, Bool.and_true, Bool.true_and,
      Bool.false_and, Bool.or_eq_false_iff, Bool.and_eq_false_imp, beq_iff_eq,
      Bool.false_or, Nat.reduceBEq, Bool.and_false, and_true, true_and, beq_eq_false_iff_ne,
      ne_eq, Bool.and_eq_true]
    omega
  · simp only [not_implemented, Except.error.injEq, Fault.not_implemented.injEq] at h
    omega

theorem fault_iff_14 (s : chip_8) (rnd b c d : Nat)
    (hpc : s.program_counter + 1 < 4096)
    (hhi : s.memory s.program_counter = 16 * 14 + b) (hb : b < 16)
    (hlo : s.memory (s.program_counter + 1) = 16 * c + d) (hc : c < 16) (hd : d < 16) :
    (unimplemented (execute s rnd)
        ↔ matches_some executed_opcode_patterns 14 b c d = false)
    ∧ (∀ w, execute s rnd = .error (.not_implemented w) →
        w = 4096 * 14 + 256 * b + 16 * c + d) := by
  rw [execute_hi_14 s rnd b (16 * c + d) hpc hhi hb hlo (by omega)]
  by_cases h0 : 16 * c + d = 0x9e
  · rw [if_pos h0]
    have ec : c = 9 := by omega
    have ed : d = 14 := by omega
    subst ec ed
    exact ⟨iff_of_false (unimplemented_normal_of _ (fun e he => skip_if_key_pressed_oob _ _ e he))
        (by rw [show matches_some executed_opcode_patterns 14 b 9 14 = true from rfl]; decide),
      fun w h => absurd ⟨w, h⟩ (unimplemented_normal_of _ (fun e he => skip_if_key_pressed_oob _ _ e he))⟩
  rw [if_neg h0]
  by_cases h1 : 16 * c + d = 0xa1
  · rw [if_pos h1]
    have ec : c = 10 := by omega
    have ed : d = 1 := by omega
    subst ec ed
    exact ⟨iff_of_false (unimplemented_normal_of _ (fun e he => skip_if_key_not_pressed_oob _ _ e he))
        (by rw [show matches_some executed_opcode_patterns 14 b 10 1 = true from rfl]; decide),
      fun w h => absurd ⟨w, h⟩ (unimplemented_normal_of _ (fun e he => skip_if_key_not_pressed_oob _ _ e he))⟩
  rw [if_neg h1]
  refine ⟨iff_of_true (unimplemented_not_implemented _) ?_, fun w h => ?_⟩
  · simp only [matches_some, executed_opcode_patterns, pattern_matches, digit_matches,
      List.any_cons, List.any_nil, Bool.or_false, Bool.and_true, Bool.true_and,
      Bool.false_and, Bool.or_eq_false_iff, Bool.and_eq_false_imp, beq_iff_eq,
      Bool.false_or, Nat.reduceBEq, Bool.and_false, and_true, true_and, beq_eq_false_iff_ne,
      ne_eq, Bool.and_eq_true]
    omega
  · simp only [not_implemented, Except.error.injEq, Fault.not_implemented.injEq] at h
    omega

theorem fault_iff_15 (s : chip_8) (rnd b c d : Nat)
    (hpc : s.program_counter + 1 < 4096)
    (hhi : s.memory s.program_counter = 16 * 15 + b) (hb : b < 16)
    (hlo : s.memory (s.program_counter + 1) = 16 * c + d) (hc : c < 16) (hd : d < 16) :
    (unimplemented (execute s rnd)
        ↔ matches_some executed_opcode_patterns 15 b c d = false)
    ∧ (∀ w, execute s rnd = .error (.not_implemented w) →
        w = 4096 * 15 + 256 * b + 16 * c + d) := by
  rw [execute_hi_15 s rnd b (16 * c + d) hpc hhi hb hlo (by omega)]
  by_cases h0 : 16 * c + d = 0x7
  · rw [if_pos h0]
    have ec : c = 0 := by omega
    have ed : d = 7 := by omega
    subst ec ed
    exact ⟨iff_of_false (unimplemented_normal _)
        (by rw [show matches_some executed_opcode_patterns 15 b 0 7 = true from rfl]; decide),
      fun w h => absurd ⟨w, h⟩ (unimplemented_normal _)⟩
  rw [if_neg h0]
  by_cases h1 : 16 * c + d = 0xa
  · rw [if_pos h1]
    have ec : c = 0 := by omega
    have ed : d = 10 := by omega
    subst ec ed
    exact ⟨iff_of_false (unimplemented_normal _)
        (by rw [show matches_some executed_opcode_patterns 15 b 0 10 = true from rfl]; decide),
      fun w h => absurd ⟨w, h⟩ (unimplemented_normal _)⟩
  rw [if_neg h1]
  by_cases h2 : 16 * c + d = 0x15
  · rw [if_pos h2]
    have ec : c = 1 := by omega
    have ed : d = 5 := by omega
    subst ec ed
    exact ⟨iff_of_false (unimplemented_normal _)
        (by rw [show matches_some executed_opcode_patterns 15 b 1 5 = true from rfl]; decide),
      fun w h => absurd ⟨w, h⟩ (unimplemented_normal _)⟩
  rw [if_neg h2]
  by_cases h3 : 16 * c + d = 0x18
  · rw [if_pos h3]
    have ec : c = 1 := by omega
    have ed : d = 8 := by omega
    subst ec ed
    exact ⟨iff_of_false (unimplemented_normal _)
        (by rw [show matches_some executed_opcode_patterns 15 b 1 8 = true from rfl]; decide),
      fun w h => absurd ⟨w, h⟩ (unimplemented_normal _)⟩
  rw [if_neg h3]
  by_cases h4 : 16 * c + d = 0x1e
  · rw [if_pos h4]
    have ec : c = 1 := by omega
    have ed : d = 14 := by omega
    subst ec ed
    exact ⟨iff_of_false (unimplemented_normal _)
        (by rw [show matches_some executed_opcode_patterns 15 b 1 14 = true from rfl]; decide),
      fun w h => absurd ⟨w, h⟩ (unimplemented_normal _)⟩
  rw [if_neg h4]
  by_cases h5 : 16 * c + d = 0x29
  · rw [if_pos h5]
    have ec : c = 2 := by omega
    have ed : d = 9 := by omega
    subst ec ed
    exact ⟨iff_of_false (unimplemented_normal _)
        (by rw [show matches_some executed_opcode_patterns 15 b 2 9 = true from rfl]; decide),
      fun w h => absurd ⟨w, h⟩ (unimplemented_normal _)⟩
  rw [if_neg h5]
  by_cases h6 : 16 * c + d = 0x33
  · rw [if_pos h6]
    have ec : c = 3 := by omega
    have ed : d = 3 := by omega
    subst ec ed
    exact ⟨iff_of_false (unimplemented_normal_of _ (fun e he => set_bcd_oob _ _ e he))
        (by rw [show matches_some executed_opcode_patterns 15 b 3 3 = true from rfl]; decide),
      fun w h => absurd ⟨w, h⟩ (unimplemented_normal_of _ (fun e he => set_bcd_oob _ _ e he))⟩
  rw [if_neg h6]
  by_cases h7 : 16 * c + d = 0x55
  · rw [if_pos h7]
    have ec : c = 5 := by omega
    have ed : d = 5 := by omega
    subst ec ed
    exact ⟨iff_of_false (unimplemented_normal_of _ (fun e he => reg_dump_oob _ _ e he))
        (by rw [show matches_some executed_opcode_patterns 15 b 5 5 = true from rfl]; decide),
      fun w h => absurd ⟨w, h⟩ (unimplemented_normal_of _ (fun e he => reg_dump_oob _ _ e he))⟩
  rw [if_neg h7]
  by_cases h8 : 16 * c + d = 0x65
  · rw [if_pos h8]
    have ec : c = 6 := by omega
    have ed : d = 5 := by omega
    subst ec ed
    exact ⟨iff_of_false (unimplemented_normal_of _ (fun e he => reg_load_oob _ _ e he))
        (by rw [show matches_some executed_opcode_patterns 15 b 6 5 = true from rfl]; decide),
      fun w h => absurd ⟨w, h⟩ (unimplemented_normal_of _ (fun e he => reg_load_oob _ _ e he))⟩
  rw [if_neg h8]
  refine ⟨iff_of_true (unimplemented_not_implemented _) ?_, fun w h => ?_⟩
  · simp only [matches_some, executed_opcode_patterns, pattern_matches, digit_matches,
      List.any_cons, List.any_nil, Bool.or_false, Bool.and_true, Bool.true_and,
      Bool.false_and, Bool.or_eq_false_iff, Bool.and_eq_false_imp, beq_iff_eq,
      Bool.false_or, Nat.reduceBEq, Bool.and_false, and_true, true_and, beq_eq_false_iff_ne,
      ne_eq, Bool.and_eq_true]
    omega
  · simp only [not_implemented, Except.error.injEq, Fault.not_implemented.injEq] at h
    omega

/-- C16 (counterexample to the claim as stated). The word `5231` fits none of the
patterns listed in the specification (its low nibble is not 0), yet the step on it reports
no fault: it executes as `5230`, here skipping because `V2 = V3`. -/
theorem unlisted_word_executes :
    matches_some spec_opcode_patterns 5 2 3 1 = false
    ∧ step (example_skip 0x52 0x31) 0
        = .ok (0, { example_skip 0x52 0x31 with program_counter := 0x200 + 4 }) := by
  refine ⟨by decide, ?_⟩
  rw [step_running _ _ rfl,
    execute_family_5 (example_skip 0x52 0x31) 0 2 3 1 (by decide) (by decide) (by decide)
      (by decide) (by decide) (by decide)]
  rfl

/-- C16 (as amended). Unimplemented-instruction fault: for a running machine with an
in-bounds fetch of the word with hexadecimal digits `a b c d`, the step reports the
unimplemented-instruction fault if and only if the word fits none of the patterns 00E0,
00EE, 1nnn, 2nnn, 3xkk, 4xkk, 5xyn, 6xkk, 7xkk, 8xy0..8xy7, 8xyE, 9xyn, Annn, Bnnn, Cxkk,
Dxyn, Ex9E, ExA1, Fx07, Fx0A, Fx15, Fx18, Fx1E, Fx29, Fx33, Fx55, Fx65, and the fault then
carries that word; outside the families 5 and 9 these are exactly the patterns listed in
the specification. -/
theorem unimplemented_fault (s : chip_8) (rnd a b c d : Nat)
    (hw : s.waiting_for_key = false) (hpc : s.program_counter + 1 < 4096)
    (ha : a < 16) (hb : b < 16) (hc : c < 16) (hd : d < 16)
    (hhi : s.memory s.program_counter = 16 * a + b)
    (hlo : s.memory (s.program_counter + 1) = 16 * c + d) :
    (unimplemented (step s rnd)
        ↔ matches_some executed_opcode_patterns a b c d = false)
    ∧ (∀ w, step s rnd = .error (.not_implemented w) →
        w = 4096 * a + 256 * b + 16 * c + d)
    ∧ (a ≠ 5 → a ≠ 9 →
        matches_some spec_opcode_patterns a b c d
          = matches_some executed_opcode_patterns a b c d) := by
  rw [step_running _ _ hw]
  refine ⟨?_, ?_, ?_⟩
  · interval_cases a
    · exact (fault_iff_0 s rnd b c d hpc hhi hb hlo hc hd).1
    · exact (fault_iff_1 s rnd b c d hpc hhi hb hlo hc hd).1
    · exact (fault_iff_2 s rnd b c d hpc hhi hb hlo hc hd).1
    · exact (fault_iff_3 s rnd b c d hpc hhi hb hlo hc hd).1
    · exact (fault_iff_4 s rnd b c d hpc hhi hb hlo hc hd).1
    · exact (fault_iff_5 s rnd b c d hpc hhi hb hlo hc hd).1
    · exact (fault_iff_6 s rnd b c d hpc hhi hb hlo hc hd).1
    · exact (fault_iff_7 s rnd b c d hpc hhi hb hlo hc hd).1
    · exact (fault_iff_8 s rnd b c d hpc hhi hb hlo hc hd).1
    · exact (fault_iff_9 s rnd b c d hpc hhi hb hlo hc hd).1
    · exact (fault_iff_10 s rnd b c d hpc hhi hb hlo hc hd).1
    · exact (fault_iff_11 s rnd b c d hpc hhi hb hlo hc hd).1
    · exact (fault_iff_12 s rnd b c d hpc hhi hb hlo hc hd).1
    · exact (fault_iff_13 s rnd b c d hpc hhi hb hlo hc hd).1
    · exact (fault_iff_14 s rnd b c d hpc hhi hb hlo hc hd).1
    · exact (fault_iff_15 s rnd b c d hpc hhi hb hlo hc hd).1
  · interval_cases a
    · exact (fault_iff_0 s rnd b c d hpc hhi hb hlo hc hd).2
    · exact (fault_iff_1 s rnd b c d hpc hhi hb hlo hc hd).2
    · exact (fault_iff_2 s rnd b c d hpc hhi hb hlo hc hd).2
    · exact (fault_iff_3 s rnd b c d hpc hhi hb hlo hc hd).2
    · exact (fault_iff_4 s rnd b c d hpc hhi hb hlo hc hd).2
    · exact (fault_iff_5 s rnd b c d hpc hhi hb hlo hc hd).2
    · exact (fault_iff_6 s rnd b c d hpc hhi hb hlo hc hd).2
    · exact (fault_iff_7 s rnd b c d hpc hhi hb hlo hc hd).2
    · exact (fault_iff_8 s rnd b c d hpc hhi hb hlo hc hd).2
    · exact (fault_iff_9 s rnd b c d hpc hhi hb hlo hc hd).2
    · exact (fault_iff_10 s rnd b c d hpc hhi hb hlo hc hd).2
    · exact (fault_iff_11 s rnd b c d hpc hhi hb hlo hc hd).2
    · exact (fault_iff_12 s rnd b c d hpc hhi hb hlo hc hd).2
    · exact (fault_iff_13 s rnd b c d hpc hhi hb hlo hc hd).2
    · exact (fault_iff_14 s rnd b c d hpc hhi hb hlo hc hd).2
    · exact (fault_iff_15 s rnd b c d hpc hhi hb hlo hc hd).2
  · intro h5 h9
    interval_cases a <;> first | rfl | exact absurd rfl h5 | exact absurd rfl h9

/-- C16 (witness): the word `8238` (family 8, low nibble 8) faults and the fault carries
the word; the word `5231` does not fault. -/
theorem unimplemented_fault_witness :
    unimplemented (step (example_skip 0x82 0x38) 0)
    ∧ ¬ unimplemented (step (example_skip 0x52 0x31) 0)
    ∧ step (example_skip 0x82 0x38) 0 = .error (.not_implemented 0x8238) :=
  have h1 := unimplemented_fault (example_skip 0x82 0x38) 0 8 2 3 8 rfl (by decide)
    (by decide) (by decide) (by decide) (by decide) (by decide) (by decide)
  have h2 := unimplemented_fault (example_skip 0x52 0x31) 0 5 2 3 1 rfl (by decide)
    (by decide) (by decide) (by decide) (by decide) (by decide) (by decide)
  ⟨h1.1.2 (by decide), fun h => absurd (h2.1.1 h) (by decide), rfl⟩

/-! ## Debugger trigger lists -/

/-- C20 (failing input). Ten additions of each kind on the fresh debugger succeed and
append their values (counts 10, last entries `0xF009` and `0x209`); in the resulting
debugger an eleventh `add_debug_instruction` and an eleventh `add_break_address_reg` are
not refused: each stores at index 10, outside its 10-entry array. -/
theorem eleventh_trigger_is_out_of_bounds :
    ∃ d, example_debugger_full = .ok d
      ∧ d.no_break_instructions = 10 ∧ d.break_instructions 9 = 0xF009
      ∧ d.no_break_addres_regs = 10 ∧ d.break_address_reg 9 = 0x209
      ∧ add_debug_instruction d 0xF065 = .error .out_of_bounds
      ∧ add_break_address_reg d 0x0202 = .error .out_of_bounds :=
  ⟨_, rfl, rfl, rfl, rfl, rfl, rfl, rfl⟩

/-! ## Effect of the handlers on the framebuffer and the stack pointer -/

theorem normal_inv (c1 s' : chip_8) (r : Nat) (h : normal c1 = .ok (r, s')) : s' = c1 := by
  simp only [normal, Except.ok.injEq, Prod.mk.injEq] at h
  exact h.2.symm

theorem normal_of_inv (e : Except Fault chip_8) (s' : chip_8) (r : Nat)
    (h : normal_of e = .ok (r, s')) : e = .ok s' := by
  cases e with
  | error e => simp [normal_of] at h
  | ok c1 =>
    simp only [normal_of, Except.ok.injEq, Prod.mk.injEq] at h
    rw [h.2]

theorem foldlM_preserves (P : chip_8 → Prop) (f : chip_8 → Nat → Except Fault chip_8)
    (hf : ∀ c a c', f c a = .ok c' → P c → P c') (l : List Nat) :
    ∀ c c', l.foldlM f c = .ok c' → P c → P c' := by
  induction l with
  | nil =>
    intro c c' h hp
    simp only [List.foldlM, pure, Except.pure, Except.ok.injEq] at h
    rw [← h]
    exact hp
  | cons a t ih =>
    intro c c' h hp
    rw [List.foldlM_cons] at h
    cases hfa : f c a with
    | error e =>
      rw [hfa] at h
      simp [bind, Except.bind] at h
    | ok c1 =>
      rw [hfa] at h
      exact ih c1 c' h (hf c a c1 hfa hp)

theorem keep_advance (c : chip_8) (k : Nat) :
    (advance c k).pixels = c.pixels ∧ (advance c k).stack_pos = c.stack_pos :=
  ⟨rfl, rfl⟩

theorem keep_skip_equal (c : chip_8) (x v : Nat) :
    (skip_equal c x v).pixels = c.pixels ∧ (skip_equal c x v).stack_pos = c.stack_pos := by
  unfold skip_equal
  split <;> exact ⟨rfl, rfl⟩

theorem keep_skip_not_equal (c : chip_8) (x v : Nat) :
    (skip_not_equal c x v).pixels = c.pixels
      ∧ (skip_not_equal c x v).stack_pos = c.stack_pos := by
  unfold skip_not_equal
  split <;> exact ⟨rfl, rfl⟩

theorem keep_skip_equal_reg (c : chip_8) (x y : Nat) :
    (skip_equal_reg c x y).pixels = c.pixels
      ∧ (skip_equal_reg c x y).stack_pos = c.stack_pos := by
  unfold skip_equal_reg
  split <;> exact ⟨rfl, rfl⟩

theorem keep_skip_not_equal_reg (c : chip_8) (x y : Nat) :
    (skip_not_equal_reg c x y).pixels = c.pixels
      ∧ (skip_not_equal_reg c x y).stack_pos = c.stack_pos := by
  unfold skip_not_equal_reg
  split <;> exact ⟨rfl, rfl⟩

theorem push_stack_pos (c : chip_8) (v : Nat) (h : c.stack_pos < 16) :
    (push c v).stack_pos < 16 := by
  unfold push
  split
  · exact h
  · rename_i hn
    simp only [STACK_SIZE] at hn
    show u8 (c.stack_pos + 1) < 16
    unfold u8
    omega

theorem push_pixels (c : chip_8) (v : Nat) : (push c v).pixels = c.pixels := by
  unfold push
  split <;> rfl

theorem keep_call_subroutine (c : chip_8) (nnn : Nat) :
    (call_subroutine c nnn).pixels = c.pixels
      ∧ (c.stack_pos < 16 → (call_subroutine c nnn).stack_pos < 16) :=
  ⟨push_pixels c _, fun h => push_stack_pos c _ h⟩

theorem keep_return_from_subroutine (c s' : chip_8)
    (h : return_from_subroutine c = .ok s') :
    s'.pixels = c.pixels ∧ (c.stack_pos < 16 → s'.stack_pos < 16) := by
  simp only [return_from_subroutine, pop] at h
  split_ifs at h with h0 h16
  · simp only [Except.ok.injEq] at h
    subst h
    exact ⟨rfl, fun hs => hs⟩
  · simp only [Except.ok.injEq] at h
    subst h
    refine ⟨rfl, fun hs => ?_⟩
    show c.stack_pos - 1 < 16
    omega

theorem keep_skip_if_key_pressed (c s' : chip_8) (x : Nat)
    (h : skip_if_key_pressed c x = .ok s') :
    s'.pixels = c.pixels ∧ s'.stack_pos = c.stack_pos := by
  unfold skip_if_key_pressed at h
  split_ifs at h <;> simp only [Except.ok.injEq] at h <;> subst h <;> exact ⟨rfl, rfl⟩

theorem keep_skip_if_key_not_pressed (c s' : chip_8) (x : Nat)
    (h : skip_if_key_not_pressed c x = .ok s') :
    s'.pixels = c.pixels ∧ s'.stack_pos = c.stack_pos := by
  unfold skip_if_key_not_pressed at h
  split_ifs at h <;> simp only [Except.ok.injEq] at h <;> subst h <;> exact ⟨rfl, rfl⟩

theorem keep_mem_write (c c' : chip_8) (addr v : Nat) (h : mem_write c addr v = .ok c') :
    c'.pixels = c.pixels ∧ c'.stack_pos = c.stack_pos := by
  unfold mem_write at h
  split_ifs at h
  simp only [Except.ok.injEq] at h
  subst h
  exact ⟨rfl, rfl⟩

theorem keep_set_bcd (c s' : chip_8) (x : Nat) (h : set_bcd c x = .ok s') :
    s'.pixels = c.pixels ∧ s'.stack_pos = c.stack_pos := by
  unfold set_bcd at h
  simp only at h
  split at h
  · simp at h
  · rename_i c1 h1
    split at h
    · simp at h
    · rename_i c2 h2
      split at h
      · simp at h
      · rename_i c3 h3
        simp only [Except.ok.injEq] at h
        subst h
        have k1 := keep_mem_write _ _ _ _ h1
        have k2 := keep_mem_write _ _ _ _ h2
        have k3 := keep_mem_write _ _ _ _ h3
        exact ⟨by show c3.pixels = _; rw [k3.1, k2.1, k1.1],
          by show c3.stack_pos = _; rw [k3.2, k2.2, k1.2]⟩

theorem keep_reg_dump (c s' : chip_8) (x : Nat) (h : reg_dump c x = .ok s') :
    s'.pixels = c.pixels ∧ s'.stack_pos = c.stack_pos := by
  unfold reg_dump at h
  split at h
  · simp at h
  · rename_i c1 h1
    simp only [Except.ok.injEq] at h
    subst h
    exact foldlM_preserves (fun z => z.pixels = c.pixels ∧ z.stack_pos = c.stack_pos)
      reg_dump_body
      (fun z a z' hz hp => by
        have k := keep_mem_write _ _ _ _ hz
        exact ⟨k.1.trans hp.1, k.2.trans hp.2⟩)
      _ c c1 h1 ⟨rfl, rfl⟩

theorem keep_reg_load_body (c c' : chip_8) (i : Nat) (h : reg_load_body c i = .ok c') :
    c'.pixels = c.pixels ∧ c'.stack_pos = c.stack_pos := by
  unfold reg_load_body at h
  split at h
  · simp at h
  · simp only [Except.ok.injEq] at h
    subst h
    exact ⟨rfl, rfl⟩

theorem keep_reg_load (c s' : chip_8) (x : Nat) (h : reg_load c x = .ok s') :
    s'.pixels = c.pixels ∧ s'.stack_pos = c.stack_pos := by
  unfold reg_load at h
  split at h
  · simp at h
  · rename_i c1 h1
    simp only [Except.ok.injEq] at h
    subst h
    exact foldlM_preserves (fun z => z.pixels = c.pixels ∧ z.stack_pos = c.stack_pos)
      reg_load_body
      (fun z a z' hz hp => by
        have k := keep_reg_load_body _ _ _ hz
        exact ⟨k.1.trans hp.1, k.2.trans hp.2⟩)
      _ c c1 h1 ⟨rfl, rfl⟩
theorem xor_on_off (old dc : Nat) (ho : old = 0 ∨ old = SCREEN_COLOR)
    (hd : dc = 0 ∨ dc = SCREEN_COLOR) : old ^^^ dc = 0 ∨ old ^^^ dc = SCREEN_COLOR := by
  rcases ho with h | h <;> rcases hd with h' | h' <;> subst h h'
  · left; rfl
  · right; exact Nat.zero_xor _
  · right; exact Nat.xor_zero _
  · left; exact Nat.xor_self _

theorem ite_stack_pos (p : Prop) [Decidable p] (a b c : chip_8)
    (ha : a.stack_pos = c.stack_pos) (hb : b.stack_pos = c.stack_pos) :
    (if p then a else b).stack_pos = c.stack_pos := by
  split <;> assumption

theorem ite_pixels (p : Prop) [Decidable p] (a b c : chip_8)
    (ha : a.pixels = c.pixels) (hb : b.pixels = c.pixels) :
    (if p then a else b).pixels = c.pixels := by
  split <;> assumption

theorem draw_pixel_keeps (xs ys y x : Nat) (c c' : chip_8)
    (h : draw_pixel xs ys y x c = .ok c') :
    c'.stack_pos = c.stack_pos ∧ (on_off c → on_off c') := by
  unfold draw_pixel at h
  simp only at h
  split at h
  · simp at h
  · rename_i byte hm
    simp only [Except.ok.injEq] at h
    subst h
    constructor
    · exact ite_stack_pos _ { c with registers := upd c.registers VF 1 } c c rfl rfl
    · intro hon r hr k hk
      show upd2 (if _ then _ else c : chip_8).pixels _ _ _ r k = 0
        ∨ upd2 (if _ then _ else c : chip_8).pixels _ _ _ r k = SCREEN_COLOR
      rw [ite_pixels _ { c with registers := upd c.registers VF 1 } c c rfl rfl]
      unfold upd2
      split
      · apply xor_on_off
        · exact hon _ (Nat.mod_lt _ (by decide)) _ (Nat.mod_lt _ (by decide))
        · split
          · right; rfl
          · left; rfl
      · exact hon r hr k hk

theorem draw_sprite_keeps (c c' : chip_8) (x y n : Nat)
    (h : draw_sprite c x y n = .ok c') :
    c'.stack_pos = c.stack_pos ∧ (on_off c → on_off c') := by
  unfold draw_sprite at h
  simp only at h
  split at h
  · simp at h
  · rename_i c1 h1
    simp only [Except.ok.injEq] at h
    subst h
    have hrow : ∀ (P : chip_8 → Prop),
        (∀ z a b z', draw_pixel (c.registers x) (c.registers y) a b z = .ok z' → P z → P z') →
        P { c with registers := upd c.registers VF 0 } → P c1 := by
      intro P hP h0
      refine foldlM_preserves P _ ?_ _ _ _ h1 h0
      intro z a z' hz hp
      exact foldlM_preserves P _ (fun w b w' hw hpw => hP w a b w' hw hpw) _ _ _ hz hp
    constructor
    · exact hrow (fun z => z.stack_pos = c.stack_pos)
        (fun z a b z' hz hp => (draw_pixel_keeps _ _ _ _ _ _ hz).1.trans hp) rfl
    · intro hon
      exact hrow on_off (fun z a b z' hz hp => (draw_pixel_keeps _ _ _ _ _ _ hz).2 hp) hon
/-! ## Effect of one executed instruction, family by family -/

theorem keep_to_bound (c s' : chip_8)
    (h : s'.pixels = c.pixels ∧ s'.stack_pos = c.stack_pos) :
    s'.pixels = c.pixels ∧ (c.stack_pos < 16 → s'.stack_pos < 16) :=
  ⟨h.1, fun hs => by rw [h.2]; exact hs⟩

theorem draw_inv (e : Except Fault chip_8) (s' : chip_8) (r : Nat)
    (h : (match e with
      | .ok c1 => (.ok (2, c1) : Except Fault (Nat × chip_8))
      | .error e => .error e) = .ok (r, s')) : e = .ok s' := by
  cases e with
  | error e => simp at h
  | ok c1 =>
    simp only [Except.ok.injEq, Prod.mk.injEq] at h
    rw [h.2]

theorem execute_fetch_in_bounds (c : chip_8) (rnd r : Nat) (s' : chip_8)
    (h : execute c rnd = .ok (r, s')) : c.program_counter + 1 < 4096 := by
  by_contra hn
  by_cases h1 : c.program_counter < 4096
  · simp [execute, mem_read, h1, hn] at h
  · simp [execute, mem_read, h1] at h

theorem effect_1 (c : chip_8) (rnd r : Nat) (s' : chip_8)
    (hpc : c.program_counter + 1 < 4096)
    (hk : c.memory c.program_counter >>> 4 = 1)
    (h : execute c rnd = .ok (r, s')) :
    s'.pixels = c.pixels ∧ (c.stack_pos < 16 → s'.stack_pos < 16) := by
  have h1 : c.program_counter < 4096 := by omega
  simp only [execute, mem_read, MEMORY_SIZE, h1, hpc, if_true, hk] at h
  rw [normal_inv _ _ _ h]
  exact ⟨rfl, fun hs => hs⟩

theorem effect_2 (c : chip_8) (rnd r : Nat) (s' : chip_8)
    (hpc : c.program_counter + 1 < 4096)
    (hk : c.memory c.program_counter >>> 4 = 2)
    (h : execute c rnd = .ok (r, s')) :
    s'.pixels = c.pixels ∧ (c.stack_pos < 16 → s'.stack_pos < 16) := by
  have h1 : c.program_counter < 4096 := by omega
  simp only [execute, mem_read, MEMORY_SIZE, h1, hpc, if_true, hk] at h
  rw [normal_inv _ _ _ h]
  exact keep_call_subroutine _ _

theorem effect_3 (c : chip_8) (rnd r : Nat) (s' : chip_8)
    (hpc : c.program_counter + 1 < 4096)
    (hk : c.memory c.program_counter >>> 4 = 3)
    (h : execute c rnd = .ok (r, s')) :
    s'.pixels = c.pixels ∧ (c.stack_pos < 16 → s'.stack_pos < 16) := by
  have h1 : c.program_counter < 4096 := by omega
  simp only [execute, mem_read, MEMORY_SIZE, h1, hpc, if_true, hk] at h
  rw [normal_inv _ _ _ h]
  exact keep_to_bound _ _ (keep_skip_equal _ _ _)

theorem effect_4 (c : chip_8) (rnd r : Nat) (s' : chip_8)
    (hpc : c.program_counter + 1 < 4096)
    (hk : c.memory c.program_counter >>> 4 = 4)
    (h : execute c rnd = .ok (r, s')) :
    s'.pixels = c.pixels ∧ (c.stack_pos < 16 → s'.stack_pos < 16) := by
  have h1 : c.program_counter < 4096 := by omega
  simp only [execute, mem_read, MEMORY_SIZE, h1, hpc, if_true, hk] at h
  rw [normal_inv _ _ _ h]
  exact keep_to_bound _ _ (keep_skip_not_equal _ _ _)

theorem effect_5 (c : chip_8) (rnd r : Nat) (s' : chip_8)
    (hpc : c.program_counter + 1 < 4096)
    (hk : c.memory c.program_counter >>> 4 = 5)
    (h : execute c rnd = .ok (r, s')) :
    s'.pixels = c.pixels ∧ (c.stack_pos < 16 → s'.stack_pos < 16) := by
  have h1 : c.program_counter < 4096 := by omega
  simp only [execute, mem_read, MEMORY_SIZE, h1, hpc, if_true, hk] at h
  rw [normal_inv _ _ _ h]
  exact keep_to_bound _ _ (keep_skip_equal_reg _ _ _)

theorem effect_6 (c : chip_8) (rnd r : Nat) (s' : chip_8)
    (hpc : c.program_counter + 1 < 4096)
    (hk : c.memory c.program_counter >>> 4 = 6)
    (h : execute c rnd = .ok (r, s')) :
    s'.pixels = c.pixels ∧ (c.stack_pos < 16 → s'.stack_pos < 16) := by
  have h1 : c.program_counter < 4096 := by omega
  simp only [execute, mem_read, MEMORY_SIZE, h1, hpc, if_true, hk] at h
  rw [normal_inv _ _ _ h]
  exact ⟨rfl, fun hs => hs⟩

theorem effect_7 (c : chip_8) (rnd r : Nat) (s' : chip_8)
    (hpc : c.program_counter + 1 < 4096)
    (hk : c.memory c.program_counter >>> 4 = 7)
    (h : execute c rnd = .ok (r, s')) :
    s'.pixels = c.pixels ∧ (c.stack_pos < 16 → s'.stack_pos < 16) := by
  have h1 : c.program_counter < 4096 := by omega
  simp only [execute, mem_read, MEMORY_SIZE, h1, hpc, if_true, hk] at h
  rw [normal_inv _ _ _ h]
  exact ⟨rfl, fun hs => hs⟩

theorem effect_9 (c : chip_8) (rnd r : Nat) (s' : chip_8)
    (hpc : c.program_counter + 1 < 4096)
    (hk : c.memory c.program_counter >>> 4 = 9)
    (h : execute c rnd = .ok (r, s')) :
    s'.pixels = c.pixels ∧ (c.stack_pos < 16 → s'.stack_pos < 16) := by
  have h1 : c.program_counter < 4096 := by omega
  simp only [execute, mem_read, MEMORY_SIZE, h1, hpc, if_true, hk] at h
  rw [normal_inv _ _ _ h]
  exact keep_to_bound _ _ (keep_skip_not_equal_reg _ _ _)

theorem effect_10 (c : chip_8) (rnd r : Nat) (s' : chip_8)
    (hpc : c.program_counter + 1 < 4096)
    (hk : c.memory c.program_counter >>> 4 = 10)
    (h : execute c rnd = .ok (r, s')) :
    s'.pixels = c.pixels ∧ (c.stack_pos < 16 → s'.stack_pos < 16) := by
  have h1 : c.program_counter < 4096 := by omega
  simp only [execute, mem_read, MEMORY_SIZE, h1, hpc, if_true, hk] at h
  rw [normal_inv _ _ _ h]
  exact ⟨rfl, fun hs => hs⟩

theorem effect_11 (c : chip_8) (rnd r : Nat) (s' : chip_8)
    (hpc : c.program_counter + 1 < 4096)
    (hk : c.memory c.program_counter >>> 4 = 11)
    (h : execute c rnd = .ok (r, s')) :
    s'.pixels = c.pixels ∧ (c.stack_pos < 16 → s'.stack_pos < 16) := by
  have h1 : c.program_counter < 4096 := by omega
  simp only [execute, mem_read, MEMORY_SIZE, h1, hpc, if_true, hk] at h
  rw [normal_inv _ _ _ h]
  exact ⟨rfl, fun hs => hs⟩

theorem effect_12 (c : chip_8) (rnd r : Nat) (s' : chip_8)
    (hpc : c.program_counter + 1 < 4096)
    (hk : c.memory c.program_counter >>> 4 = 12)
    (h : execute c rnd = .ok (r, s')) :
    s'.pixels = c.pixels ∧ (c.stack_pos < 16 → s'.stack_pos < 16) := by
  have h1 : c.program_counter < 4096 := by omega
  simp only [execute, mem_read, MEMORY_SIZE, h1, hpc, if_true, hk] at h
  rw [normal_inv _ _ _ h]
  exact ⟨rfl, fun hs => hs⟩

theorem effect_8 (c : chip_8) (rnd r : Nat) (s' : chip_8)
    (hpc : c.program_counter + 1 < 4096)
    (hk : c.memory c.program_counter >>> 4 = 8)
    (h : execute c rnd = .ok (r, s')) :
    s'.pixels = c.pixels ∧ (c.stack_pos < 16 → s'.stack_pos < 16) := by
  have h1 : c.program_counter < 4096 := by omega
  simp only [execute, mem_read, MEMORY_SIZE, h1, hpc, if_true, hk] at h
  split_ifs at h
  · rw [normal_inv _ _ _ h]
    exact ⟨rfl, fun hs => hs⟩
  · rw [normal_inv _ _ _ h]
    exact ⟨rfl, fun hs => hs⟩
  · rw [normal_inv _ _ _ h]
    exact ⟨rfl, fun hs => hs⟩
  · rw [normal_inv _ _ _ h]
    exact ⟨rfl, fun hs => hs⟩
  · rw [normal_inv _ _ _ h]
    exact ⟨rfl, fun hs => hs⟩
  · rw [normal_inv _ _ _ h]
    exact ⟨rfl, fun hs => hs⟩
  · rw [normal_inv _ _ _ h]
    exact ⟨rfl, fun hs => hs⟩
  · rw [normal_inv _ _ _ h]
    exact ⟨rfl, fun hs => hs⟩
  · rw [normal_inv _ _ _ h]
    exact ⟨rfl, fun hs => hs⟩
  · exact (not_implemented_status _ _ _ h).elim

theorem effect_14 (c : chip_8) (rnd r : Nat) (s' : chip_8)
    (hpc : c.program_counter + 1 < 4096)
    (hk : c.memory c.program_counter >>> 4 = 14)
    (h : execute c rnd = .ok (r, s')) :
    s'.pixels = c.pixels ∧ (c.stack_pos < 16 → s'.stack_pos < 16) := by
  have h1 : c.program_counter < 4096 := by omega
  simp only [execute, mem_read, MEMORY_SIZE, h1, hpc, if_true, hk] at h
  split_ifs at h
  · exact keep_to_bound _ _ (keep_skip_if_key_pressed _ _ _ (normal_of_inv _ _ _ h))
  · exact keep_to_bound _ _ (keep_skip_if_key_not_pressed _ _ _ (normal_of_inv _ _ _ h))
  · exact (not_implemented_status _ _ _ h).elim

theorem effect_15 (c : chip_8) (rnd r : Nat) (s' : chip_8)
    (hpc : c.program_counter + 1 < 4096)
    (hk : c.memory c.program_counter >>> 4 = 15)
    (h : execute c rnd = .ok (r, s')) :
    s'.pixels = c.pixels ∧ (c.stack_pos < 16 → s'.stack_pos < 16) := by
  have h1 : c.program_counter < 4096 := by omega
  simp only [execute, mem_read, MEMORY_SIZE, h1, hpc, if_true, hk] at h
  split_ifs at h
  · rw [normal_inv _ _ _ h]
    exact ⟨rfl, fun hs => hs⟩
  · rw [normal_inv _ _ _ h]
    exact ⟨rfl, fun hs => hs⟩
  · rw [normal_inv _ _ _ h]
    exact ⟨rfl, fun hs => hs⟩
  · rw [normal_inv _ _ _ h]
    exact ⟨rfl, fun hs => hs⟩
  · rw [normal_inv _ _ _ h]
    exact ⟨rfl, fun hs => hs⟩
  · rw [normal_inv _ _ _ h]
    exact ⟨rfl, fun hs => hs⟩
  · exact keep_to_bound _ _ (keep_set_bcd _ _ _ (normal_of_inv _ _ _ h))
  · exact keep_to_bound _ _ (keep_reg_dump _ _ _ (normal_of_inv _ _ _ h))
  · exact keep_to_bound _ _ (keep_reg_load _ _ _ (normal_of_inv _ _ _ h))
  · exact (not_implemented_status _ _ _ h).elim

theorem effect_13 (c : chip_8) (rnd r : Nat) (s' : chip_8)
    (hpc : c.program_counter + 1 < 4096)
    (hk : c.memory c.program_counter >>> 4 = 13)
    (h : execute c rnd = .ok (r, s')) :
    draw_sprite c (c.memory c.program_counter &&& 0xf) (c.memory (c.program_counter + 1) >>> 4) (c.memory (c.program_counter + 1) &&& 0xf) = .ok s' := by
  have h1 : c.program_counter < 4096 := by omega
  simp only [execute, mem_read, MEMORY_SIZE, h1, hpc, if_true, hk] at h
  exact draw_inv _ _ _ h

theorem effect_0 (c : chip_8) (rnd r : Nat) (s' : chip_8)
    (hpc : c.program_counter + 1 < 4096)
    (hk : c.memory c.program_counter >>> 4 = 0)
    (h : execute c rnd = .ok (r, s')) :
    (((c.memory c.program_counter <<< 8) ||| c.memory (c.program_counter + 1) = 0x00E0 → s' = clear_screen c)
      ∧ (¬ ((c.memory c.program_counter <<< 8) ||| c.memory (c.program_counter + 1) = 0x00E0) → s'.pixels = c.pixels))
    ∧ (c.stack_pos < 16 → s'.stack_pos < 16) := by
  have h1 : c.program_counter < 4096 := by omega
  simp only [execute, mem_read, MEMORY_SIZE, h1, hpc, if_true, hk] at h
  split_ifs at h with f1 f2
  · have e := normal_inv _ _ _ h
    subst e
    exact ⟨⟨fun _ => rfl, fun hn => absurd f1 hn⟩, fun hs => hs⟩
  · have k := keep_return_from_subroutine _ _ (normal_of_inv _ _ _ h)
    exact ⟨⟨fun hf => absurd hf f1, fun _ => k.1⟩, k.2⟩
  · exact (not_implemented_status _ _ _ h).elim

theorem effect_default (c : chip_8) (rnd r : Nat) (s' : chip_8)
    (hpc : c.program_counter + 1 < 4096)
    (hk : 16 ≤ c.memory c.program_counter >>> 4)
    (h : execute c rnd = .ok (r, s')) : False := by
  have h1 : c.program_counter < 4096 := by omega
  simp only [execute, mem_read, MEMORY_SIZE, h1, hpc, if_true] at h
  split at h <;> first | omega | exact not_implemented_status _ _ _ h
/-! ## Effect of one step -/

theorem on_off_of_pixels (c s' : chip_8) (h : s'.pixels = c.pixels) (hc : on_off c) :
    on_off s' := by
  intro r hr k hk
  rw [h]
  exact hc r hr k hk

theorem on_off_clear_screen (c : chip_8) : on_off (clear_screen c) :=
  fun _ _ _ _ => Or.inl rfl

theorem execute_effect (c : chip_8) (rnd r : Nat) (s' : chip_8)
    (h : execute c rnd = .ok (r, s')) :
    (c.stack_pos < 16 → s'.stack_pos < 16)
    ∧ (on_off c → on_off s')
    ∧ (c.memory c.program_counter >>> 4 ≠ 0xd →
        ¬ (c.memory c.program_counter >>> 4 = 0 ∧ (c.memory c.program_counter <<< 8) ||| c.memory (c.program_counter + 1) = 0x00E0) →
        s'.pixels = c.pixels)
    ∧ (c.memory c.program_counter >>> 4 = 0 → (c.memory c.program_counter <<< 8) ||| c.memory (c.program_counter + 1) = 0x00E0 →
        s' = clear_screen c) := by
  have hpc := execute_fetch_in_bounds c rnd r s' h
  by_cases hlt : c.memory c.program_counter >>> 4 < 16
  · generalize hk : c.memory c.program_counter >>> 4 = k at hlt ⊢
    interval_cases k
    · have e := effect_0 c rnd r s' hpc hk h
      refine ⟨e.2, fun hc => ?_, fun _ hne => e.1.2 (fun hf => hne ⟨rfl, hf⟩),
        fun _ hf => e.1.1 hf⟩
      by_cases hf : (c.memory c.program_counter <<< 8) ||| c.memory (c.program_counter + 1) = 0x00E0
      · rw [e.1.1 hf]
        exact on_off_clear_screen c
      · exact on_off_of_pixels c s' (e.1.2 hf) hc
    · have e := effect_1 c rnd r s' hpc hk h
      exact ⟨e.2, on_off_of_pixels c s' e.1, fun _ _ => e.1, fun h0 => absurd h0 (by decide)⟩
    · have e := effect_2 c rnd r s' hpc hk h
      exact ⟨e.2, on_off_of_pixels c s' e.1, fun _ _ => e.1, fun h0 => absurd h0 (by decide)⟩
    · have e := effect_3 c rnd r s' hpc hk h
      exact ⟨e.2, on_off_of_pixels c s' e.1, fun _ _ => e.1, fun h0 => absurd h0 (by decide)⟩
    · have e := effect_4 c rnd r s' hpc hk h
      exact ⟨e.2, on_off_of_pixels c s' e.1, fun _ _ => e.1, fun h0 => absurd h0 (by decide)⟩
    · have e := effect_5 c rnd r s' hpc hk h
      exact ⟨e.2, on_off_of_pixels c s' e.1, fun _ _ => e.1, fun h0 => absurd h0 (by decide)⟩
    · have e := effect_6 c rnd r s' hpc hk h
      exact ⟨e.2, on_off_of_pixels c s' e.1, fun _ _ => e.1, fun h0 => absurd h0 (by decide)⟩
    · have e := effect_7 c rnd r s' hpc hk h
      exact ⟨e.2, on_off_of_pixels c s' e.1, fun _ _ => e.1, fun h0 => absurd h0 (by decide)⟩
    · have e := effect_8 c rnd r s' hpc hk h
      exact ⟨e.2, on_off_of_pixels c s' e.1, fun _ _ => e.1, fun h0 => absurd h0 (by decide)⟩
    · have e := effect_9 c rnd r s' hpc hk h
      exact ⟨e.2, on_off_of_pixels c s' e.1, fun _ _ => e.1, fun h0 => absurd h0 (by decide)⟩
    · have e := effect_10 c rnd r s' hpc hk h
      exact ⟨e.2, on_off_of_pixels c s' e.1, fun _ _ => e.1, fun h0 => absurd h0 (by decide)⟩
    · have e := effect_11 c rnd r s' hpc hk h
      exact ⟨e.2, on_off_of_pixels c s' e.1, fun _ _ => e.1, fun h0 => absurd h0 (by decide)⟩
    · have e := effect_12 c rnd r s' hpc hk h
      exact ⟨e.2, on_off_of_pixels c s' e.1, fun _ _ => e.1, fun h0 => absurd h0 (by decide)⟩
    · have e := draw_sprite_keeps _ _ _ _ _ (effect_13 c rnd r s' hpc hk h)
      exact ⟨fun hs => by rw [e.1]; exact hs, e.2, fun hd => absurd rfl hd,
        fun h0 => absurd h0 (by decide)⟩
    · have e := effect_14 c rnd r s' hpc hk h
      exact ⟨e.2, on_off_of_pixels c s' e.1, fun _ _ => e.1, fun h0 => absurd h0 (by decide)⟩
    · have e := effect_15 c rnd r s' hpc hk h
      exact ⟨e.2, on_off_of_pixels c s' e.1, fun _ _ => e.1, fun h0 => absurd h0 (by decide)⟩
  · exact (effect_default c rnd r s' hpc (by omega) h).elim

theorem step_cases (s : chip_8) (rnd r : Nat) (s' : chip_8)
    (h : step s rnd = .ok (r, s')) :
    ((s.waiting_for_key = true ∧ ∀ i, i < 16 → s.keys i = 0) ∧ r = 1 ∧ s' = s)
    ∨ (¬ (s.waiting_for_key = true ∧ ∀ i, i < 16 → s.keys i = 0)
        ∧ ∃ c : chip_8, c.memory = s.memory ∧ c.program_counter = s.program_counter
          ∧ c.pixels = s.pixels ∧ c.stack_pos = s.stack_pos
          ∧ execute c rnd = .ok (r, s')) := by
  cases hw : s.waiting_for_key with
  | false =>
    rw [step_running _ _ hw] at h
    exact Or.inr ⟨fun hi => by simp at hi, s, rfl, rfl, rfl, rfl, h⟩
  | true =>
    simp only [step, hw, if_true] at h
    cases hf : first_pressed_key s with
    | none =>
      simp only [hf, Except.ok.injEq, Prod.mk.injEq] at h
      exact Or.inl ⟨⟨rfl, first_pressed_key_eq_none s hf⟩, h.1.symm, h.2.symm⟩
    | some k =>
      have hne : ¬ (true = true ∧ ∀ i, i < 16 → s.keys i = 0) := by
        rintro ⟨_, hz⟩
        rw [first_pressed_key_none s hz] at hf
        simp at hf
      simp only [hf, key_event] at h
      by_cases ht : s.key_target_reg < 16
      · simp only [ht, if_true] at h
        exact Or.inr ⟨hne,
          { s with registers := upd s.registers s.key_target_reg k, waiting_for_key := false },
          rfl, rfl, rfl, rfl, h⟩
      · simp only [ht, if_false] at h
        exact absurd h (by simp)

theorem step_effect (s : chip_8) (rnd r : Nat) (s' : chip_8)
    (h : step s rnd = .ok (r, s')) :
    (s.stack_pos < 16 → s'.stack_pos < 16) ∧ (on_off s → on_off s') := by
  rcases step_cases s rnd r s' h with ⟨_, _, hs⟩ | ⟨_, c, _, _, hp, hsp, he⟩
  · subst hs
    exact ⟨fun x => x, fun x => x⟩
  · have e := execute_effect c rnd r s' he
    exact ⟨fun x => e.1 (by rw [hsp]; exact x),
      fun x => e.2.1 (on_off_of_pixels s c hp x)⟩
/-! ## Invariants over the reachable states -/

theorem load_program_keeps (c : chip_8) (bytes : List Nat) (c0 : chip_8)
    (h : load_program c bytes = some c0) :
    c0.pixels = c.pixels ∧ c0.stack_pos = c.stack_pos
    ∧ c0.program_counter = c.program_counter := by
  unfold load_program at h
  split at h
  · exact absurd h (by simp)
  · simp only [Option.some.injEq] at h
    subst h
    exact ⟨rfl, rfl, rfl⟩

theorem reachable_keeps (c0 c : chip_8) (h : reachable c0 c) :
    (c0.stack_pos < 16 → c.stack_pos < 16) ∧ (on_off c0 → on_off c) := by
  induction h with
  | start => exact ⟨fun x => x, fun x => x⟩
  | next c c1 keys delay sound rnd r _ hstep ih =>
    have e := step_effect _ rnd r c1 hstep
    exact ⟨fun x => e.1 (ih.1 x), fun x => e.2 (ih.2 x)⟩

/-- C21 (failing input). The program counter leaves the memory without any fault being
reported.  (1) With the two program bytes `1F FF` (jump to `0xFFF`) loaded into the
initial state, the first step succeeds, so its result is a reachable state; there the
program counter is `0xFFF`, which is not within `[0, 4094]`, the second byte of the next
fetch is `memory[0x1000]`, outside the 4096-byte array, and the next step is that
out-of-bounds read.  (2) With the program bytes `00 EE` (return, on the empty stack) the
first step succeeds with the program counter `0xFFFF`, and the next step fetches both
bytes outside the array. -/
theorem program_counter_leaves_memory :
    ∃ c0 c1 d0 d1 : chip_8,
      (load_program init_chip_8 [0x1F, 0xFF] = some c0
        ∧ c0.program_counter = 0x200
        ∧ step c0 0 = .ok (0, c1) ∧ reachable c0 c1
        ∧ c1.program_counter = 0xFFF ∧ ¬ (c1.program_counter ≤ 4094)
        ∧ mem_read c1 (c1.program_counter + 1) = .error .out_of_bounds
        ∧ step c1 0 = .error .out_of_bounds)
      ∧ (load_program init_chip_8 [0x00, 0xEE] = some d0
        ∧ d0.program_counter = 0x200
        ∧ step d0 0 = .ok (0, d1) ∧ reachable d0 d1
        ∧ d1.program_counter = 0xFFFF ∧ ¬ (d1.program_counter ≤ 4094)
        ∧ mem_read d1 d1.program_counter = .error .out_of_bounds
        ∧ step d1 0 = .error .out_of_bounds) :=
  ⟨_, _, _, _,
    ⟨rfl, rfl, rfl, reachable.next _ _ (fun _ => 0) 0 0 0 0 (reachable.start) rfl, rfl,
      by decide, rfl, rfl⟩,
    ⟨rfl, rfl, rfl, reachable.next _ _ (fun _ => 0) 0 0 0 0 (reachable.start) rfl, rfl,
      by decide, rfl, rfl⟩⟩

/-- C22. Framebuffer invariant.  The predicate `on_off` (every one of the 32 x 64 pixels
is 0 or `SCREEN_COLOR`) holds in the initial state and after any program has been loaded;
every step that succeeds preserves it, whatever the instruction; `draw_sprite` preserves
it for every pair of coordinate registers, every sprite height and every content of the
memory and of the registers (so also for sprites that wrap and overlap themselves), and
so does `clear_screen`; hence it holds in every state the main loop reaches. -/
theorem framebuffer_invariant :
    on_off init_chip_8
    ∧ (∀ (bytes : List Nat) (c0 : chip_8),
        load_program init_chip_8 bytes = some c0 → on_off c0)
    ∧ (∀ (s : chip_8) (rnd r : Nat) (s' : chip_8),
        on_off s → step s rnd = .ok (r, s') → on_off s')
    ∧ (∀ (c : chip_8) (x y n : Nat) (c' : chip_8),
        on_off c → draw_sprite c x y n = .ok c' → on_off c')
    ∧ (∀ c : chip_8, on_off (clear_screen c))
    ∧ (∀ (bytes : List Nat) (c0 c : chip_8),
        load_program init_chip_8 bytes = some c0 → reachable c0 c → on_off c) := by
  have hinit : on_off init_chip_8 := fun _ _ _ _ => Or.inl rfl
  have hload : ∀ (bytes : List Nat) (c0 : chip_8),
      load_program init_chip_8 bytes = some c0 → on_off c0 := fun bytes c0 h =>
    on_off_of_pixels init_chip_8 c0 (load_program_keeps init_chip_8 bytes c0 h).1 hinit
  exact ⟨hinit, hload,
    fun s rnd r s' hs h => (step_effect s rnd r s' h).2 hs,
    fun c x y n c' hc h => (draw_sprite_keeps c c' x y n h).2 hc,
    on_off_clear_screen,
    fun bytes c0 c h hr => (reachable_keeps c0 c hr).2 (hload bytes c0 h)⟩

theorem framebuffer_invariant_witness :
    on_off example_drawn
    ∧ example_drawn.pixels 30 60 = SCREEN_COLOR
    ∧ on_off (clear_screen example_clear)
    ∧ on_off (call_subroutine example_drawn_call 0x300) :=
  have h0 : on_off example_draw := fun _ _ _ _ => Or.inl rfl
  have h1 : on_off example_drawn :=
    framebuffer_invariant.2.2.2.1 example_draw 0 1 4 example_drawn h0
      (draw_sprite_eq example_draw 0 1 4 (by decide) (by decide))
  ⟨h1, by decide,
    framebuffer_invariant.2.2.1 example_clear 0 0 (clear_screen example_clear) h1 rfl,
    framebuffer_invariant.2.2.1 example_drawn_call 0 0
      (call_subroutine example_drawn_call 0x300) h1 rfl⟩

/-- C23. Stack-pointer invariant.  `stack_pos < 16` holds in the initial state and after
any program has been loaded.  `push` preserves it, and `push` either leaves the state
unchanged or stores at the index `stack_pos + 1`, which is below 16.  Under the invariant
`pop` never reads outside the 16-entry array: it returns a result, either the unchanged
state (empty stack) or the entry at the index `stack_pos`, and the invariant holds after
it.  Every step that succeeds preserves the invariant, so it holds in every state the
main loop reaches. -/
theorem stack_pointer_invariant :
    init_chip_8.stack_pos < 16
    ∧ (∀ (bytes : List Nat) (c0 : chip_8),
        load_program init_chip_8 bytes = some c0 → c0.stack_pos < 16)
    ∧ (∀ (c : chip_8) (v : Nat), c.stack_pos < 16 →
        (push c v).stack_pos < 16
        ∧ (push c v = c
          ∨ (c.stack_pos + 1 < 16
            ∧ push c v = { c with stack_pos := c.stack_pos + 1,
                                  stack := upd c.stack (c.stack_pos + 1) v })))
    ∧ (∀ c : chip_8, c.stack_pos < 16 →
        ∃ (v : Nat) (c' : chip_8), pop c = .ok (v, c') ∧ c'.stack_pos < 16
          ∧ ((c.stack_pos = 0 ∧ c' = c)
            ∨ (0 < c.stack_pos ∧ v = c.stack c.stack_pos
              ∧ c' = { c with stack_pos := c.stack_pos - 1 })))
    ∧ (∀ (s : chip_8) (rnd r : Nat) (s' : chip_8),
        s.stack_pos < 16 → step s rnd = .ok (r, s') → s'.stack_pos < 16)
    ∧ (∀ (bytes : List Nat) (c0 c : chip_8),
        load_program init_chip_8 bytes = some c0 → reachable c0 c → c.stack_pos < 16) := by
  have hinit : init_chip_8.stack_pos < 16 := by decide
  have hload : ∀ (bytes : List Nat) (c0 : chip_8),
      load_program init_chip_8 bytes = some c0 → c0.stack_pos < 16 := by
    intro bytes c0 h
    rw [(load_program_keeps init_chip_8 bytes c0 h).2.1]
    exact hinit
  refine ⟨hinit, hload, ?_, ?_,
    fun s rnd r s' hs h => (step_effect s rnd r s' h).1 hs,
    fun bytes c0 c h hr => (reachable_keeps c0 c hr).1 (hload bytes c0 h)⟩
  · intro c v hs
    refine ⟨push_stack_pos c v hs, ?_⟩
    unfold push
    by_cases hg : c.stack_pos + 1 ≥ STACK_SIZE - 1
    · left
      rw [if_pos hg]
    · right
      rw [if_neg hg]
      have h15 : c.stack_pos + 1 < 15 := by
        simp only [STACK_SIZE] at hg
        omega
      have hu : u8 (c.stack_pos + 1) = c.stack_pos + 1 := by
        unfold u8
        omega
      refine ⟨by omega, ?_⟩
      simp only [hu]
  · intro c hs
    unfold pop
    by_cases h0 : c.stack_pos = 0
    · rw [if_pos h0]
      exact ⟨_, _, rfl, hs, Or.inl ⟨h0, rfl⟩⟩
    · have hlt : c.stack_pos < STACK_SIZE := hs
      rw [if_neg h0, if_pos hlt]
      exact ⟨_, _, rfl, show c.stack_pos - 1 < 16 by omega,
        Or.inr ⟨Nat.pos_of_ne_zero h0, rfl, rfl⟩⟩

theorem stack_pointer_invariant_witness :
    (push example_full_stack 0x202).stack_pos < 16
    ∧ (push example_called 0x302).stack_pos < 16
    ∧ (call_subroutine example_full_stack 0x300).stack_pos < 16
    ∧ (call_subroutine example_calls 0x300).stack_pos < 16 :=
  ⟨(stack_pointer_invariant.2.2.1 example_full_stack 0x202 (by decide)).1,
    (stack_pointer_invariant.2.2.1 example_called 0x302 (by decide)).1,
    stack_pointer_invariant.2.2.2.2.1 example_full_stack 0 0
      (call_subroutine example_full_stack 0x300) (by decide) rfl,
    stack_pointer_invariant.2.2.2.2.1 example_calls 0 0
      (call_subroutine example_calls 0x300) (by decide) rfl⟩

/-- C24. Framebuffer frame.  Let `a b` be the two hexadecimal digits of the byte at the
program counter and `lo` the byte after it.  (1) After every step that succeeds on an
instruction that is neither a draw-sprite `Dxyn` (`a = 0xD`) nor the clear-screen `00E0`,
the framebuffer is identical to the one before the step.  (2) The same holds for every
idle key-wait step (waiting, no key pressed), whatever the instruction at the program
counter.  (3) After every step that executes `00E0` every pixel is off, and (4) a running
machine with the instruction inside memory does execute `00E0`, yielding
`clear_screen`. -/
theorem framebuffer_frame (s : chip_8) (rnd a b lo : Nat)
    (hhi : s.memory s.program_counter = 16 * a + b) (hb : b < 16)
    (hlo : s.memory (s.program_counter + 1) = lo) (hlo8 : lo < 256) :
    (∀ (r : Nat) (s' : chip_8), step s rnd = .ok (r, s') →
        a ≠ 0xd → ¬ (a = 0 ∧ b = 0 ∧ lo = 0xE0) → s'.pixels = s.pixels)
    ∧ (∀ (r : Nat) (s' : chip_8), step s rnd = .ok (r, s') →
        s.waiting_for_key = true → (∀ i, i < 16 → s.keys i = 0) → s'.pixels = s.pixels)
    ∧ (∀ (r : Nat) (s' : chip_8), step s rnd = .ok (r, s') →
        ¬ (s.waiting_for_key = true ∧ ∀ i, i < 16 → s.keys i = 0) →
        a = 0 → b = 0 → lo = 0xE0 → ∀ y x, s'.pixels y x = 0)
    ∧ (s.waiting_for_key = false → s.program_counter + 1 < 4096 →
        a = 0 → b = 0 → lo = 0xE0 →
        step s rnd = .ok (0, clear_screen s) ∧ ∀ y x, (clear_screen s).pixels y x = 0) := by
  obtain ⟨d1, _, _, _, d5, _⟩ := decode_facts a b lo hb hlo8
  have key : ∀ (r : Nat) (s' : chip_8), step s rnd = .ok (r, s') →
      ¬ (s.waiting_for_key = true ∧ ∀ i, i < 16 → s.keys i = 0) →
      (a ≠ 0xd → ¬ (a = 0 ∧ b = 0 ∧ lo = 0xE0) → s'.pixels = s.pixels)
      ∧ (a = 0 → b = 0 → lo = 0xE0 → ∀ y x, s'.pixels y x = 0) := by
    intro r s' h hni
    rcases step_cases s rnd r s' h with ⟨hi, _, _⟩ | ⟨_, c, hm, hp, hpx, _, he⟩
    · exact absurd hi hni
    · have e := (execute_effect c rnd r s' he).2.2
      rw [hm, hp, hhi, hlo, d1, d5] at e
      refine ⟨fun had hne => ?_, fun ha0 hb0 hl0 => ?_⟩
      · rw [← hpx]
        exact e.1 had (fun hf => hne ⟨hf.1, by omega, by omega⟩)
      · have hs' := e.2 ha0 (by omega)
        rw [hs']
        intro y x
        rfl
  refine ⟨?_, ?_, fun r s' h hni => (key r s' h hni).2, ?_⟩
  · intro r s' h had hne
    rcases step_cases s rnd r s' h with ⟨_, _, hs⟩ | ⟨hni, _⟩
    · rw [hs]
    · exact (key r s' h hni).1 had hne
  · intro r s' h hw hk
    rcases step_cases s rnd r s' h with ⟨_, _, hs⟩ | ⟨hni, _⟩
    · rw [hs]
    · exact absurd ⟨hw, hk⟩ hni
  · intro hw hpc ha0 hb0 hl0
    subst ha0
    have hx := execute_hi_0 s rnd b lo hpc hhi hb hlo hlo8
    rw [if_pos (by omega)] at hx
    rw [step_running s rnd hw, hx]
    exact ⟨rfl, fun _ _ => rfl⟩

theorem framebuffer_frame_witness :
    (step example_drawn_call 0 = .ok (0, call_subroutine example_drawn_call 0x300)
      ∧ example_drawn_call.pixels 30 60 = SCREEN_COLOR
      ∧ (call_subroutine example_drawn_call 0x300).pixels = example_drawn_call.pixels)
    ∧ (step example_waiting 0 = .ok (1, example_waiting))
    ∧ (step example_clear 0 = .ok (0, clear_screen example_clear)
      ∧ example_clear.pixels 30 60 = SCREEN_COLOR
      ∧ (clear_screen example_clear).pixels 30 60 = 0) :=
  have h1 := framebuffer_frame example_drawn_call 0 2 3 0 (by decide) (by decide)
    (by decide) (by decide)
  have h2 := framebuffer_frame example_clear 0 0 0 0xE0 (by decide) (by decide)
    (by decide) (by decide)
  have e2 := h2.2.2.2 rfl (by decide) rfl rfl rfl
  ⟨⟨rfl, by decide,
      h1.1 0 (call_subroutine example_drawn_call 0x300) rfl (by decide)
        (fun h => absurd h.1 (by decide))⟩,
    rfl,
    ⟨e2.1, by decide, e2.2 30 60⟩⟩

/-! ## Drawing a sprite twice -/

/-- C7. Drawing twice undoes the draw: for `n` at most 32 rows with
`address_register + n <= 4096` and register indices `x`, `y` other than 0xF, both draws
succeed and the framebuffer after the second draw equals the framebuffer before the
first.  The second draw leaves `VF = 1` if and only if the first draw turned at least one
pixel from off to on: this holds whenever the framebuffer before the first draw holds
only on/off values, and so in every state that the main loop reaches from the initial
state with any program loaded. -/
theorem draw_twice_restores (s : chip_8) (x y n : Nat) (hn : n ≤ 32)
    (hI : s.address_register + n ≤ 4096) (hx : x ≠ 0xF) (hy : y ≠ 0xF) :
    draw_sprite s x y n = .ok (draw_sprite_result s x y n)
    ∧ draw_sprite (draw_sprite_result s x y n) x y n
        = .ok (draw_sprite_result (draw_sprite_result s x y n) x y n)
    ∧ (draw_sprite_result (draw_sprite_result s x y n) x y n).pixels = s.pixels
    ∧ ((∀ r c, r < 32 → c < 64 → s.pixels r c = 0 ∨ s.pixels r c = SCREEN_COLOR) →
        ((draw_sprite_result (draw_sprite_result s x y n) x y n).registers 0xF = 1 ↔
          ∃ r c, r < 32 ∧ c < 64 ∧ s.pixels r c = 0
            ∧ (draw_sprite_result s x y n).pixels r c = SCREEN_COLOR))
    ∧ (∀ (bytes : List Nat) (c0 : chip_8),
        load_program init_chip_8 bytes = some c0 → reachable c0 s →
        ((draw_sprite_result (draw_sprite_result s x y n) x y n).registers 0xF = 1 ↔
          ∃ r c, r < 32 ∧ c < 64 ∧ s.pixels r c = 0
            ∧ (draw_sprite_result s x y n).pixels r c = SCREEN_COLOR)) := by
  have flag : (∀ r c, r < 32 → c < 64 → s.pixels r c = 0 ∨ s.pixels r c = SCREEN_COLOR) →
      ((draw_sprite_result (draw_sprite_result s x y n) x y n).registers 0xF = 1 ↔
        ∃ r c, r < 32 ∧ c < 64 ∧ s.pixels r c = 0
          ∧ (draw_sprite_result s x y n).pixels r c = SCREEN_COLOR) := by
    intro hfb
    rw [draw_sprite_result_VF]
    have key : collides (draw_sprite_result s x y n) ((draw_sprite_result s x y n).registers x)
        ((draw_sprite_result s x y n).registers y) (sprite_cells n) = true ↔
        ∃ r c, r < 32 ∧ c < 64 ∧ s.pixels r c = 0
          ∧ (draw_sprite_result s x y n).pixels r c = SCREEN_COLOR := by
      rw [collides_iff_pixel, hits_after_draw s x y n hx hy]
      constructor
      · rintro ⟨r, c, hr, hc, h1, h2⟩
        rw [draw_sprite_result_pixel, h2] at h1
        have hoff : s.pixels r c = 0 := by
          rcases hfb r c hr hc with h | h
          · exact h
          · rw [h] at h1
            exact absurd screen_color_xor_self h1
        refine ⟨r, c, hr, hc, hoff, ?_⟩
        rw [draw_sprite_result_pixel, h2, hoff]
        exact Nat.zero_xor _
      · rintro ⟨r, c, hr, hc, h1, h2⟩
        refine ⟨r, c, hr, hc, by rw [h2]; exact screen_color_ne_zero, ?_⟩
        by_contra hno
        rw [Bool.not_eq_true] at hno
        rw [draw_sprite_result_pixel, hno, h1] at h2
        simp at h2
    constructor
    · intro h
      apply key.1
      by_contra hc
      rw [if_neg hc] at h
      exact absurd h (by decide)
    · intro h
      rw [if_pos (key.2 h)]
  refine ⟨draw_sprite_eq s x y n hn hI, draw_sprite_eq _ x y n hn hI, ?_, flag, ?_⟩
  · funext r c
    rw [draw_sprite_result_pixel, hits_after_draw s x y n hx hy, draw_sprite_result_pixel,
      Nat.xor_assoc, Nat.xor_self, Nat.xor_zero]
  · intro bytes c0 hload hreach
    have h0 : on_off c0 :=
      on_off_of_pixels init_chip_8 c0 (load_program_keeps init_chip_8 bytes c0 hload).1
        (fun _ _ _ _ => Or.inl rfl)
    have hs : on_off s := (reachable_keeps c0 s hreach).2 h0
    exact flag (fun r c hr hc => hs r hr c hc)

/-- C7 (witness): the glyph of `0` drawn twice at `Vx = 60`, `Vy = 30` on the blank
screen; the framebuffer is blank again and the second draw reports a collision. -/
theorem draw_twice_restores_witness :
    draw_sprite example_draw 0 1 4 = .ok (draw_sprite_result example_draw 0 1 4)
    ∧ draw_sprite (draw_sprite_result example_draw 0 1 4) 0 1 4
        = .ok (draw_sprite_result (draw_sprite_result example_draw 0 1 4) 0 1 4)
    ∧ (draw_sprite_result (draw_sprite_result example_draw 0 1 4) 0 1 4).pixels
        = example_draw.pixels
    ∧ (draw_sprite_result (draw_sprite_result example_draw 0 1 4) 0 1 4).registers 0xF = 1 :=
  have h := draw_twice_restores example_draw 0 1 4 (by decide) (by decide) (by decide)
    (by decide)
  ⟨h.1, h.2.1, h.2.2.1,
    (h.2.2.2.1 (fun _ _ _ _ => Or.inl rfl)).2 ⟨30, 60, by decide, by decide, rfl,
      (by
        rw [draw_sprite_result_pixel,
          (hits_iff example_draw _ _ 4 30 60).2
            ⟨0, 0, by decide, by decide, by decide, by decide, by decide⟩]
        rfl)⟩⟩

end Chip8
